import Mathlib

/-!
# chain/chain-training.cc : ComputeChainObjfAndDeriv, ComputeScaleOffset

A shallow embedding of the objective / gradient assembly of
`src/chain/chain-training.cc` and theorems about it.

## Numbers

`BaseFloat` values are modelled as an IEEE-754 style datatype with the three special
values (`nan`, `pinf`, `ninf`) and *exact* rational finite values.  The special values follow
the IEEE rules (`inf - inf = nan`, `0 * inf = nan`, `x / 0 = ±inf`, `0 / 0 = nan`, every
comparison with `nan` is false).  Finite arithmetic is exact: rounding, overflow of
finite results and the sign of zero are not modelled.

## Matrices

A `CuMatrix` / `CuVector` carries its dimensions and its entries (a function of the
index; only the entries inside the dimensions are meaningful).  The matrix library
(`cudamatrix/`) is not among the sources: each operation the assembler calls is modelled
with its documented effect and its dimension assertion.  An operation whose assertion
fails aborts the program; this is the result `none`.

## Engines

The numerator and denominator engines are not among the sources either.  They are
parameters of the assembler (`Collaborators`): each yields a forward log-probability and a
contribution that its backward pass accumulates into the buffer it is given.
-/

namespace kaldi

/-! ## BaseFloat -/

/-- The values of a `BaseFloat`: a finite value, the two infinities, or not-a-number. -/
inductive BaseFloat where
  | fin (q : ℚ)
  | pinf
  | ninf
  | nan
  deriving DecidableEq

namespace BaseFloat

/-- The infinity with the sign of `s`; `nan` when `s` is zero (as in `0 * inf`, `0 / 0`). -/
def ofSign (s : ℚ) : BaseFloat :=
  if 0 < s then pinf else if s < 0 then ninf else nan

/-- Unary minus. -/
def neg : BaseFloat → BaseFloat
  | fin a => fin (-a)
  | pinf => ninf
  | ninf => pinf
  | nan => nan

/-- Addition: `inf + (-inf)` is `nan`. -/
def add : BaseFloat → BaseFloat → BaseFloat
  | fin a, fin b => fin (a + b)
  | fin _, pinf => pinf
  | fin _, ninf => ninf
  | pinf, fin _ => pinf
  | pinf, pinf => pinf
  | ninf, fin _ => ninf
  | ninf, ninf => ninf
  | _, _ => nan

/-- Subtraction, `a - b = a + (-b)`; in particular `inf - inf` and `nan - nan` are `nan`. -/
def sub (a b : BaseFloat) : BaseFloat := add a (neg b)

/-- Multiplication: `0 * inf` is `nan`. -/
def mul : BaseFloat → BaseFloat → BaseFloat
  | fin a, fin b => fin (a * b)
  | fin a, pinf => ofSign a
  | fin a, ninf => ofSign (-a)
  | pinf, fin b => ofSign b
  | ninf, fin b => ofSign (-b)
  | pinf, pinf => pinf
  | pinf, ninf => ninf
  | ninf, pinf => ninf
  | ninf, ninf => pinf
  | _, _ => nan

/-- Division: `x / 0` is an infinity with the sign of `x`, `0 / 0` and `inf / inf` are `nan`. -/
def div : BaseFloat → BaseFloat → BaseFloat
  | fin a, fin b => if b = 0 then ofSign a else fin (a / b)
  | fin _, pinf => fin 0
  | fin _, ninf => fin 0
  | pinf, fin b => if b < 0 then ninf else pinf
  | ninf, fin b => if b < 0 then pinf else ninf
  | _, _ => nan

/-- The C++ comparison `a == b`: false as soon as one side is `nan`. -/
def beq : BaseFloat → BaseFloat → Bool
  | fin a, fin b => decide (a = b)
  | pinf, pinf => true
  | ninf, ninf => true
  | _, _ => false

/-- The C++ comparison `a <= b`: false as soon as one side is `nan`. -/
def ble : BaseFloat → BaseFloat → Bool
  | fin a, fin b => decide (a ≤ b)
  | ninf, fin _ => true
  | ninf, ninf => true
  | ninf, pinf => true
  | fin _, pinf => true
  | pinf, pinf => true
  | _, _ => false

/-- A value is finite when it is neither `nan` nor an infinity. -/
def isFinite : BaseFloat → Bool
  | fin _ => true
  | _ => false

/-- Conversion of an `int32` to `BaseFloat`. -/
def ofInt (n : Int) : BaseFloat := fin n

instance : Add BaseFloat := ⟨add⟩
instance : Sub BaseFloat := ⟨sub⟩
instance : Mul BaseFloat := ⟨mul⟩
instance : Div BaseFloat := ⟨div⟩
instance : Neg BaseFloat := ⟨neg⟩
instance : Inhabited BaseFloat := ⟨fin 0⟩

/-- The sum `f 0 + f 1 + ... + f (n-1)`, accumulated from zero in index order. -/
def sumRange (n : Nat) (f : Nat → BaseFloat) : BaseFloat :=
  (List.range n).foldl (fun acc i => acc + f i) (fin 0)

end BaseFloat

/-! ## Vectors and matrices -/

/-- The transposition flag of the matrix library. -/
inductive MatrixTransposeType where
  | kNoTrans
  | kTrans
  deriving DecidableEq

/-- A vector: its dimension and its entries. -/
structure CuVector where
  dim : Nat
  data : Nat → BaseFloat

/-- A matrix: its dimensions and its entries (row, column). -/
structure CuMatrix where
  numRows : Nat
  numCols : Nat
  data : Nat → Nat → BaseFloat

namespace CuMatrix

/-- Two matrices have the same dimensions. -/
def SameDim (A B : CuMatrix) : Prop :=
  A.numRows = B.numRows ∧ A.numCols = B.numCols

instance (A B : CuMatrix) : Decidable (SameDim A B) := by
  unfold SameDim; exact inferInstance

/-- The matrix read through a transposition flag. -/
def op (M : CuMatrix) : MatrixTransposeType → CuMatrix
  | .kNoTrans => M
  | .kTrans => { numRows := M.numCols, numCols := M.numRows, data := fun i j => M.data j i }

/-- Modelled from the spec: matrix-library operation `SetZero()`: same dimensions, every entry
zero. -/
def SetZero (self : CuMatrix) : CuMatrix :=
  { self with data := fun _ _ => BaseFloat.fin 0 }

/-- Modelled from the spec: library constructor `CuMatrix(rows, cols)`, zero-filled by default. -/
def zeros (rows cols : Nat) : CuMatrix :=
  { numRows := rows, numCols := cols, data := fun _ _ => BaseFloat.fin 0 }

/-- Modelled from the spec: matrix-library operation `CopyFromMat(M)`: asserts equal dimensions,
then copies the entries. -/
def CopyFromMat (self M : CuMatrix) : Option CuMatrix :=
  if SameDim self M then some { self with data := M.data } else none

/-- Modelled from the spec: matrix-library operation `AddMat(alpha, M)`: asserts equal
dimensions; `this += alpha * M`. -/
def AddMat (self : CuMatrix) (alpha : BaseFloat) (M : CuMatrix) : Option CuMatrix :=
  if SameDim self M then
    some { self with data := fun i j => self.data i j + alpha * M.data i j }
  else none

/-- Modelled from the spec: matrix-library operation `AddMatDiagVec(alpha, M, transM, v, beta)`:
`this = beta * this + alpha * op(M) * diag(v)`, column `j` of `op(M)` scaled by `v(j)`. -/
def AddMatDiagVec (self : CuMatrix) (alpha : BaseFloat) (M : CuMatrix)
    (transM : MatrixTransposeType) (v : CuVector) (beta : BaseFloat) : Option CuMatrix :=
  if SameDim self (M.op transM) ∧ v.dim = self.numCols then
    some { self with
      data := fun i j => beta * self.data i j + alpha * ((M.op transM).data i j * v.data j) }
  else none

/-- Modelled from the spec: matrix-library operation `AddVecToRows(alpha, row)`, with the
default `beta = 1.0`: asserts `row.Dim() == NumCols()`; adds `alpha * row` to every row. -/
def AddVecToRows (self : CuMatrix) (alpha : BaseFloat) (row : CuVector) : Option CuMatrix :=
  if row.dim = self.numCols then
    some { self with data := fun i j => self.data i j + alpha * row.data j }
  else none

end CuMatrix

/-- Modelled from the spec: library function `TraceMatMat(A, B, trans)`: the trace of
`A * op(B)`, that is for `kTrans` the sum over all entries of `A(i,j) * B(i,j)`; asserts
that the dimensions of `A` and `op(B)` are compatible. -/
def TraceMatMat (A B : CuMatrix) (trans : MatrixTransposeType) : Option BaseFloat :=
  if A.numRows = (B.op trans).numCols ∧ A.numCols = (B.op trans).numRows then
    some (BaseFloat.sumRange A.numRows fun i =>
      BaseFloat.sumRange A.numCols fun j => A.data i j * (B.op trans).data j i)
  else none

namespace CuVector

/-- Modelled from the spec: library constructor `CuVector(dim)`: zero-filled by default
(`kSetZero`). -/
def zeros (dim : Nat) : CuVector :=
  { dim := dim, data := fun _ => BaseFloat.fin 0 }

/-- Modelled from the spec: vector-library operation `AddDiagMatMat(alpha, M, transM, N, transN,
beta)`:
`this = beta * this + alpha * diag(op(M) * op(N))`. -/
def AddDiagMatMat (self : CuVector) (alpha : BaseFloat) (M : CuMatrix)
    (transM : MatrixTransposeType) (N : CuMatrix) (transN : MatrixTransposeType)
    (beta : BaseFloat) : Option CuVector :=
  if (M.op transM).numCols = (N.op transN).numRows ∧ self.dim = (M.op transM).numRows
      ∧ self.dim = (N.op transN).numCols then
    some { self with
      data := fun i => beta * self.data i + alpha *
        BaseFloat.sumRange (M.op transM).numCols fun k =>
          (M.op transM).data i k * (N.op transN).data k i }
  else none

/-- Modelled from the spec: vector-library operation `AddDiagMat2(alpha, M, trans, beta)`:
`this = beta * this + alpha * diag(op(M) * op(M)^T)`; asserts `dim == op(M).NumRows()`. -/
def AddDiagMat2 (self : CuVector) (alpha : BaseFloat) (M : CuMatrix)
    (trans : MatrixTransposeType) (beta : BaseFloat) : Option CuVector :=
  if self.dim = (M.op trans).numRows then
    some { self with
      data := fun i => beta * self.data i + alpha *
        BaseFloat.sumRange (M.op trans).numCols fun k =>
          (M.op trans).data i k * (M.op trans).data i k }
  else none

/-- Modelled from the spec: vector-library operation `DivElements(v)`: asserts equal dimensions;
elementwise `this /= v`. -/
def DivElements (self v : CuVector) : Option CuVector :=
  if self.dim = v.dim then some { self with data := fun i => self.data i / v.data i } else none

/-- Modelled from the spec: vector-library operation `MulElements(v)`: asserts equal dimensions;
elementwise `this *= v`. -/
def MulElements (self v : CuVector) : Option CuVector :=
  if self.dim = v.dim then some { self with data := fun i => self.data i * v.data i } else none

/-- Modelled from the spec: vector-library operation `AddVec(alpha, v)`: asserts equal
dimensions; `this += alpha * v`. -/
def AddVec (self : CuVector) (alpha : BaseFloat) (v : CuVector) : Option CuVector :=
  if self.dim = v.dim then
    some { self with data := fun i => self.data i + alpha * v.data i }
  else none

/-- Modelled from the spec: vector-library operation `AddMatVec(alpha, M, trans, v, beta)`: `this
= beta * this + alpha * op(M) * v`;
asserts `op(M).NumCols() == v.Dim()` and `op(M).NumRows() == Dim()`. -/
def AddMatVec (self : CuVector) (alpha : BaseFloat) (M : CuMatrix)
    (trans : MatrixTransposeType) (v : CuVector) (beta : BaseFloat) : Option CuVector :=
  if (M.op trans).numCols = v.dim ∧ (M.op trans).numRows = self.dim then
    some { self with
      data := fun i => beta * self.data i + alpha *
        BaseFloat.sumRange (M.op trans).numCols fun k => (M.op trans).data i k * v.data k }
  else none

end CuVector

/-! ## The inputs of the assembler and its collaborators -/

/-- The fields of `Supervision` read by the assembler. -/
structure Supervision where
  weight : BaseFloat
  num_sequences : Int
  frames_per_sequence : Int

/-- The field of `ChainTrainingOptions` read by the assembler. -/
structure ChainTrainingOptions where
  l2_regularize : BaseFloat

/-- The denominator graph: only handed on to the denominator engine. -/
structure DenominatorGraph where

/-- Modelled from the spec: the numerator engine (`chain/chain-numerator.h` is not among the
sources).  Its forward pass yields a log-probability; its backward pass accumulates the
numerator contribution `deriv` into the buffer it is given. -/
structure NumeratorComputation where
  logprob : BaseFloat
  deriv : Nat → Nat → BaseFloat

/-- Modelled from the spec: the denominator engine (`chain/chain-denominator.h` is not among the
sources).  Its forward pass yields a log-probability; its backward pass accumulates
`deriv_weight` times its unit-scale contribution `deriv` into the buffer it is given and
returns a success flag. -/
structure DenominatorComputation where
  logprob : BaseFloat
  deriv : Nat → Nat → BaseFloat
  ok : Bool

/-- Modelled from the spec: `numerator.Forward()`. -/
def NumeratorComputation.Forward (self : NumeratorComputation) : BaseFloat := self.logprob

/-- Modelled from the spec: `numerator.Backward(nnet_output_deriv)`, an accumulation. -/
def NumeratorComputation.Backward (self : NumeratorComputation) (nnet_output_deriv : CuMatrix) :
    CuMatrix :=
  { nnet_output_deriv with data := fun i j => nnet_output_deriv.data i j + self.deriv i j }

/-- Modelled from the spec: `denominator.Forward()`. -/
def DenominatorComputation.Forward (self : DenominatorComputation) : BaseFloat := self.logprob

/-- Modelled from the spec: `denominator.Backward(deriv_weight, nnet_output_deriv)`, an
accumulation with scale `deriv_weight`, returning the success flag. -/
def DenominatorComputation.Backward (self : DenominatorComputation) (deriv_weight : BaseFloat)
    (nnet_output_deriv : CuMatrix) : Bool × CuMatrix :=
  (self.ok, { nnet_output_deriv with
    data := fun i j => nnet_output_deriv.data i j + deriv_weight * self.deriv i j })

/-- What the assembler gets from outside: the two engines, as functions of the arguments
their constructors receive, and the value of `GetVerboseLevel()`. -/
structure Collaborators where
  numerator : Supervision → CuMatrix → NumeratorComputation
  denominator : ChainTrainingOptions → DenominatorGraph → Int → CuMatrix → DenominatorComputation
  verboseLevel : Int

/-! ## ComputeChainObjfAndDeriv -/

/-- Lines 39-57: zero the chain buffer, run the numerator backward pass into it and copy it
to the auxiliary buffer; or, without a chain buffer, zero the auxiliary buffer and run the
numerator backward pass into that.  A missing buffer (null pointer) is `none`. -/
def numeratorPass (numerator : NumeratorComputation)
    (nnet_output_deriv xent_output_deriv : Option CuMatrix) :
    Option (Option CuMatrix × Option CuMatrix) :=
  match nnet_output_deriv with
  | some nd =>
    let nd := numerator.Backward nd.SetZero
    match xent_output_deriv with
    | some xd => (xd.CopyFromMat nd).map fun xd => (some nd, some xd)
    | none => some (some nd, none)
  | none =>
    match xent_output_deriv with
    | some xd => some (none, some (numerator.Backward xd.SetZero))
    | none => some (none, none)

/-- Lines 63-66: `ok` is true unless the denominator backward pass is run and fails. -/
def denominatorPass (denominator : DenominatorComputation) (weight : BaseFloat)
    (nnet_output_deriv : Option CuMatrix) : Bool × Option CuMatrix :=
  match nnet_output_deriv with
  | some nd => ((denominator.Backward (-weight) nd).1, some (denominator.Backward (-weight) nd).2)
  | none => (true, none)

/-- The state after line 84. `warned` records that the `KALDI_WARN` of the fallback was
emitted. -/
structure Assembled where
  objf : BaseFloat
  weight : BaseFloat
  nnet_output_deriv : Option CuMatrix
  xent_output_deriv : Option CuMatrix
  warned : Bool

/-- Lines 68-84: combine the two log-probabilities, compute the weight, and on a non-finite
objective or a failed denominator pass zero both buffers and substitute `-10 * weight`. -/
def failureContainment (supervision : Supervision) (num_logprob_weighted den_logprob : BaseFloat)
    (ok : Bool) (nnet_output_deriv xent_output_deriv : Option CuMatrix) : Assembled :=
  let objf := num_logprob_weighted - supervision.weight * den_logprob
  let weight := supervision.weight * BaseFloat.ofInt supervision.num_sequences *
    BaseFloat.ofInt supervision.frames_per_sequence
  if !(BaseFloat.beq (objf - objf) (BaseFloat.fin 0)) || !ok then
    { objf := BaseFloat.fin (-10) * weight
      weight := weight
      nnet_output_deriv := nnet_output_deriv.map CuMatrix.SetZero
      xent_output_deriv := xent_output_deriv.map CuMatrix.SetZero
      warned := true }
  else
    { objf := objf
      weight := weight
      nnet_output_deriv := nnet_output_deriv
      xent_output_deriv := xent_output_deriv
      warned := false }

/-- Line 98-99: one step of the loop, `row_products_per_frame(i / num_sequences) +=
row_products_cpu(i)`.  It fails on a division by zero and on an index outside
`row_products_per_frame`. -/
def derivsPerFrameStep (supervision : Supervision) (row_products_cpu : CuVector)
    (row_products_per_frame : CuVector) (i : Nat) : Option CuVector :=
  if supervision.num_sequences = 0 then none
  else
    let k := Int.tdiv (i : Int) supervision.num_sequences
    if 0 ≤ k ∧ k.toNat < row_products_per_frame.dim then
      some { row_products_per_frame with
        data := fun n =>
          if n = k.toNat then row_products_per_frame.data n + row_products_cpu.data i
          else row_products_per_frame.data n }
    else none

/-- Lines 90-101: the diagnostic block.  The result is `some none` when the verbose level is
below 1, `some (some v)` when the vector `v` is logged, and `none` when the block fails:
the chain buffer is dereferenced without a null test. -/
def derivsPerFrame (verboseLevel : Int) (supervision : Supervision)
    (nnet_output_deriv : Option CuMatrix) : Option (Option CuVector) :=
  if verboseLevel ≥ 1 then
    match nnet_output_deriv with
    | none => none
    | some nd =>
      let tot_frames := nd.numRows
      ((CuVector.zeros tot_frames).AddDiagMat2 (BaseFloat.fin 1) nd .kNoTrans
          (BaseFloat.fin 0)).bind fun row_products =>
        if supervision.frames_per_sequence < 0 then none
        else
          ((List.range tot_frames).foldlM (derivsPerFrameStep supervision row_products)
            (CuVector.zeros supervision.frames_per_sequence.toNat)).map some
  else some none

/-- Lines 120-131: the scale and offset of the auxiliary-present L2 branch. -/
def scaleAndOffset (nnet_output xent_output : CuMatrix) : Option (CuVector × CuVector) := do
  let scale := CuVector.zeros xent_output.numCols
  let offset := CuVector.zeros xent_output.numCols
  let ones := CuVector.zeros xent_output.numRows
  let scaled_xent_col_sum := CuVector.zeros xent_output.numRows
  let nnet_nnet_product := CuVector.zeros nnet_output.numCols
  let scale ← scale.AddDiagMatMat (BaseFloat.fin 1) xent_output .kTrans nnet_output .kNoTrans
    (BaseFloat.fin 0)
  let nnet_nnet_product ← nnet_nnet_product.AddDiagMat2 (BaseFloat.fin 1) xent_output .kTrans
    (BaseFloat.fin 0)
  let scale ← scale.DivElements nnet_nnet_product
  let offset ← offset.AddMatVec (BaseFloat.fin 1 / BaseFloat.ofInt xent_output.numRows)
    nnet_output .kTrans ones (BaseFloat.fin 0)
  let scaled_xent_col_sum ← scaled_xent_col_sum.AddMatVec (BaseFloat.fin 1) xent_output .kTrans
    ones (BaseFloat.fin 0)
  let scaled_xent_col_sum ← scaled_xent_col_sum.MulElements scale
  let offset ← offset.AddVec (BaseFloat.fin (-1) / BaseFloat.ofInt xent_output.numRows)
    scaled_xent_col_sum
  pure (scale, offset)

/-- Lines 134-137: `output_diff = (scale * xent_output + offset) - nnet_output`. -/
def outputDiff (nnet_output xent_output : CuMatrix) (scale offset : CuVector) :
    Option CuMatrix := do
  let output_diff := CuMatrix.zeros xent_output.numRows xent_output.numCols
  let output_diff ← output_diff.AddMatDiagVec (BaseFloat.fin 1) xent_output .kNoTrans scale
    (BaseFloat.fin 0)
  let output_diff ← output_diff.AddVecToRows (BaseFloat.fin 1) offset
  output_diff.AddMat (BaseFloat.fin (-1)) nnet_output

/-- The result of the L2 step: the term and the two buffers. -/
structure L2Result where
  l2_term : BaseFloat
  nnet_output_deriv : Option CuMatrix
  xent_output_deriv : Option CuMatrix

/-- Lines 103-152: the L2 term and its derivative. -/
def l2Regularization (opts : ChainTrainingOptions) (supervision : Supervision)
    (nnet_output xent_output : CuMatrix) (nnet_output_deriv xent_output_deriv : Option CuMatrix) :
    Option L2Result :=
  if BaseFloat.beq opts.l2_regularize (BaseFloat.fin 0) then
    some { l2_term := BaseFloat.fin 0
           nnet_output_deriv := nnet_output_deriv
           xent_output_deriv := xent_output_deriv }
  else
    let scale_coeff := supervision.weight * opts.l2_regularize
    if xent_output.numRows ≠ 0 then do
      let (scale, offset) ← scaleAndOffset nnet_output xent_output
      let output_diff ← outputDiff nnet_output xent_output scale offset
      let tr ← TraceMatMat output_diff output_diff .kTrans
      let l2_term := BaseFloat.fin (-1/2) * scale_coeff * tr
      let nd ← match nnet_output_deriv with
        | some nd => (nd.AddMat scale_coeff output_diff).map some
        | none => some none
      let xd ← match xent_output_deriv with
        | some xd => (xd.AddMatDiagVec (BaseFloat.fin (-1) * scale_coeff) output_diff .kNoTrans
            scale (BaseFloat.fin 1)).map some
        | none => some none
      pure { l2_term := l2_term, nnet_output_deriv := nd, xent_output_deriv := xd }
    else do
      let tr ← TraceMatMat nnet_output nnet_output .kTrans
      let l2_term := BaseFloat.fin (-1/2) * scale_coeff * tr
      let nd ← match nnet_output_deriv with
        | some nd => (nd.AddMat (BaseFloat.fin (-1) * scale_coeff) nnet_output).map some
        | none => some none
      pure { l2_term := l2_term, nnet_output_deriv := nd, xent_output_deriv := xent_output_deriv }

/-- What the caller finds after the call: the three scalars written through `objf`,
`l2_term` and `weight`, the two buffers, and what was written to the log. -/
structure Outcome where
  objf : BaseFloat
  l2_term : BaseFloat
  weight : BaseFloat
  nnet_output_deriv : Option CuMatrix
  xent_output_deriv : Option CuMatrix
  warned : Bool
  derivs_per_frame : Option CuVector

/-- Lines 38-84 of `ComputeChainObjfAndDeriv`: the numerator and denominator passes and the
failure containment.  The result is the state just before the diagnostic block. -/
def assembleObjfAndDeriv (env : Collaborators) (opts : ChainTrainingOptions)
    (den_graph : DenominatorGraph) (supervision : Supervision) (nnet_output : CuMatrix)
    (nnet_output_deriv xent_output_deriv : Option CuMatrix) : Option Assembled :=
  let numerator := env.numerator supervision nnet_output
  let num_logprob_weighted := numerator.Forward
  (numeratorPass numerator nnet_output_deriv xent_output_deriv).map fun bufs =>
    let denominator := env.denominator opts den_graph supervision.num_sequences nnet_output
    let den_logprob := denominator.Forward
    let den := denominatorPass denominator supervision.weight bufs.1
    failureContainment supervision num_logprob_weighted den_logprob den.1 den.2 bufs.2

/-- The function `ComputeChainObjfAndDeriv` (lines 28-153).  The buffers `nnet_output_deriv` and
`xent_output_deriv` are given with their contents at the call, `none` for a null pointer.
The result is `none` when the call does not return (a failed assertion, a null
dereference). -/
def ComputeChainObjfAndDeriv (env : Collaborators) (opts : ChainTrainingOptions)
    (den_graph : DenominatorGraph) (supervision : Supervision)
    (nnet_output xent_output : CuMatrix)
    (nnet_output_deriv xent_output_deriv : Option CuMatrix) : Option Outcome :=
  (assembleObjfAndDeriv env opts den_graph supervision nnet_output nnet_output_deriv
      xent_output_deriv).bind fun a =>
    (derivsPerFrame env.verboseLevel supervision a.nnet_output_deriv).bind fun logged =>
      (l2Regularization opts supervision nnet_output xent_output a.nnet_output_deriv
          a.xent_output_deriv).map fun l2 =>
        { objf := a.objf
          l2_term := l2.l2_term
          weight := a.weight
          nnet_output_deriv := l2.nnet_output_deriv
          xent_output_deriv := l2.xent_output_deriv
          warned := a.warned
          derivs_per_frame := logged }

/-! ## The calls that return -/

/-- The preconditions of a call.  The shape preconditions of the assembler: `nnet_output`
has `num_sequences * frames_per_sequence` rows, a non-empty `xent_output` and each supplied
gradient buffer have the shape of `nnet_output`.  And the two conditions without which the
body aborts: the diagnostic block (verbose level 1 or more) dereferences the chain buffer,
and the auxiliary-present L2 branch passes its dimension assertions only for a square
`xent_output`. -/
structure WellFormedCall (env : Collaborators) (opts : ChainTrainingOptions)
    (supervision : Supervision) (nnet_output xent_output : CuMatrix)
    (nnet_output_deriv xent_output_deriv : Option CuMatrix) : Prop where
  rows : (nnet_output.numRows : Int) =
    supervision.num_sequences * supervision.frames_per_sequence
  num_sequences_pos : 0 < supervision.num_sequences
  frames_nonneg : 0 ≤ supervision.frames_per_sequence
  xent_shape : xent_output.numRows ≠ 0 → xent_output.SameDim nnet_output
  nnet_deriv_shape : ∀ m, nnet_output_deriv = some m → m.SameDim nnet_output
  xent_deriv_shape : ∀ m, xent_output_deriv = some m → m.SameDim nnet_output
  verbose_needs_deriv : 1 ≤ env.verboseLevel → nnet_output_deriv.isSome = true
  l2_square : opts.l2_regularize.beq (BaseFloat.fin 0) = false → xent_output.numRows ≠ 0 →
    xent_output.numRows = xent_output.numCols

/-- A buffer, when present, has the dimensions of `M`. -/
def BufShape (b : Option CuMatrix) (M : CuMatrix) : Prop :=
  ∀ m, b = some m → m.SameDim M

/-- The sum of the squared entries of a matrix, as `TraceMatMat(M, M, kTrans)` forms it. -/
def sumSquares (M : CuMatrix) : BaseFloat :=
  BaseFloat.sumRange M.numRows fun i => BaseFloat.sumRange M.numCols fun j =>
    M.data i j * M.data i j

/-- Every entry of the buffer inside its dimensions is zero. -/
def CuMatrix.IsZero (M : CuMatrix) : Prop :=
  ∀ i j, i < M.numRows → j < M.numCols → M.data i j = BaseFloat.fin 0

/-- A buffer, when present, is entirely zero. -/
def BufZero (b : Option CuMatrix) : Prop :=
  ∀ m, b = some m → m.IsZero

/-- A matrix given by its rows, for concrete inputs. -/
def CuMatrix.ofRows (rows : List (List ℚ)) : CuMatrix :=
  { numRows := rows.length
    numCols := (rows.headD []).length
    data := fun i j => BaseFloat.fin ((rows.getD i []).getD j 0) }

/-- Engines with fixed results, for concrete inputs. -/
def constCollaborators (num_logprob : BaseFloat) (num_deriv : Nat → Nat → BaseFloat)
    (den_logprob : BaseFloat) (den_deriv : Nat → Nat → BaseFloat) (ok : Bool)
    (verboseLevel : Int) : Collaborators :=
  { numerator := fun _ _ => { logprob := num_logprob, deriv := num_deriv }
    denominator := fun _ _ _ _ => { logprob := den_logprob, deriv := den_deriv, ok := ok }
    verboseLevel := verboseLevel }

/-! ## The closed-form fit as the spec words it -/

/-- The spec, section 4.2: `scale_i = sum_j(input1_ji * input2_ji) / sum_j(input1_ji^2)`. -/
def specScale (input1 input2 : CuMatrix) (i : Nat) : BaseFloat :=
  (BaseFloat.sumRange input1.numRows fun j => input1.data j i * input2.data j i) /
    (BaseFloat.sumRange input1.numRows fun j => input1.data j i * input1.data j i)

/-- The spec, section 4.2: the mean of column `i`. -/
def specMean (input : CuMatrix) (i : Nat) : BaseFloat :=
  (BaseFloat.sumRange input.numRows fun j => input.data j i) / BaseFloat.ofInt input.numRows

/-- The spec, section 4.2:
`offset_i = mean_j(input2_ji) - scale_i * mean_j(input1_ji)`. -/
def specOffset (input1 input2 : CuMatrix) (i : Nat) : BaseFloat :=
  specMean input2 i - specScale input1 input2 i * specMean input1 i

/-- The spec, section 4.1 with the fit of section 4.2: `l2_term = -0.5 * scale_coeff *
sum of the squared entries of (xent_output * scale + offset - nnet_output)`, with
`scale_coeff = supervision.weight * l2_regularize`. -/
def specL2Term (weight l2_regularize : BaseFloat) (nnet_output xent_output : CuMatrix) :
    BaseFloat :=
  BaseFloat.fin (-1/2) * (weight * l2_regularize) *
    BaseFloat.sumRange xent_output.numRows fun j =>
      BaseFloat.sumRange xent_output.numCols fun i =>
        (specScale xent_output nnet_output i * xent_output.data j i +
            specOffset xent_output nnet_output i - nnet_output.data j i) *
          (specScale xent_output nnet_output i * xent_output.data j i +
            specOffset xent_output nnet_output i - nnet_output.data j i)

/-! ## Concrete calls

The end-to-end scenario of the spec: one sequence of five frames, weight `1.0`, a numerator
engine returning `-2.0` with zero gradient, a denominator engine returning `-3.5` and
writing a constant gradient. -/

/-- The supervision of the scenario, with the given weight. -/
def scenarioSupervision (weight : BaseFloat) : Supervision :=
  { weight := weight, num_sequences := 1, frames_per_sequence := 5 }

/-- The network output of the scenario: five frames, two classes. -/
def scenarioOutput : CuMatrix :=
  CuMatrix.ofRows [[1, 2], [3, 4], [5, 6], [7, 8], [9, 10]]

/-- A chain gradient buffer with arbitrary contents at the call. -/
def scenarioBuffer : CuMatrix :=
  CuMatrix.ofRows [[9, 9], [9, 9], [9, 9], [9, 9], [9, 9]]

/-- The engines of the scenario; `ok` is the success flag of the denominator backward pass. -/
def scenarioCollaborators (ok : Bool) : Collaborators :=
  constCollaborators (BaseFloat.fin (-2)) (fun _ _ => BaseFloat.fin 0) (BaseFloat.fin (-7/2))
    (fun _ _ => BaseFloat.fin (1/4)) ok 0

/-- The engines of the scenario with a numerator forward pass that returns NaN. -/
def nanCollaborators : Collaborators :=
  constCollaborators BaseFloat.nan (fun _ _ => BaseFloat.fin 0) (BaseFloat.fin (-7/2))
    (fun _ _ => BaseFloat.fin (1/4)) true 0

/-- A numerator contribution that differs from entry to entry. -/
def scenarioNumDeriv (i j : Nat) : BaseFloat := BaseFloat.fin ((i : ℚ) + 2 * (j : ℚ))

/-- The engines of the scenario with the numerator contribution `scenarioNumDeriv`. -/
def gradientCollaborators : Collaborators :=
  constCollaborators (BaseFloat.fin (-2)) scenarioNumDeriv (BaseFloat.fin (-7/2))
    (fun _ _ => BaseFloat.fin (1/4)) true 0

/-- A supervision for two frames of one sequence, weight `1.0`. -/
def squareSupervision : Supervision :=
  { weight := BaseFloat.fin 1, num_sequences := 1, frames_per_sequence := 2 }

/-- A chain output of two frames and two classes. -/
def squareOutput : CuMatrix := CuMatrix.ofRows [[1, 1], [1, 1]]

/-- An auxiliary output of two frames and two classes. -/
def squareXent : CuMatrix := CuMatrix.ofRows [[1, 1], [2, 1]]

/-- A gradient buffer of two frames and two classes with arbitrary contents at the call. -/
def squareBuffer : CuMatrix := CuMatrix.ofRows [[9, 9], [9, 9]]

/-- An absent auxiliary output: a matrix without rows. -/
def emptyMatrix : CuMatrix := CuMatrix.zeros 0 0

/-! ## ComputeScaleOffset -/

/-- Lines 157-162: the function `ComputeScaleOffset`.  Its body is empty: the vectors behind
`scale` and `offset` are left as they were at the call.  The result is the pair of their
contents on return. -/
def ComputeScaleOffset (input1 input2 : CuMatrix) (scale offset : CuVector) :
    CuVector × CuVector :=
  (scale, offset)

/-! ## More concrete calls -/

/-- A supervision for one frame of one sequence, weight `1.0`. -/
def wideSupervision : Supervision :=
  { weight := BaseFloat.fin 1, num_sequences := 1, frames_per_sequence := 1 }

/-- A chain output of one frame and two classes. -/
def wideOutput : CuMatrix := CuMatrix.ofRows [[1, 1]]

/-- An auxiliary output of one frame and two classes. -/
def wideXent : CuMatrix := CuMatrix.ofRows [[1, 2]]

/-- The engines of the scenario, with verbose level 1. -/
def verboseCollaborators : Collaborators :=
  constCollaborators (BaseFloat.fin (-2)) (fun _ _ => BaseFloat.fin 0) (BaseFloat.fin (-7/2))
    (fun _ _ => BaseFloat.fin (1/4)) true 1

/-- Two samples of one dimension. -/
def affineInput1 : CuMatrix := CuMatrix.ofRows [[1], [2]]

/-- The samples of `affineInput1` mapped by `2.0 * x + 3.0`. -/
def affineInput2 : CuMatrix := CuMatrix.ofRows [[5], [7]]

/-- An auxiliary output of two frames and two classes whose second column is zero. -/
def zeroColumnXent : CuMatrix := CuMatrix.ofRows [[1, 0], [2, 0]]

/-- The squared error of predicting column `i` of `nnet_output` from column `i` of
`xent_output` with scale `s` and offset `b`:
`sum_j (s * xent_output_ji + b - nnet_output_ji)^2`. -/
def specSquaredError (xent_output nnet_output : CuMatrix) (i : Nat) (s b : BaseFloat) :
    BaseFloat :=
  BaseFloat.sumRange xent_output.numRows fun j =>
    (s * xent_output.data j i + b - nnet_output.data j i) *
      (s * xent_output.data j i + b - nnet_output.data j i)

/-! ## Finite data -/

/-- The value of a finite `BaseFloat`; zero for the special values. -/
def BaseFloat.toRat : BaseFloat → ℚ
  | BaseFloat.fin q => q
  | _ => 0

/-- Every entry of the matrix inside its dimensions is finite. -/
def CuMatrix.IsFinite (M : CuMatrix) : Prop :=
  ∀ i j, i < M.numRows → j < M.numCols → (M.data i j).isFinite = true

/-- The matrix with the entry `(j, i)` replaced by `v`. -/
def CuMatrix.setEntry (M : CuMatrix) (j i : Nat) (v : BaseFloat) : CuMatrix :=
  { M with data := fun r c => if r = j ∧ c = i then v else M.data r c }

/-- The network output of the scenario after a divergence: its first entry is NaN. -/
def divergedOutput : CuMatrix := scenarioOutput.setEntry 0 0 BaseFloat.nan

/-- The chain output of the two-by-two example with a NaN first entry. -/
def divergedSquareOutput : CuMatrix := squareOutput.setEntry 0 0 BaseFloat.nan

/-! ## The L2 term as a function of the outputs -/

/-- Lines 134-138 for given `scale` and `offset`: the `l2_term` of the auxiliary-present
branch as a function of the two outputs, the scale and the offset. -/
def l2TermPresent (scale_coeff : BaseFloat) (nnet_output xent_output : CuMatrix)
    (scale offset : CuVector) : Option BaseFloat :=
  (outputDiff nnet_output xent_output scale offset).bind fun output_diff =>
    (TraceMatMat output_diff output_diff .kTrans).map fun tr =>
      BaseFloat.fin (-1/2) * scale_coeff * tr

/-- Line 148: the `l2_term` of the auxiliary-absent branch as a function of `nnet_output`. -/
def l2TermAbsent (scale_coeff : BaseFloat) (nnet_output : CuMatrix) : Option BaseFloat :=
  (TraceMatMat nnet_output nnet_output .kTrans).map fun tr =>
    BaseFloat.fin (-1/2) * scale_coeff * tr

/-- The matrix with `t` added to its entry `(j, i)`. -/
def CuMatrix.addToEntry (M : CuMatrix) (j i : Nat) (t : ℚ) : CuMatrix :=
  M.setEntry j i (M.data j i + BaseFloat.fin t)

/-- The value of a computed term as a rational number. -/
def termValue (term : Option BaseFloat) : ℚ :=
  (term.getD BaseFloat.nan).toRat

/-! ## Arithmetic lemmas -/

namespace BaseFloat

theorem add_def (a b : BaseFloat) : a + b = add a b := rfl
theorem sub_def (a b : BaseFloat) : a - b = add a (neg b) := rfl
theorem mul_def (a b : BaseFloat) : a * b = mul a b := rfl
theorem div_def (a b : BaseFloat) : a / b = div a b := rfl
theorem neg_def (a : BaseFloat) : -a = neg a := rfl

@[simp] theorem fin_add_fin (a b : ℚ) : fin a + fin b = fin (a + b) := rfl
@[simp] theorem fin_mul_fin (a b : ℚ) : fin a * fin b = fin (a * b) := rfl
@[simp] theorem fin_sub_fin (a b : ℚ) : fin a - fin b = fin (a - b) := by
  simp [sub_def, neg, add, sub_eq_add_neg]
@[simp] theorem neg_fin (a : ℚ) : -(fin a) = fin (-a) := rfl

@[simp] theorem zero_add (x : BaseFloat) : fin 0 + x = x := by
  cases x <;> simp [add_def, add]

@[simp] theorem add_zero (x : BaseFloat) : x + fin 0 = x := by
  cases x <;> simp [add_def, add]

@[simp] theorem one_mul (x : BaseFloat) : fin 1 * x = x := by
  cases x <;> simp [mul_def, mul, ofSign]

@[simp] theorem zero_mul_fin (a : ℚ) : fin 0 * fin a = fin 0 := by simp

theorem neg_one_mul (x : BaseFloat) : fin (-1) * x = -x := by
  cases x <;> simp [mul_def, mul, ofSign, neg_def, neg]

/-- A negative finite factor can be regrouped in a product. -/
theorem neg_const_mul_assoc (k : ℚ) (hk : k < 0) (b c : BaseFloat) :
    fin k * (b * c) = fin k * b * c := by
  rcases b with b | _ | _ | _ <;> rcases c with c | _ | _ | _ <;>
  simp only [mul_def, mul, ofSign] <;>
  (try split_ifs) <;>
  (try simp only [mul, ofSign]) <;>
  (try split_ifs) <;>
  first
    | rfl
    | (exfalso; nlinarith)
    | (rw [Rat.mul_assoc])

/-- The test of line 71 holds exactly for the finite values. -/
theorem sub_self_beq_zero (x : BaseFloat) : beq (x - x) (fin 0) = isFinite x := by
  cases x <;> simp [sub_def, neg, add, beq, isFinite]

theorem isFinite_iff (x : BaseFloat) : isFinite x = true ↔ ∃ q, x = fin q := by
  cases x <;> simp [isFinite]

end BaseFloat

/-! ## The stages of the call -/

theorem numeratorPass_some (numerator : NumeratorComputation) (M : CuMatrix)
    (nd xd : Option CuMatrix) (hnd : BufShape nd M) (hxd : BufShape xd M) :
    ∃ bufs, numeratorPass numerator nd xd = some bufs ∧ BufShape bufs.1 M ∧ BufShape bufs.2 M
      ∧ bufs.1.isSome = nd.isSome ∧ bufs.2.isSome = xd.isSome := by
  cases nd with
  | none =>
    cases xd with
    | none => exact ⟨(none, none), rfl, hnd, hxd, rfl, rfl⟩
    | some x =>
      refine ⟨(none, some (numerator.Backward x.SetZero)), rfl, hnd, ?_, rfl, rfl⟩
      intro m hm
      cases hm
      exact hxd x rfl
  | some n =>
    cases xd with
    | none =>
      refine ⟨(some (numerator.Backward n.SetZero), none), rfl, ?_, hxd, rfl, rfl⟩
      intro m hm
      cases hm
      exact hnd n rfl
    | some x =>
      have h1 := hnd n rfl
      have h2 := hxd x rfl
      have hs : x.SameDim (numerator.Backward n.SetZero) :=
        ⟨h2.1.trans h1.1.symm, h2.2.trans h1.2.symm⟩
      refine ⟨(some (numerator.Backward n.SetZero),
        some { x with data := (numerator.Backward n.SetZero).data }), ?_, ?_, ?_, rfl, rfl⟩
      · simp [numeratorPass, CuMatrix.CopyFromMat, hs]
      · intro m hm
        cases hm
        exact h1
      · intro m hm
        cases hm
        exact h2

theorem denominatorPass_shape (denominator : DenominatorComputation) (w : BaseFloat)
    (M : CuMatrix) (nd : Option CuMatrix) (hnd : BufShape nd M) :
    BufShape (denominatorPass denominator w nd).2 M
      ∧ (denominatorPass denominator w nd).2.isSome = nd.isSome := by
  cases nd with
  | none => exact ⟨hnd, rfl⟩
  | some n =>
    refine ⟨?_, rfl⟩
    intro m hm
    simp only [denominatorPass, Option.some.injEq] at hm
    subst hm
    exact hnd n rfl

theorem bufShape_map_setZero (b : Option CuMatrix) (M : CuMatrix) (h : BufShape b M) :
    BufShape (b.map CuMatrix.SetZero) M := by
  intro m hm
  cases b with
  | none => cases hm
  | some n =>
    simp only [Option.map_some', Option.some.injEq] at hm
    subst hm
    exact h n rfl

theorem failureContainment_shape (supervision : Supervision) (n d : BaseFloat) (ok : Bool)
    (M : CuMatrix) (nd xd : Option CuMatrix) (hnd : BufShape nd M) (hxd : BufShape xd M) :
    BufShape (failureContainment supervision n d ok nd xd).nnet_output_deriv M
      ∧ BufShape (failureContainment supervision n d ok nd xd).xent_output_deriv M
      ∧ (failureContainment supervision n d ok nd xd).nnet_output_deriv.isSome = nd.isSome
      ∧ (failureContainment supervision n d ok nd xd).xent_output_deriv.isSome = xd.isSome := by
  by_cases h : (!(BaseFloat.beq ((n - supervision.weight * d) - (n - supervision.weight * d))
      (BaseFloat.fin 0)) || !ok) = true
  · simp only [failureContainment, h, if_true]
    exact ⟨bufShape_map_setZero _ _ hnd, bufShape_map_setZero _ _ hxd, by simp, by simp⟩
  · simp only [failureContainment, h, if_false]
    exact ⟨hnd, hxd, rfl, rfl⟩

theorem derivsPerFrameStep_some (supervision : Supervision) (rp acc : CuVector) (i : Nat)
    (hs : 0 < supervision.num_sequences) (hf : 0 ≤ supervision.frames_per_sequence)
    (hdim : acc.dim = supervision.frames_per_sequence.toNat)
    (hi : (i : Int) < supervision.num_sequences * supervision.frames_per_sequence) :
    ∃ acc2, derivsPerFrameStep supervision rp acc i = some acc2 ∧ acc2.dim = acc.dim := by
  have hne : supervision.num_sequences ≠ 0 := ne_of_gt hs
  have hk : Int.tdiv (i : Int) supervision.num_sequences = (i : Int) / supervision.num_sequences :=
    Int.tdiv_eq_ediv (Int.ofNat_nonneg i) (le_of_lt hs)
  have hk0 : 0 ≤ (i : Int) / supervision.num_sequences :=
    Int.ediv_nonneg (Int.ofNat_nonneg i) (le_of_lt hs)
  have hk1 : (i : Int) / supervision.num_sequences < supervision.frames_per_sequence := by
    apply Int.ediv_lt_of_lt_mul hs
    rw [mul_comm]
    exact hi
  have hk2 : ((i : Int) / supervision.num_sequences).toNat < acc.dim := by
    rw [hdim]
    omega
  simp only [derivsPerFrameStep, hne, if_false, hk, hk0, hk2, and_self, if_true]
  exact ⟨_, rfl, rfl⟩

theorem derivsPerFrame_fold_some (supervision : Supervision) (rp : CuVector)
    (hs : 0 < supervision.num_sequences) (hf : 0 ≤ supervision.frames_per_sequence)
    (l : List Nat)
    (hl : ∀ i ∈ l, (i : Int) < supervision.num_sequences * supervision.frames_per_sequence) :
    ∀ acc : CuVector, acc.dim = supervision.frames_per_sequence.toNat →
      ∃ acc2, l.foldlM (derivsPerFrameStep supervision rp) acc = some acc2 := by
  induction l with
  | nil =>
    intro acc _
    exact ⟨acc, rfl⟩
  | cons i t ih =>
    intro acc hacc
    obtain ⟨a1, h1, hd1⟩ := derivsPerFrameStep_some supervision rp acc i hs hf hacc
      (hl i (List.mem_cons_self i t))
    obtain ⟨a2, h2⟩ := ih (fun j hj => hl j (List.mem_cons_of_mem i hj)) a1 (hd1.trans hacc)
    refine ⟨a2, ?_⟩
    rw [List.foldlM_cons, h1]
    exact h2

theorem derivsPerFrame_some (verboseLevel : Int) (supervision : Supervision)
    (nd : Option CuMatrix)
    (hs : 0 < supervision.num_sequences) (hf : 0 ≤ supervision.frames_per_sequence)
    (hrows : ∀ m, nd = some m →
      (m.numRows : Int) = supervision.num_sequences * supervision.frames_per_sequence)
    (hv : 1 ≤ verboseLevel → nd.isSome = true) :
    ∃ logged, derivsPerFrame verboseLevel supervision nd = some logged := by
  unfold derivsPerFrame
  by_cases hverb : verboseLevel ≥ 1
  · rw [if_pos hverb]
    cases nd with
    | none => simp at hv; omega
    | some m =>
      have hnf : ¬ supervision.frames_per_sequence < 0 := not_lt.mpr hf
      obtain ⟨acc2, h2⟩ := derivsPerFrame_fold_some supervision
        { dim := m.numRows
          data := fun i => BaseFloat.fin 0 * BaseFloat.fin 0 + BaseFloat.fin 1 *
            BaseFloat.sumRange m.numCols fun k => m.data i k * m.data i k } hs hf
        (List.range m.numRows)
        (fun i hi => by
          rw [← hrows m rfl]
          exact_mod_cast List.mem_range.mp hi)
        (CuVector.zeros supervision.frames_per_sequence.toNat) rfl
      refine ⟨some acc2, ?_⟩
      simp only [CuVector.AddDiagMat2, CuVector.zeros, CuMatrix.op, if_true, Option.some_bind,
        hnf, if_false]
      simp only [CuVector.zeros] at h2
      rw [h2]
      rfl
  · rw [if_neg hverb]
    exact ⟨none, rfl⟩

theorem l2Regularization_zero (opts : ChainTrainingOptions) (supervision : Supervision)
    (nnet_output xent_output : CuMatrix) (nd xd : Option CuMatrix)
    (h : opts.l2_regularize.beq (BaseFloat.fin 0) = true) :
    l2Regularization opts supervision nnet_output xent_output nd xd =
      some { l2_term := BaseFloat.fin 0, nnet_output_deriv := nd, xent_output_deriv := xd } := by
  simp [l2Regularization, h]

theorem traceMatMat_self (M : CuMatrix) :
    TraceMatMat M M .kTrans = some (sumSquares M) := by
  simp [TraceMatMat, CuMatrix.op, sumSquares]

/-- The auxiliary-absent branch of the L2 step, read off the code. -/
theorem l2Regularization_absent (opts : ChainTrainingOptions) (supervision : Supervision)
    (nnet_output xent_output : CuMatrix) (nd xd : Option CuMatrix)
    (h : opts.l2_regularize.beq (BaseFloat.fin 0) = false) (hx : xent_output.numRows = 0)
    (hnd : BufShape nd nnet_output) :
    l2Regularization opts supervision nnet_output xent_output nd xd =
      some { l2_term := BaseFloat.fin (-1/2) * (supervision.weight * opts.l2_regularize) *
               sumSquares nnet_output
             nnet_output_deriv := nd.map fun m =>
               { m with data := fun i j => m.data i j +
                   BaseFloat.fin (-1) * (supervision.weight * opts.l2_regularize) *
                     nnet_output.data i j }
             xent_output_deriv := xd } := by
  cases nd with
  | none => simp [l2Regularization, h, hx, traceMatMat_self]
  | some m =>
    have hm : m.SameDim nnet_output := hnd m rfl
    simp [l2Regularization, h, hx, traceMatMat_self, CuMatrix.AddMat, hm]

/-- The scale and offset of lines 120-131 in closed form, when they are computed. -/
theorem scaleAndOffset_eq (nnet_output xent_output : CuMatrix)
    (hs : xent_output.SameDim nnet_output) (hsq : xent_output.numRows = xent_output.numCols) :
    scaleAndOffset nnet_output xent_output = some
      ({ dim := xent_output.numCols
         data := fun i =>
           (BaseFloat.sumRange xent_output.numRows fun k =>
              xent_output.data k i * nnet_output.data k i) /
           (BaseFloat.sumRange xent_output.numRows fun k =>
              xent_output.data k i * xent_output.data k i) },
       { dim := xent_output.numCols
         data := fun i =>
           (BaseFloat.fin 1 / BaseFloat.ofInt xent_output.numRows *
              BaseFloat.sumRange xent_output.numRows fun k =>
                nnet_output.data k i * BaseFloat.fin 0) +
           BaseFloat.fin (-1) / BaseFloat.ofInt xent_output.numRows *
             ((BaseFloat.sumRange xent_output.numRows fun k =>
                xent_output.data k i * BaseFloat.fin 0) *
              ((BaseFloat.sumRange xent_output.numRows fun k =>
                  xent_output.data k i * nnet_output.data k i) /
               (BaseFloat.sumRange xent_output.numRows fun k =>
                  xent_output.data k i * xent_output.data k i))) }) := by
  obtain ⟨R, C, x⟩ := xent_output
  obtain ⟨R2, C2, y⟩ := nnet_output
  obtain ⟨h1, h2⟩ := hs
  simp only at h1 h2 hsq
  subst h1 h2 hsq
  simp [scaleAndOffset, CuVector.AddDiagMatMat, CuVector.AddDiagMat2, CuVector.DivElements,
    CuVector.AddMatVec, CuVector.MulElements, CuVector.AddVec, CuVector.zeros, CuMatrix.op]

/-- The auxiliary-present branch fits a scale and an offset only for a square `xent_output`
of the shape of `nnet_output`: otherwise a dimension assertion fails. -/
theorem scaleAndOffset_isSome_iff (nnet_output xent_output : CuMatrix) :
    (scaleAndOffset nnet_output xent_output).isSome = true ↔
      xent_output.SameDim nnet_output ∧ xent_output.numRows = xent_output.numCols := by
  constructor
  · intro h
    by_contra hcon
    obtain ⟨R, C, x⟩ := xent_output
    obtain ⟨R2, C2, y⟩ := nnet_output
    simp only [CuMatrix.SameDim] at hcon
    by_cases h1 : R = R2
    · by_cases h2 : C = C2
      · by_cases h3 : R = C
        · exact hcon ⟨⟨h1, h2⟩, h3⟩
        · subst h1 h2
          have h4 : ¬ C = R := fun e => h3 e.symm
          simp [scaleAndOffset, CuVector.AddDiagMatMat, CuVector.AddDiagMat2,
            CuVector.DivElements, CuVector.AddMatVec, CuVector.MulElements, CuVector.AddVec,
            CuVector.zeros, CuMatrix.op, h4] at h
      · simp [scaleAndOffset, CuVector.AddDiagMatMat, CuVector.AddDiagMat2,
          CuVector.DivElements, CuVector.AddMatVec, CuVector.MulElements, CuVector.AddVec,
          CuVector.zeros, CuMatrix.op, h1, h2] at h
    · simp [scaleAndOffset, CuVector.AddDiagMatMat, CuVector.AddDiagMat2,
        CuVector.DivElements, CuVector.AddMatVec, CuVector.MulElements, CuVector.AddVec,
        CuVector.zeros, CuMatrix.op, h1] at h
  · rintro ⟨hs, hsq⟩
    rw [scaleAndOffset_eq nnet_output xent_output hs hsq]
    rfl

theorem outputDiff_eq (nnet_output xent_output : CuMatrix) (scale offset : CuVector)
    (hs : xent_output.SameDim nnet_output) (hscale : scale.dim = xent_output.numCols)
    (hoffset : offset.dim = xent_output.numCols) :
    outputDiff nnet_output xent_output scale offset = some
      { numRows := xent_output.numRows
        numCols := xent_output.numCols
        data := fun i j => xent_output.data i j * scale.data j + offset.data j +
          BaseFloat.fin (-1) * nnet_output.data i j } := by
  obtain ⟨h1, h2⟩ := hs
  simp [outputDiff, CuMatrix.AddMatDiagVec, CuMatrix.AddVecToRows, CuMatrix.AddMat,
    CuMatrix.zeros, CuMatrix.op, CuMatrix.SameDim, hscale, hoffset, h1, h2]

/-- The auxiliary-present branch of the L2 step, read off the code: whenever it completes,
its result is given by the fitted scale and `output_diff`. -/
theorem l2Regularization_present (opts : ChainTrainingOptions) (supervision : Supervision)
    (nnet_output xent_output : CuMatrix) (nd xd : Option CuMatrix) (res : L2Result)
    (h : opts.l2_regularize.beq (BaseFloat.fin 0) = false) (hx : xent_output.numRows ≠ 0)
    (hres : l2Regularization opts supervision nnet_output xent_output nd xd = some res) :
    ∃ scale offset output_diff,
      scaleAndOffset nnet_output xent_output = some (scale, offset)
      ∧ outputDiff nnet_output xent_output scale offset = some output_diff
      ∧ res.l2_term = BaseFloat.fin (-1/2) * (supervision.weight * opts.l2_regularize) *
          sumSquares output_diff
      ∧ res.nnet_output_deriv = nd.map (fun m =>
          { m with data := fun i j => m.data i j +
              supervision.weight * opts.l2_regularize * output_diff.data i j })
      ∧ res.xent_output_deriv = xd.map (fun m =>
          { m with data := fun i j => m.data i j +
              BaseFloat.fin (-1) * (supervision.weight * opts.l2_regularize) *
                (output_diff.data i j * scale.data j) }) := by
  simp only [l2Regularization, h, hx, ne_eq, not_false_eq_true, if_true, if_false,
    Bool.false_eq_true] at hres
  cases hso : scaleAndOffset nnet_output xent_output with
  | none => simp [hso] at hres
  | some so =>
    obtain ⟨scale, offset⟩ := so
    cases hod : outputDiff nnet_output xent_output scale offset with
    | none => simp [hso, hod] at hres
    | some od =>
      refine ⟨scale, offset, od, rfl, hod, ?_⟩
      simp only [hso, hod, traceMatMat_self, Option.bind_eq_bind, Option.some_bind,
        Option.pure_def] at hres
      cases nd with
      | none =>
        cases xd with
        | none =>
          simp at hres
          subst hres
          simp
        | some x =>
          by_cases hxs : x.SameDim od ∧ scale.dim = x.numCols
          · simp [CuMatrix.AddMatDiagVec, CuMatrix.op, hxs] at hres
            subst hres
            simp
          · simp [CuMatrix.AddMatDiagVec, CuMatrix.op, hxs] at hres
      | some n =>
        by_cases hns : n.SameDim od
        · cases xd with
          | none =>
            simp [CuMatrix.AddMat, hns] at hres
            subst hres
            simp
          | some x =>
            by_cases hxs : x.SameDim od ∧ scale.dim = x.numCols
            · simp [CuMatrix.AddMat, CuMatrix.AddMatDiagVec, CuMatrix.op, hns, hxs] at hres
              subst hres
              simp
            · simp [CuMatrix.AddMat, CuMatrix.AddMatDiagVec, CuMatrix.op, hns, hxs] at hres
        · simp [CuMatrix.AddMat, hns] at hres

theorem l2Regularization_some (opts : ChainTrainingOptions) (supervision : Supervision)
    (nnet_output xent_output : CuMatrix) (nd xd : Option CuMatrix)
    (hnd : BufShape nd nnet_output) (hxd : BufShape xd nnet_output)
    (hxs : xent_output.numRows ≠ 0 → xent_output.SameDim nnet_output)
    (hsq : opts.l2_regularize.beq (BaseFloat.fin 0) = false → xent_output.numRows ≠ 0 →
      xent_output.numRows = xent_output.numCols) :
    ∃ res, l2Regularization opts supervision nnet_output xent_output nd xd = some res := by
  cases h : opts.l2_regularize.beq (BaseFloat.fin 0) with
  | true => exact ⟨_, l2Regularization_zero opts supervision nnet_output xent_output nd xd h⟩
  | false =>
    by_cases hx : xent_output.numRows = 0
    · exact ⟨_, l2Regularization_absent opts supervision nnet_output xent_output nd xd h hx hnd⟩
    · have hs := hxs hx
      have hq := hsq h hx
      have hod := outputDiff_eq nnet_output xent_output _ _ hs
        (rfl : ({ dim := xent_output.numCols
                  data := fun i =>
                    (BaseFloat.sumRange xent_output.numRows fun k =>
                      xent_output.data k i * nnet_output.data k i) /
                    (BaseFloat.sumRange xent_output.numRows fun k =>
                      xent_output.data k i * xent_output.data k i) } : CuVector).dim = _)
        (rfl : ({ dim := xent_output.numCols
                  data := fun i =>
                    (BaseFloat.fin 1 / BaseFloat.ofInt xent_output.numRows *
                      BaseFloat.sumRange xent_output.numRows fun k =>
                        nnet_output.data k i * BaseFloat.fin 0) +
                    BaseFloat.fin (-1) / BaseFloat.ofInt xent_output.numRows *
                      ((BaseFloat.sumRange xent_output.numRows fun k =>
                        xent_output.data k i * BaseFloat.fin 0) *
                      ((BaseFloat.sumRange xent_output.numRows fun k =>
                          xent_output.data k i * nnet_output.data k i) /
                      (BaseFloat.sumRange xent_output.numRows fun k =>
                          xent_output.data k i * xent_output.data k i))) } : CuVector).dim = _)
      simp only [l2Regularization, h, hx, ne_eq, not_false_eq_true, if_true, if_false,
        Bool.false_eq_true, scaleAndOffset_eq nnet_output xent_output hs hq, hod,
        traceMatMat_self, Option.bind_eq_bind, Option.some_bind, Option.pure_def]
      cases nd with
      | none =>
        cases xd with
        | none => simp
        | some x =>
          have h2 := hxd x rfl
          simp [CuMatrix.AddMatDiagVec, CuMatrix.op, CuMatrix.SameDim, h2.1, h2.2, hs.1, hs.2]
      | some n =>
        have h1 := hnd n rfl
        cases xd with
        | none => simp [CuMatrix.AddMat, CuMatrix.SameDim, h1.1, h1.2, hs.1, hs.2]
        | some x =>
          have h2 := hxd x rfl
          simp [CuMatrix.AddMat, CuMatrix.AddMatDiagVec, CuMatrix.op, CuMatrix.SameDim,
            h1.1, h1.2, h2.1, h2.2, hs.1, hs.2]

theorem assembleObjfAndDeriv_some (env : Collaborators) (opts : ChainTrainingOptions)
    (den_graph : DenominatorGraph) (supervision : Supervision) (nnet_output : CuMatrix)
    (nd xd : Option CuMatrix) (hnd : BufShape nd nnet_output) (hxd : BufShape xd nnet_output) :
    ∃ a, assembleObjfAndDeriv env opts den_graph supervision nnet_output nd xd = some a
      ∧ BufShape a.nnet_output_deriv nnet_output ∧ BufShape a.xent_output_deriv nnet_output
      ∧ a.nnet_output_deriv.isSome = nd.isSome ∧ a.xent_output_deriv.isSome = xd.isSome := by
  obtain ⟨bufs, hb, s1, s2, i1, i2⟩ :=
    numeratorPass_some (env.numerator supervision nnet_output) nnet_output nd xd hnd hxd
  have hden := denominatorPass_shape
    (env.denominator opts den_graph supervision.num_sequences nnet_output) supervision.weight
    nnet_output bufs.1 s1
  have hf := failureContainment_shape supervision
    (env.numerator supervision nnet_output).Forward
    (env.denominator opts den_graph supervision.num_sequences nnet_output).Forward
    (denominatorPass (env.denominator opts den_graph supervision.num_sequences nnet_output)
      supervision.weight bufs.1).1 nnet_output _ bufs.2 hden.1 s2
  refine ⟨_, ?_, hf.1, hf.2.1, ?_, ?_⟩
  · simp only [assembleObjfAndDeriv, hb, Option.map_some']
  · rw [hf.2.2.1, hden.2, i1]
  · rw [hf.2.2.2, i2]

/-- A well-formed call returns. -/
theorem computeChainObjfAndDeriv_returns (env : Collaborators) (opts : ChainTrainingOptions)
    (den_graph : DenominatorGraph) (supervision : Supervision)
    (nnet_output xent_output : CuMatrix) (nd xd : Option CuMatrix)
    (hwf : WellFormedCall env opts supervision nnet_output xent_output nd xd) :
    ∃ r, ComputeChainObjfAndDeriv env opts den_graph supervision nnet_output xent_output
      nd xd = some r := by
  obtain ⟨a, ha, s1, s2, i1, _⟩ := assembleObjfAndDeriv_some env opts den_graph supervision
    nnet_output nd xd hwf.nnet_deriv_shape hwf.xent_deriv_shape
  obtain ⟨logged, hl⟩ := derivsPerFrame_some env.verboseLevel supervision a.nnet_output_deriv
    hwf.num_sequences_pos hwf.frames_nonneg
    (fun m hm => by rw [(s1 m hm).1]; exact hwf.rows)
    (fun hv => by rw [i1]; exact hwf.verbose_needs_deriv hv)
  obtain ⟨res, hr⟩ := l2Regularization_some opts supervision nnet_output xent_output
    a.nnet_output_deriv a.xent_output_deriv s1 s2 hwf.xent_shape hwf.l2_square
  simp only [ComputeChainObjfAndDeriv, ha, hl, hr, Option.some_bind, Option.map_some']
  exact ⟨_, rfl⟩

/-- A returned outcome, taken apart into the stages that produced it. -/
theorem computeChainObjfAndDeriv_eq_some (env : Collaborators) (opts : ChainTrainingOptions)
    (den_graph : DenominatorGraph) (supervision : Supervision)
    (nnet_output xent_output : CuMatrix) (nd xd : Option CuMatrix) (r : Outcome)
    (h : ComputeChainObjfAndDeriv env opts den_graph supervision nnet_output xent_output
      nd xd = some r) :
    ∃ a logged l2,
      assembleObjfAndDeriv env opts den_graph supervision nnet_output nd xd = some a
      ∧ derivsPerFrame env.verboseLevel supervision a.nnet_output_deriv = some logged
      ∧ l2Regularization opts supervision nnet_output xent_output a.nnet_output_deriv
          a.xent_output_deriv = some l2
      ∧ r.objf = a.objf ∧ r.weight = a.weight ∧ r.warned = a.warned
      ∧ r.l2_term = l2.l2_term ∧ r.nnet_output_deriv = l2.nnet_output_deriv
      ∧ r.xent_output_deriv = l2.xent_output_deriv := by
  simp only [ComputeChainObjfAndDeriv, Option.bind_eq_some, Option.map_eq_some'] at h
  obtain ⟨a, ha, logged, hl, l2, hl2, hr⟩ := h
  subst hr
  exact ⟨a, logged, l2, ha, hl, hl2, rfl, rfl, rfl, rfl, rfl, rfl⟩

theorem failureContainment_normal (supervision : Supervision) (n d : BaseFloat) (ok : Bool)
    (nd xd : Option CuMatrix) (hfin : (n - supervision.weight * d).isFinite = true)
    (hok : ok = true) :
    failureContainment supervision n d ok nd xd =
      { objf := n - supervision.weight * d
        weight := supervision.weight * BaseFloat.ofInt supervision.num_sequences *
          BaseFloat.ofInt supervision.frames_per_sequence
        nnet_output_deriv := nd
        xent_output_deriv := xd
        warned := false } := by
  simp [failureContainment, BaseFloat.sub_self_beq_zero, hfin, hok]

theorem failureContainment_fallback (supervision : Supervision) (n d : BaseFloat) (ok : Bool)
    (nd xd : Option CuMatrix)
    (h : (n - supervision.weight * d).isFinite = false ∨ ok = false) :
    failureContainment supervision n d ok nd xd =
      { objf := BaseFloat.fin (-10) * (supervision.weight *
          BaseFloat.ofInt supervision.num_sequences *
          BaseFloat.ofInt supervision.frames_per_sequence)
        weight := supervision.weight * BaseFloat.ofInt supervision.num_sequences *
          BaseFloat.ofInt supervision.frames_per_sequence
        nnet_output_deriv := nd.map CuMatrix.SetZero
        xent_output_deriv := xd.map CuMatrix.SetZero
        warned := true } := by
  rcases h with h | h <;> simp [failureContainment, BaseFloat.sub_self_beq_zero, h]

/-- The success flag of line 63-66: true unless the backward pass is run and fails. -/
theorem denominatorPass_ok (denominator : DenominatorComputation) (w : BaseFloat)
    (nd : Option CuMatrix) :
    (denominatorPass denominator w nd).1 = (!nd.isSome || denominator.ok) := by
  cases nd <;> simp [denominatorPass, DenominatorComputation.Backward]

/-- The state before the diagnostic block, taken apart. -/
theorem assembleObjfAndDeriv_eq_some (env : Collaborators) (opts : ChainTrainingOptions)
    (den_graph : DenominatorGraph) (supervision : Supervision) (nnet_output : CuMatrix)
    (nd xd : Option CuMatrix) (a : Assembled)
    (h : assembleObjfAndDeriv env opts den_graph supervision nnet_output nd xd = some a) :
    ∃ bufs, numeratorPass (env.numerator supervision nnet_output) nd xd = some bufs
      ∧ bufs.1.isSome = nd.isSome
      ∧ a = failureContainment supervision (env.numerator supervision nnet_output).Forward
          (env.denominator opts den_graph supervision.num_sequences nnet_output).Forward
          (!nd.isSome ||
            (env.denominator opts den_graph supervision.num_sequences nnet_output).ok)
          (denominatorPass
            (env.denominator opts den_graph supervision.num_sequences nnet_output)
            supervision.weight bufs.1).2 bufs.2 := by
  simp only [assembleObjfAndDeriv, Option.map_eq_some'] at h
  obtain ⟨bufs, hb, ha⟩ := h
  have hsome : bufs.1.isSome = nd.isSome := by
    cases nd with
    | none =>
      cases xd with
      | none => simp [numeratorPass] at hb; subst hb; rfl
      | some x => simp [numeratorPass] at hb; subst hb; rfl
    | some m =>
      cases xd with
      | none => simp [numeratorPass] at hb; subst hb; rfl
      | some x =>
        simp only [numeratorPass, Option.map_eq_some'] at hb
        obtain ⟨_, _, hb⟩ := hb
        subst hb
        rfl
  refine ⟨bufs, hb, hsome, ?_⟩
  rw [← ha, denominatorPass_ok, hsome]

/-- After the numerator pass both buffers, when present, hold the numerator contribution
and nothing of their contents at the call. -/
theorem numeratorPass_eq_some (numerator : NumeratorComputation) (nd xd : Option CuMatrix)
    (bufs : Option CuMatrix × Option CuMatrix)
    (h : numeratorPass numerator nd xd = some bufs) :
    bufs.1 = nd.map (fun m => { m with data := numerator.deriv })
      ∧ bufs.2 = xd.map (fun m => { m with data := numerator.deriv }) := by
  cases nd with
  | none =>
    cases xd with
    | none => simp [numeratorPass] at h; subst h; simp
    | some x =>
      simp [numeratorPass, NumeratorComputation.Backward, CuMatrix.SetZero] at h
      subst h
      simp
  | some m =>
    cases xd with
    | none =>
      simp [numeratorPass, NumeratorComputation.Backward, CuMatrix.SetZero] at h
      subst h
      simp
    | some x =>
      by_cases hs : x.SameDim (numerator.Backward m.SetZero)
      · simp [numeratorPass, CuMatrix.CopyFromMat, hs] at h
        subst h
        simp [NumeratorComputation.Backward, CuMatrix.SetZero]
      · simp [numeratorPass, CuMatrix.CopyFromMat, hs] at h

theorem denominatorPass_buffer (denominator : DenominatorComputation) (w : BaseFloat)
    (nd : Option CuMatrix) :
    (denominatorPass denominator w nd).2 = nd.map (fun m =>
      { m with data := fun i j => m.data i j + (-w) * denominator.deriv i j }) := by
  cases nd <;> simp [denominatorPass, DenominatorComputation.Backward]

/-- The state before the diagnostic block on the normal path. -/
theorem assembleObjfAndDeriv_normal (env : Collaborators) (opts : ChainTrainingOptions)
    (den_graph : DenominatorGraph) (supervision : Supervision) (nnet_output : CuMatrix)
    (nd xd : Option CuMatrix) (a : Assembled)
    (h : assembleObjfAndDeriv env opts den_graph supervision nnet_output nd xd = some a)
    (hfin : ((env.numerator supervision nnet_output).Forward - supervision.weight *
      (env.denominator opts den_graph supervision.num_sequences nnet_output).Forward).isFinite
        = true)
    (hok : nd.isSome = true →
      (env.denominator opts den_graph supervision.num_sequences nnet_output).ok = true) :
    a = { objf := (env.numerator supervision nnet_output).Forward - supervision.weight *
            (env.denominator opts den_graph supervision.num_sequences nnet_output).Forward
          weight := supervision.weight * BaseFloat.ofInt supervision.num_sequences *
            BaseFloat.ofInt supervision.frames_per_sequence
          nnet_output_deriv := nd.map (fun m =>
            { m with data := fun i j => (env.numerator supervision nnet_output).deriv i j +
                (-supervision.weight) * (env.denominator opts den_graph
                  supervision.num_sequences nnet_output).deriv i j })
          xent_output_deriv := xd.map (fun m =>
            { m with data := (env.numerator supervision nnet_output).deriv })
          warned := false } := by
  obtain ⟨bufs, hb, _, ha⟩ := assembleObjfAndDeriv_eq_some env opts den_graph supervision
    nnet_output nd xd a h
  obtain ⟨h1, h2⟩ := numeratorPass_eq_some _ nd xd bufs hb
  have hok2 : (!nd.isSome ||
      (env.denominator opts den_graph supervision.num_sequences nnet_output).ok) = true := by
    cases hnd : nd.isSome with
    | false => rfl
    | true => simp [hok hnd]
  rw [ha, failureContainment_normal supervision _ _ _ _ _ hfin hok2, denominatorPass_buffer,
    h1, h2]
  cases nd <;> simp

/-- The state before the diagnostic block on the fallback path. -/
theorem assembleObjfAndDeriv_fallback (env : Collaborators) (opts : ChainTrainingOptions)
    (den_graph : DenominatorGraph) (supervision : Supervision) (nnet_output : CuMatrix)
    (nd xd : Option CuMatrix) (a : Assembled)
    (h : assembleObjfAndDeriv env opts den_graph supervision nnet_output nd xd = some a)
    (hbad : ((env.numerator supervision nnet_output).Forward - supervision.weight *
        (env.denominator opts den_graph supervision.num_sequences nnet_output).Forward).isFinite
          = false
      ∨ (nd.isSome = true ∧
        (env.denominator opts den_graph supervision.num_sequences nnet_output).ok = false)) :
    a = { objf := BaseFloat.fin (-10) * (supervision.weight *
            BaseFloat.ofInt supervision.num_sequences *
            BaseFloat.ofInt supervision.frames_per_sequence)
          weight := supervision.weight * BaseFloat.ofInt supervision.num_sequences *
            BaseFloat.ofInt supervision.frames_per_sequence
          nnet_output_deriv := nd.map CuMatrix.SetZero
          xent_output_deriv := xd.map CuMatrix.SetZero
          warned := true } := by
  obtain ⟨bufs, hb, _, ha⟩ := assembleObjfAndDeriv_eq_some env opts den_graph supervision
    nnet_output nd xd a h
  obtain ⟨h1, h2⟩ := numeratorPass_eq_some _ nd xd bufs hb
  have hbad2 : ((env.numerator supervision nnet_output).Forward - supervision.weight *
        (env.denominator opts den_graph supervision.num_sequences nnet_output).Forward).isFinite
          = false
      ∨ (!nd.isSome ||
        (env.denominator opts den_graph supervision.num_sequences nnet_output).ok) = false := by
    rcases hbad with hb1 | ⟨hb1, hb2⟩
    · exact Or.inl hb1
    · exact Or.inr (by simp [hb1, hb2])
  rw [ha, failureContainment_fallback supervision _ _ _ _ _ hbad2, denominatorPass_buffer,
    h1, h2]
  cases nd <;> cases xd <;> simp [CuMatrix.SetZero]

/-! ## The well-formedness of the concrete calls -/

theorem bufShape_none (M : CuMatrix) : BufShape none M := by
  intro m h
  cases h

theorem bufShape_some (m M : CuMatrix) (h : m.SameDim M) : BufShape (some m) M := by
  intro m2 h2
  cases h2
  exact h

/-- A call on the scenario output without auxiliary output and with verbose level 0 is
well formed as soon as the buffers have the shape of the output. -/
theorem wellFormed_of_scenario (env : Collaborators) (opts : ChainTrainingOptions)
    (w : BaseFloat) (nd xd : Option CuMatrix) (hv : env.verboseLevel = 0)
    (hnd : BufShape nd scenarioOutput) (hxd : BufShape xd scenarioOutput) :
    WellFormedCall env opts (scenarioSupervision w) scenarioOutput emptyMatrix nd xd :=
  { rows := by simp [scenarioSupervision, scenarioOutput, CuMatrix.ofRows]
    num_sequences_pos := by simp [scenarioSupervision]
    frames_nonneg := by simp [scenarioSupervision]
    xent_shape := fun h => absurd rfl h
    nnet_deriv_shape := hnd
    xent_deriv_shape := hxd
    verbose_needs_deriv := fun h => by rw [hv] at h; exact absurd h (by decide)
    l2_square := fun _ h => absurd rfl h }

theorem scenario_wellFormed (ok : Bool) (opts : ChainTrainingOptions) (w : BaseFloat)
    (xd : Option CuMatrix) (hxd : BufShape xd scenarioOutput) :
    WellFormedCall (scenarioCollaborators ok) opts (scenarioSupervision w) scenarioOutput
      emptyMatrix (some scenarioBuffer) xd :=
  wellFormed_of_scenario _ opts w _ xd rfl (bufShape_some _ _ ⟨rfl, rfl⟩) hxd

/-! ## The objective (lines 68-84) -/

/-- C1: on every call in which the numerator forward pass returns `n`, the denominator
forward pass returns `d`, the value `n - supervision.weight * d` is finite and the
denominator backward pass, if run, reports success, the call returns
`objf = n - supervision.weight * d`: a well-formed call returns, and every returned outcome
has this `objf`. -/
theorem objf_is_num_minus_weighted_den (env : Collaborators) (opts : ChainTrainingOptions)
    (den_graph : DenominatorGraph) (supervision : Supervision)
    (nnet_output xent_output : CuMatrix) (nd xd : Option CuMatrix) (n d : BaseFloat)
    (hn : (env.numerator supervision nnet_output).Forward = n)
    (hd : (env.denominator opts den_graph supervision.num_sequences nnet_output).Forward = d)
    (hfin : (n - supervision.weight * d).isFinite = true)
    (hok : nd.isSome = true →
      (env.denominator opts den_graph supervision.num_sequences nnet_output).ok = true) :
    (WellFormedCall env opts supervision nnet_output xent_output nd xd →
      ∃ r, ComputeChainObjfAndDeriv env opts den_graph supervision nnet_output xent_output
        nd xd = some r)
    ∧ ∀ r, ComputeChainObjfAndDeriv env opts den_graph supervision nnet_output xent_output
        nd xd = some r → r.objf = n - supervision.weight * d := by
  refine ⟨computeChainObjfAndDeriv_returns env opts den_graph supervision nnet_output
    xent_output nd xd, ?_⟩
  intro r hr
  obtain ⟨a, _, _, ha, _, _, hobjf, _⟩ := computeChainObjfAndDeriv_eq_some env opts den_graph
    supervision nnet_output xent_output nd xd r hr
  subst hn hd
  rw [hobjf, assembleObjfAndDeriv_normal env opts den_graph supervision nnet_output nd xd a ha
    hfin hok]

/-- C1, the scenario of the spec: `n = -2.0`, `d = -3.5` and weight `1.0` give
`objf = 1.5`. -/
theorem objf_is_num_minus_weighted_den_witness :
    ∃ r, ComputeChainObjfAndDeriv (scenarioCollaborators true) { l2_regularize := BaseFloat.fin 0 }
        {} (scenarioSupervision (BaseFloat.fin 1)) scenarioOutput emptyMatrix
        (some scenarioBuffer) none = some r
      ∧ r.objf = BaseFloat.fin (3/2) := by
  have h := objf_is_num_minus_weighted_den (scenarioCollaborators true)
    { l2_regularize := BaseFloat.fin 0 } {} (scenarioSupervision (BaseFloat.fin 1))
    scenarioOutput emptyMatrix (some scenarioBuffer) none (BaseFloat.fin (-2))
    (BaseFloat.fin (-7/2)) rfl rfl rfl (fun _ => rfl)
  obtain ⟨r, hr⟩ := h.1 (scenario_wellFormed true _ _ none (bufShape_none _))
  refine ⟨r, hr, ?_⟩
  rw [h.2 r hr]
  norm_num [scenarioSupervision]

/-- C2 as stated fails: with a failed denominator backward pass and `l2_regularize = 1` the
call returns a chain gradient buffer that is not zero (its first entry is `-1`), because
the L2 step runs after the buffers were zeroed. -/
theorem fallback_buffer_not_zero_on_return :
    ∃ r m, ComputeChainObjfAndDeriv (scenarioCollaborators false)
        { l2_regularize := BaseFloat.fin 1 } {} (scenarioSupervision (BaseFloat.fin 1))
        scenarioOutput emptyMatrix (some scenarioBuffer) none = some r
      ∧ r.nnet_output_deriv = some m ∧ m.data 0 0 = BaseFloat.fin (-1) ∧ ¬ m.IsZero := by
  obtain ⟨r, hr⟩ := computeChainObjfAndDeriv_returns (scenarioCollaborators false)
    { l2_regularize := BaseFloat.fin 1 } {} (scenarioSupervision (BaseFloat.fin 1))
    scenarioOutput emptyMatrix (some scenarioBuffer) none
    (scenario_wellFormed false _ _ none (bufShape_none _))
  obtain ⟨a, _, l2, ha, _, hl2, _, _, _, _, hnd, _⟩ := computeChainObjfAndDeriv_eq_some _ _ _
    _ _ _ _ _ r hr
  have hfb := assembleObjfAndDeriv_fallback _ _ _ _ _ _ _ a ha (Or.inr ⟨rfl, rfl⟩)
  subst hfb
  simp only [Option.map_some', Option.map_none'] at hl2 hnd
  rw [l2Regularization_absent { l2_regularize := BaseFloat.fin 1 }
    (scenarioSupervision (BaseFloat.fin 1)) scenarioOutput emptyMatrix
    (some scenarioBuffer.SetZero) none (by simp [BaseFloat.beq]) rfl
    (bufShape_some _ _ ⟨rfl, rfl⟩)] at hl2
  cases hl2
  have h00 : (BaseFloat.fin 0 + BaseFloat.fin (-1) *
      ((scenarioSupervision (BaseFloat.fin 1)).weight * BaseFloat.fin 1) *
        scenarioOutput.data 0 0) = BaseFloat.fin (-1) := by
    norm_num [scenarioSupervision, scenarioOutput, CuMatrix.ofRows]
  refine ⟨r, _, hr, hnd, h00, ?_⟩
  intro hz
  have h1 := hz 0 0 (by decide) (by decide)
  rw [show (_ : CuMatrix).data 0 0 = BaseFloat.fin (-1) from h00] at h1
  cases h1

theorem bufZero_map_setZero (b : Option CuMatrix) : BufZero (b.map CuMatrix.SetZero) := by
  intro m hm
  cases b with
  | none => cases hm
  | some n =>
    simp only [Option.map_some', Option.some.injEq] at hm
    subst hm
    intro i j _ _
    rfl

/-- C2 (amended): on every call in which the denominator backward pass is run and reports
failure, both gradient buffers (each if requested) are entirely zero after the failure
containment, the returned `objf` equals `-10 * weight` exactly, and when
`l2_regularize == 0` both buffers are still entirely zero on return. -/
theorem fallback_on_denominator_failure (env : Collaborators) (opts : ChainTrainingOptions)
    (den_graph : DenominatorGraph) (supervision : Supervision)
    (nnet_output xent_output : CuMatrix) (nd xd : Option CuMatrix)
    (hrun : nd.isSome = true)
    (hfail : (env.denominator opts den_graph supervision.num_sequences nnet_output).ok = false) :
    (WellFormedCall env opts supervision nnet_output xent_output nd xd →
      ∃ r, ComputeChainObjfAndDeriv env opts den_graph supervision nnet_output xent_output
        nd xd = some r)
    ∧ (∀ a, assembleObjfAndDeriv env opts den_graph supervision nnet_output nd xd = some a →
        BufZero a.nnet_output_deriv ∧ BufZero a.xent_output_deriv)
    ∧ ∀ r, ComputeChainObjfAndDeriv env opts den_graph supervision nnet_output xent_output
        nd xd = some r →
          r.objf = BaseFloat.fin (-10) * r.weight
          ∧ (opts.l2_regularize.beq (BaseFloat.fin 0) = true →
              BufZero r.nnet_output_deriv ∧ BufZero r.xent_output_deriv) := by
  refine ⟨computeChainObjfAndDeriv_returns env opts den_graph supervision nnet_output
    xent_output nd xd, ?_, ?_⟩
  · intro a ha
    rw [assembleObjfAndDeriv_fallback env opts den_graph supervision nnet_output nd xd a ha
      (Or.inr ⟨hrun, hfail⟩)]
    exact ⟨bufZero_map_setZero nd, bufZero_map_setZero xd⟩
  · intro r hr
    obtain ⟨a, _, l2, ha, _, hl2, hobjf, hweight, _, _, hnd, hxd⟩ :=
      computeChainObjfAndDeriv_eq_some env opts den_graph supervision nnet_output xent_output
        nd xd r hr
    have hfb := assembleObjfAndDeriv_fallback env opts den_graph supervision nnet_output nd xd
      a ha (Or.inr ⟨hrun, hfail⟩)
    subst hfb
    refine ⟨by rw [hobjf, hweight], ?_⟩
    intro hz
    rw [l2Regularization_zero opts supervision nnet_output xent_output _ _ hz] at hl2
    cases hl2
    rw [hnd, hxd]
    exact ⟨bufZero_map_setZero nd, bufZero_map_setZero xd⟩

/-- C2 (amended), on the scenario with a failing denominator backward pass and no L2 term:
the call returns `objf = -50` and a zero chain gradient buffer. -/
theorem fallback_on_denominator_failure_witness :
    ∃ r, ComputeChainObjfAndDeriv (scenarioCollaborators false)
        { l2_regularize := BaseFloat.fin 0 } {} (scenarioSupervision (BaseFloat.fin 1))
        scenarioOutput emptyMatrix (some scenarioBuffer) none = some r
      ∧ r.objf = BaseFloat.fin (-50) ∧ r.weight = BaseFloat.fin 5
      ∧ BufZero r.nnet_output_deriv := by
  have h := fallback_on_denominator_failure (scenarioCollaborators false)
    { l2_regularize := BaseFloat.fin 0 } {} (scenarioSupervision (BaseFloat.fin 1))
    scenarioOutput emptyMatrix (some scenarioBuffer) none rfl rfl
  obtain ⟨r, hr⟩ := h.1 (scenario_wellFormed false _ _ none (bufShape_none _))
  obtain ⟨a, _, _, ha, _, _, _, hweight, _⟩ := computeChainObjfAndDeriv_eq_some _ _ _ _ _ _ _ _
    r hr
  have hw : r.weight = BaseFloat.fin 5 := by
    rw [hweight, assembleObjfAndDeriv_fallback _ _ _ _ _ _ _ a ha (Or.inr ⟨rfl, rfl⟩)]
    norm_num [scenarioSupervision, BaseFloat.ofInt]
  refine ⟨r, hr, ?_, hw, ((h.2.2 r hr).2 (by simp [BaseFloat.beq])).1⟩
  rw [(h.2.2 r hr).1, hw]
  norm_num

/-- C3: when `n - supervision.weight * d` is NaN or an infinity, whatever the denominator
backward pass did, the test `objf - objf == 0` of line 71 fails and the fallback engages:
the warning is emitted, both buffers (if requested) are zero at that point, and the
returned `objf` is `-10 * weight`.  Conversely, when the value is finite and `ok` is true the
fallback is not taken and `objf` keeps that value. -/
theorem fallback_iff_objf_not_finite (env : Collaborators) (opts : ChainTrainingOptions)
    (den_graph : DenominatorGraph) (supervision : Supervision)
    (nnet_output xent_output : CuMatrix) (nd xd : Option CuMatrix) (n d : BaseFloat)
    (hn : (env.numerator supervision nnet_output).Forward = n)
    (hd : (env.denominator opts den_graph supervision.num_sequences nnet_output).Forward = d) :
    (WellFormedCall env opts supervision nnet_output xent_output nd xd →
      ∃ r, ComputeChainObjfAndDeriv env opts den_graph supervision nnet_output xent_output
        nd xd = some r)
    ∧ ((n - supervision.weight * d).isFinite = false →
        BaseFloat.beq ((n - supervision.weight * d) - (n - supervision.weight * d))
          (BaseFloat.fin 0) = false
        ∧ (∀ a, assembleObjfAndDeriv env opts den_graph supervision nnet_output nd xd = some a →
            a.warned = true ∧ a.objf = BaseFloat.fin (-10) * a.weight
            ∧ BufZero a.nnet_output_deriv ∧ BufZero a.xent_output_deriv)
        ∧ ∀ r, ComputeChainObjfAndDeriv env opts den_graph supervision nnet_output xent_output
            nd xd = some r → r.warned = true ∧ r.objf = BaseFloat.fin (-10) * r.weight)
    ∧ ((n - supervision.weight * d).isFinite = true →
        (nd.isSome = true →
          (env.denominator opts den_graph supervision.num_sequences nnet_output).ok = true) →
        ∀ r, ComputeChainObjfAndDeriv env opts den_graph supervision nnet_output xent_output
            nd xd = some r → r.warned = false ∧ r.objf = n - supervision.weight * d) := by
  subst hn hd
  refine ⟨computeChainObjfAndDeriv_returns env opts den_graph supervision nnet_output
    xent_output nd xd, ?_, ?_⟩
  · intro hbad
    refine ⟨by rw [BaseFloat.sub_self_beq_zero, hbad], ?_, ?_⟩
    · intro a ha
      rw [assembleObjfAndDeriv_fallback env opts den_graph supervision nnet_output nd xd a ha
        (Or.inl hbad)]
      exact ⟨rfl, rfl, bufZero_map_setZero nd, bufZero_map_setZero xd⟩
    · intro r hr
      obtain ⟨a, _, _, ha, _, _, hobjf, hweight, hwarned, _⟩ :=
        computeChainObjfAndDeriv_eq_some env opts den_graph supervision nnet_output
          xent_output nd xd r hr
      rw [hobjf, hweight, hwarned, assembleObjfAndDeriv_fallback env opts den_graph supervision
        nnet_output nd xd a ha (Or.inl hbad)]
      exact ⟨rfl, rfl⟩
  · intro hfin hok r hr
    obtain ⟨a, _, _, ha, _, _, hobjf, _, hwarned, _⟩ :=
      computeChainObjfAndDeriv_eq_some env opts den_graph supervision nnet_output
        xent_output nd xd r hr
    rw [hobjf, hwarned, assembleObjfAndDeriv_normal env opts den_graph supervision
      nnet_output nd xd a ha hfin hok]
    exact ⟨rfl, rfl⟩

/-- C3 on the scenario with a numerator forward pass returning NaN and a successful
denominator backward pass: the call returns with the warning emitted and `objf = -50`. -/
theorem fallback_iff_objf_not_finite_witness :
    ∃ r, ComputeChainObjfAndDeriv nanCollaborators { l2_regularize := BaseFloat.fin 0 } {}
        (scenarioSupervision (BaseFloat.fin 1)) scenarioOutput emptyMatrix
        (some scenarioBuffer) none = some r
      ∧ r.warned = true ∧ r.objf = BaseFloat.fin (-50) := by
  have h := fallback_iff_objf_not_finite nanCollaborators { l2_regularize := BaseFloat.fin 0 } {}
    (scenarioSupervision (BaseFloat.fin 1)) scenarioOutput emptyMatrix (some scenarioBuffer)
    none BaseFloat.nan (BaseFloat.fin (-7/2)) rfl rfl
  have hwf : WellFormedCall nanCollaborators { l2_regularize := BaseFloat.fin 0 }
      (scenarioSupervision (BaseFloat.fin 1)) scenarioOutput emptyMatrix
      (some scenarioBuffer) none :=
    wellFormed_of_scenario _ _ _ _ _ rfl (bufShape_some _ _ ⟨rfl, rfl⟩) (bufShape_none _)
  obtain ⟨r, hr⟩ := h.1 hwf
  obtain ⟨hw, ho⟩ := (h.2.1 rfl).2.2 r hr
  obtain ⟨a, _, _, ha, _, _, _, hweight, _⟩ := computeChainObjfAndDeriv_eq_some _ _ _ _ _ _ _ _
    r hr
  refine ⟨r, hr, hw, ?_⟩
  rw [ho, hweight, assembleObjfAndDeriv_fallback _ _ _ _ _ _ _ a ha (Or.inl rfl)]
  norm_num [scenarioSupervision, BaseFloat.ofInt]

/-- C4 as stated fails: with `supervision.weight = +inf` the value `-2 - inf * (-3.5)` is
`+inf`, the fallback substitutes `-10 * weight`, and the call reports `objf = -inf`. -/
theorem objf_infinite_for_infinite_weight :
    ∃ r, ComputeChainObjfAndDeriv (scenarioCollaborators true)
        { l2_regularize := BaseFloat.fin 0 } {} (scenarioSupervision BaseFloat.pinf)
        scenarioOutput emptyMatrix (some scenarioBuffer) none = some r
      ∧ r.objf = BaseFloat.ninf ∧ r.objf.isFinite = false := by
  obtain ⟨r, hr⟩ := computeChainObjfAndDeriv_returns (scenarioCollaborators true)
    { l2_regularize := BaseFloat.fin 0 } {} (scenarioSupervision BaseFloat.pinf)
    scenarioOutput emptyMatrix (some scenarioBuffer) none
    (scenario_wellFormed true _ _ none (bufShape_none _))
  obtain ⟨a, _, _, ha, _, _, hobjf, _⟩ := computeChainObjfAndDeriv_eq_some _ _ _ _ _ _ _ _ r hr
  have hbad : ((BaseFloat.fin (-2) : BaseFloat) -
      (scenarioSupervision BaseFloat.pinf).weight * BaseFloat.fin (-7/2)).isFinite = false := by
    norm_num [scenarioSupervision, BaseFloat.sub_def, BaseFloat.mul_def, BaseFloat.mul,
      BaseFloat.ofSign, BaseFloat.neg, BaseFloat.add, BaseFloat.isFinite]
  have ho : r.objf = BaseFloat.ninf := by
    rw [hobjf, assembleObjfAndDeriv_fallback _ _ _ _ _ _ _ a ha (Or.inl hbad)]
    norm_num [scenarioSupervision, BaseFloat.ofInt, BaseFloat.mul_def, BaseFloat.mul,
      BaseFloat.ofSign]
  exact ⟨r, hr, ho, by rw [ho]; rfl⟩

/-- C4 (amended): on every call for which the fallback value `-10 * weight`, with
`weight = supervision.weight * num_sequences * frames_per_sequence` as lines 69-70 compute
it, is finite, also when the numerator or denominator log-probability is not finite, the
`objf` reported to the caller is finite. -/
theorem objf_finite_of_finite_fallback_value (env : Collaborators)
    (opts : ChainTrainingOptions) (den_graph : DenominatorGraph) (supervision : Supervision)
    (nnet_output xent_output : CuMatrix) (nd xd : Option CuMatrix)
    (hfb : (BaseFloat.fin (-10) * (supervision.weight *
      BaseFloat.ofInt supervision.num_sequences *
      BaseFloat.ofInt supervision.frames_per_sequence)).isFinite = true) :
    (WellFormedCall env opts supervision nnet_output xent_output nd xd →
      ∃ r, ComputeChainObjfAndDeriv env opts den_graph supervision nnet_output xent_output
        nd xd = some r)
    ∧ ∀ r, ComputeChainObjfAndDeriv env opts den_graph supervision nnet_output xent_output
        nd xd = some r → r.objf.isFinite = true := by
  refine ⟨computeChainObjfAndDeriv_returns env opts den_graph supervision nnet_output
    xent_output nd xd, ?_⟩
  intro r hr
  obtain ⟨a, _, _, ha, _, _, hobjf, _⟩ := computeChainObjfAndDeriv_eq_some env opts den_graph
    supervision nnet_output xent_output nd xd r hr
  rw [hobjf]
  cases hfin : ((env.numerator supervision nnet_output).Forward - supervision.weight *
      (env.denominator opts den_graph supervision.num_sequences nnet_output).Forward).isFinite
    with
  | false =>
    rw [assembleObjfAndDeriv_fallback env opts den_graph supervision nnet_output nd xd a ha
      (Or.inl hfin)]
    exact hfb
  | true =>
    cases hnd : nd.isSome with
    | false =>
      rw [assembleObjfAndDeriv_normal env opts den_graph supervision nnet_output nd xd a ha
        hfin (fun h => by rw [hnd] at h; cases h)]
      exact hfin
    | true =>
      cases hok : (env.denominator opts den_graph supervision.num_sequences nnet_output).ok
        with
      | false =>
        rw [assembleObjfAndDeriv_fallback env opts den_graph supervision nnet_output nd xd a
          ha (Or.inr ⟨hnd, hok⟩)]
        exact hfb
      | true =>
        rw [assembleObjfAndDeriv_normal env opts den_graph supervision nnet_output nd xd a ha
          hfin (fun _ => hok)]
        exact hfin

/-- C4 (amended) on the scenario with a numerator forward pass returning NaN and weight
`1.0`: the fallback value `-10 * (1 * 1 * 5)` is finite and so is the reported `objf`. -/
theorem objf_finite_of_finite_fallback_value_witness :
    (BaseFloat.fin (-10) * ((scenarioSupervision (BaseFloat.fin 1)).weight *
      BaseFloat.ofInt (scenarioSupervision (BaseFloat.fin 1)).num_sequences *
      BaseFloat.ofInt (scenarioSupervision (BaseFloat.fin 1)).frames_per_sequence)).isFinite
        = true
    ∧ ∃ r, ComputeChainObjfAndDeriv nanCollaborators { l2_regularize := BaseFloat.fin 0 } {}
        (scenarioSupervision (BaseFloat.fin 1)) scenarioOutput emptyMatrix
        (some scenarioBuffer) none = some r
      ∧ r.objf.isFinite = true := by
  have h := objf_finite_of_finite_fallback_value nanCollaborators
    { l2_regularize := BaseFloat.fin 0 } {}
    (scenarioSupervision (BaseFloat.fin 1)) scenarioOutput emptyMatrix (some scenarioBuffer)
    none rfl
  have hwf : WellFormedCall nanCollaborators { l2_regularize := BaseFloat.fin 0 }
      (scenarioSupervision (BaseFloat.fin 1)) scenarioOutput emptyMatrix
      (some scenarioBuffer) none :=
    wellFormed_of_scenario _ _ _ _ _ rfl (bufShape_some _ _ ⟨rfl, rfl⟩) (bufShape_none _)
  obtain ⟨r, hr⟩ := h.1 hwf
  exact ⟨rfl, r, hr, h.2 r hr⟩

/-! ## The gradient buffers before the L2 step (lines 39-66) -/

/-- C5: on the non-fallback path with `l2_regularize == 0` and a requested chain gradient
buffer, whatever the buffer held at the call, the returned buffer has the dimensions of
the given one and its entries are exactly `N + (-supervision.weight) * D`, with `N` the
numerator contribution and `D` the unit-scale denominator contribution. -/
theorem chain_gradient_is_num_plus_scaled_den (env : Collaborators)
    (opts : ChainTrainingOptions) (den_graph : DenominatorGraph) (supervision : Supervision)
    (nnet_output xent_output : CuMatrix) (m0 : CuMatrix) (xd : Option CuMatrix)
    (hfin : ((env.numerator supervision nnet_output).Forward - supervision.weight *
      (env.denominator opts den_graph supervision.num_sequences nnet_output).Forward).isFinite
        = true)
    (hok : (env.denominator opts den_graph supervision.num_sequences nnet_output).ok = true)
    (hl2 : opts.l2_regularize.beq (BaseFloat.fin 0) = true) :
    (WellFormedCall env opts supervision nnet_output xent_output (some m0) xd →
      ∃ r, ComputeChainObjfAndDeriv env opts den_graph supervision nnet_output xent_output
        (some m0) xd = some r)
    ∧ ∀ r, ComputeChainObjfAndDeriv env opts den_graph supervision nnet_output xent_output
        (some m0) xd = some r →
          r.nnet_output_deriv = some
            { numRows := m0.numRows
              numCols := m0.numCols
              data := fun i j => (env.numerator supervision nnet_output).deriv i j +
                (-supervision.weight) * (env.denominator opts den_graph
                  supervision.num_sequences nnet_output).deriv i j } := by
  refine ⟨computeChainObjfAndDeriv_returns env opts den_graph supervision nnet_output
    xent_output (some m0) xd, ?_⟩
  intro r hr
  obtain ⟨a, _, l2, ha, _, hl2r, _, _, _, _, hnd, _⟩ := computeChainObjfAndDeriv_eq_some env
    opts den_graph supervision nnet_output xent_output (some m0) xd r hr
  have hn := assembleObjfAndDeriv_normal env opts den_graph supervision nnet_output (some m0)
    xd a ha hfin (fun _ => hok)
  subst hn
  rw [l2Regularization_zero opts supervision nnet_output xent_output _ _ hl2] at hl2r
  cases hl2r
  rw [hnd]
  rfl

/-- C5 on the scenario of the spec (zero numerator gradient, weight `1.0`, a buffer
holding nines at the call): every entry of the returned chain gradient buffer is the
denominator contribution `1/4` scaled by `-1`. -/
theorem chain_gradient_is_num_plus_scaled_den_witness :
    ∃ r m, ComputeChainObjfAndDeriv (scenarioCollaborators true)
        { l2_regularize := BaseFloat.fin 0 } {} (scenarioSupervision (BaseFloat.fin 1))
        scenarioOutput emptyMatrix (some scenarioBuffer) none = some r
      ∧ r.nnet_output_deriv = some m ∧ m.numRows = 5 ∧ m.numCols = 2
      ∧ ∀ i j, m.data i j = BaseFloat.fin (-1/4) := by
  have h := chain_gradient_is_num_plus_scaled_den (scenarioCollaborators true)
    { l2_regularize := BaseFloat.fin 0 } {} (scenarioSupervision (BaseFloat.fin 1))
    scenarioOutput emptyMatrix scenarioBuffer none rfl rfl (by simp [BaseFloat.beq])
  obtain ⟨r, hr⟩ := h.1 (scenario_wellFormed true _ _ none (bufShape_none _))
  refine ⟨r, _, hr, h.2 r hr, rfl, rfl, ?_⟩
  intro i j
  norm_num [scenarioCollaborators, constCollaborators, scenarioSupervision]

/-- C6: on the non-fallback path with `l2_regularize == 0` and a requested auxiliary
gradient buffer, whatever the buffer held at the call, the returned auxiliary buffer has
the dimensions of the given one and its entries are exactly the numerator contribution
`N`, without any denominator contribution, whether the chain buffer is requested or not. -/
theorem aux_gradient_is_numerator_only (env : Collaborators)
    (opts : ChainTrainingOptions) (den_graph : DenominatorGraph) (supervision : Supervision)
    (nnet_output xent_output : CuMatrix) (nd : Option CuMatrix) (x0 : CuMatrix)
    (hfin : ((env.numerator supervision nnet_output).Forward - supervision.weight *
      (env.denominator opts den_graph supervision.num_sequences nnet_output).Forward).isFinite
        = true)
    (hok : nd.isSome = true →
      (env.denominator opts den_graph supervision.num_sequences nnet_output).ok = true)
    (hl2 : opts.l2_regularize.beq (BaseFloat.fin 0) = true) :
    (WellFormedCall env opts supervision nnet_output xent_output nd (some x0) →
      ∃ r, ComputeChainObjfAndDeriv env opts den_graph supervision nnet_output xent_output
        nd (some x0) = some r)
    ∧ ∀ r, ComputeChainObjfAndDeriv env opts den_graph supervision nnet_output xent_output
        nd (some x0) = some r →
          r.xent_output_deriv = some
            { numRows := x0.numRows
              numCols := x0.numCols
              data := (env.numerator supervision nnet_output).deriv } := by
  refine ⟨computeChainObjfAndDeriv_returns env opts den_graph supervision nnet_output
    xent_output nd (some x0), ?_⟩
  intro r hr
  obtain ⟨a, _, l2, ha, _, hl2r, _, _, _, _, _, hxd⟩ := computeChainObjfAndDeriv_eq_some env
    opts den_graph supervision nnet_output xent_output nd (some x0) r hr
  have hn := assembleObjfAndDeriv_normal env opts den_graph supervision nnet_output nd
    (some x0) a ha hfin hok
  subst hn
  rw [l2Regularization_zero opts supervision nnet_output xent_output _ _ hl2] at hl2r
  cases hl2r
  rw [hxd]
  rfl

/-- C6 on the scenario with the numerator contribution `N(i,j) = i + 2 j`: with and
without a chain buffer the returned auxiliary buffer holds `N`. -/
theorem aux_gradient_is_numerator_only_witness :
    (∃ r m, ComputeChainObjfAndDeriv gradientCollaborators
        { l2_regularize := BaseFloat.fin 0 } {} (scenarioSupervision (BaseFloat.fin 1))
        scenarioOutput emptyMatrix (some scenarioBuffer) (some scenarioBuffer) = some r
      ∧ r.xent_output_deriv = some m ∧ m.data 1 1 = BaseFloat.fin 3)
    ∧ (∃ r m, ComputeChainObjfAndDeriv gradientCollaborators
        { l2_regularize := BaseFloat.fin 0 } {} (scenarioSupervision (BaseFloat.fin 1))
        scenarioOutput emptyMatrix none (some scenarioBuffer) = some r
      ∧ r.xent_output_deriv = some m ∧ m.data 1 1 = BaseFloat.fin 3) := by
  have h1 := aux_gradient_is_numerator_only gradientCollaborators
    { l2_regularize := BaseFloat.fin 0 } {} (scenarioSupervision (BaseFloat.fin 1))
    scenarioOutput emptyMatrix (some scenarioBuffer) scenarioBuffer rfl (fun _ => rfl)
    (by simp [BaseFloat.beq])
  have h2 := aux_gradient_is_numerator_only gradientCollaborators
    { l2_regularize := BaseFloat.fin 0 } {} (scenarioSupervision (BaseFloat.fin 1))
    scenarioOutput emptyMatrix none scenarioBuffer rfl (fun _ => rfl)
    (by simp [BaseFloat.beq])
  obtain ⟨r1, hr1⟩ := h1.1 (wellFormed_of_scenario _ _ _ _ _ rfl
    (bufShape_some _ _ ⟨rfl, rfl⟩) (bufShape_some _ _ ⟨rfl, rfl⟩))
  obtain ⟨r2, hr2⟩ := h2.1 (wellFormed_of_scenario _ _ _ _ _ rfl
    (bufShape_none _) (bufShape_some _ _ ⟨rfl, rfl⟩))
  have hval : scenarioNumDeriv 1 1 = BaseFloat.fin 3 := by
    norm_num [scenarioNumDeriv]
  exact ⟨⟨r1, _, hr1, h1.2 r1 hr1, hval⟩, ⟨r2, _, hr2, h2.2 r2 hr2, hval⟩⟩

/-! ## The L2 step (lines 103-152) -/

theorem wellFormedCall_without_l2 (env : Collaborators) (opts : ChainTrainingOptions)
    (supervision : Supervision) (nnet_output xent_output : CuMatrix)
    (nd xd : Option CuMatrix)
    (hwf : WellFormedCall env opts supervision nnet_output xent_output nd xd) :
    WellFormedCall env { opts with l2_regularize := BaseFloat.fin 0 } supervision nnet_output
      xent_output nd xd :=
  { rows := hwf.rows
    num_sequences_pos := hwf.num_sequences_pos
    frames_nonneg := hwf.frames_nonneg
    xent_shape := hwf.xent_shape
    nnet_deriv_shape := hwf.nnet_deriv_shape
    xent_deriv_shape := hwf.xent_deriv_shape
    verbose_needs_deriv := hwf.verbose_needs_deriv
    l2_square := fun h => by simp [BaseFloat.beq] at h }

/-- The state before the diagnostic block does not depend on `l2_regularize`, for a
denominator engine that does not read it. -/
theorem assembleObjfAndDeriv_without_l2 (env : Collaborators) (opts : ChainTrainingOptions)
    (den_graph : DenominatorGraph) (supervision : Supervision) (nnet_output : CuMatrix)
    (nd xd : Option CuMatrix)
    (hden : env.denominator { opts with l2_regularize := BaseFloat.fin 0 } =
      env.denominator opts) :
    assembleObjfAndDeriv env { opts with l2_regularize := BaseFloat.fin 0 } den_graph
        supervision nnet_output nd xd =
      assembleObjfAndDeriv env opts den_graph supervision nnet_output nd xd := by
  simp only [assembleObjfAndDeriv, hden]

/-- C7: with an empty `xent_output` and `l2_regularize` positive (more generally: different
from zero), the call returns
`l2_term = -0.5 * supervision.weight * l2_regularize * sum of the squared entries of
nnet_output`, and the chain gradient buffer, if requested, is the buffer that the same call
with `l2_regularize == 0` returns plus exactly
`-supervision.weight * l2_regularize * nnet_output`, entry by entry.  (The code groups the
factors as `-0.5 * scale_coeff * ...` and `-1.0 * scale_coeff * ...` with
`scale_coeff = supervision.weight * l2_regularize`.) -/
theorem l2_absent_term_and_gradient (env : Collaborators) (opts : ChainTrainingOptions)
    (den_graph : DenominatorGraph) (supervision : Supervision)
    (nnet_output xent_output : CuMatrix) (nd xd : Option CuMatrix)
    (hx : xent_output.numRows = 0)
    (hl2 : opts.l2_regularize.beq (BaseFloat.fin 0) = false)
    (hden : env.denominator { opts with l2_regularize := BaseFloat.fin 0 } =
      env.denominator opts) :
    (WellFormedCall env opts supervision nnet_output xent_output nd xd →
      (∃ r, ComputeChainObjfAndDeriv env opts den_graph supervision nnet_output xent_output
        nd xd = some r)
      ∧ ∃ r0, ComputeChainObjfAndDeriv env { opts with l2_regularize := BaseFloat.fin 0 }
        den_graph supervision nnet_output xent_output nd xd = some r0)
    ∧ ∀ r, ComputeChainObjfAndDeriv env opts den_graph supervision nnet_output xent_output
        nd xd = some r →
          r.l2_term = BaseFloat.fin (-1/2) * supervision.weight * opts.l2_regularize *
            sumSquares nnet_output
          ∧ ∀ r0, ComputeChainObjfAndDeriv env { opts with l2_regularize := BaseFloat.fin 0 }
              den_graph supervision nnet_output xent_output nd xd = some r0 →
                r.nnet_output_deriv = r0.nnet_output_deriv.map (fun m =>
                  { m with data := fun i j => m.data i j +
                      (-supervision.weight) * opts.l2_regularize *
                        nnet_output.data i j }) := by
  refine ⟨fun hwf => ⟨computeChainObjfAndDeriv_returns env opts den_graph supervision
    nnet_output xent_output nd xd hwf, computeChainObjfAndDeriv_returns env _ den_graph
    supervision nnet_output xent_output nd xd (wellFormedCall_without_l2 env opts supervision
      nnet_output xent_output nd xd hwf)⟩, ?_⟩
  intro r hr
  obtain ⟨a, _, l2, ha, _, hl2r, _, _, _, hterm, hnd, _⟩ := computeChainObjfAndDeriv_eq_some
    env opts den_graph supervision nnet_output xent_output nd xd r hr
  by_cases hshape : BufShape a.nnet_output_deriv nnet_output
  · rw [l2Regularization_absent opts supervision nnet_output xent_output _ _ hl2 hx hshape]
      at hl2r
    cases hl2r
    rw [← BaseFloat.neg_const_mul_assoc (-1/2) (by norm_num)]
    refine ⟨hterm, ?_⟩
    intro r0 hr0
    obtain ⟨a0, _, l20, ha0, _, hl2r0, _, _, _, _, hnd0, _⟩ :=
      computeChainObjfAndDeriv_eq_some env _ den_graph supervision nnet_output xent_output
        nd xd r0 hr0
    rw [assembleObjfAndDeriv_without_l2 env opts den_graph supervision nnet_output nd xd hden,
      ha] at ha0
    cases ha0
    rw [l2Regularization_zero _ supervision nnet_output xent_output _ _ (by simp [BaseFloat.beq])]
      at hl2r0
    cases hl2r0
    rw [hnd, hnd0]
    simp only [← BaseFloat.neg_one_mul supervision.weight,
      ← BaseFloat.neg_const_mul_assoc (-1) (by norm_num)]
  · exfalso
    apply hshape
    intro m hm
    simp only [l2Regularization, hl2, hx, hm, ne_eq, not_true_eq_false, if_false,
      Bool.false_eq_true, traceMatMat_self, Option.bind_eq_bind, Option.some_bind] at hl2r
    by_contra hcon
    simp [CuMatrix.AddMat, hcon] at hl2r

/-- C7 on the scenario with `l2_regularize = 1/2`: the sum of the squared entries of the
output is `385`, so `l2_term = -0.5 * 0.5 * 385`; the chain gradient buffer returned is the
one returned without L2 (`-1/4` everywhere) plus `-0.5 * nnet_output`. -/
theorem l2_absent_term_and_gradient_witness :
    ∃ r m, ComputeChainObjfAndDeriv (scenarioCollaborators true)
        { l2_regularize := BaseFloat.fin (1/2) } {} (scenarioSupervision (BaseFloat.fin 1))
        scenarioOutput emptyMatrix (some scenarioBuffer) none = some r
      ∧ r.l2_term = BaseFloat.fin (-385/4)
      ∧ r.nnet_output_deriv = some m ∧ m.data 4 1 = BaseFloat.fin (-21/4) := by
  have h := l2_absent_term_and_gradient (scenarioCollaborators true)
    { l2_regularize := BaseFloat.fin (1/2) } {} (scenarioSupervision (BaseFloat.fin 1))
    scenarioOutput emptyMatrix (some scenarioBuffer) none rfl (by simp [BaseFloat.beq]) rfl
  obtain ⟨⟨r, hr⟩, ⟨r0, hr0⟩⟩ := h.1 (scenario_wellFormed true _ _ none (bufShape_none _))
  obtain ⟨hterm, hgrad⟩ := h.2 r hr
  obtain ⟨a0, _, l20, ha0, _, hl20, _, _, _, _, hnd0, _⟩ :=
    computeChainObjfAndDeriv_eq_some _ _ _ _ _ _ _ _ r0 hr0
  have hn := assembleObjfAndDeriv_normal _ _ _ _ _ _ _ a0 ha0 rfl (fun _ => rfl)
  subst hn
  rw [l2Regularization_zero _ _ _ _ _ _ (by simp [BaseFloat.beq])] at hl20
  cases hl20
  have hg := hgrad r0 hr0
  rw [hnd0] at hg
  refine ⟨r, _, hr, ?_, hg, ?_⟩
  · rw [hterm]
    norm_num [sumSquares, BaseFloat.sumRange, List.range_succ, scenarioSupervision,
      scenarioOutput, CuMatrix.ofRows]
  · norm_num [scenarioCollaborators, constCollaborators, scenarioSupervision, scenarioOutput,
      CuMatrix.ofRows]

/-- The calls on the two-by-two example with verbose level 0 are well formed. -/
theorem wellFormed_of_square (env : Collaborators) (opts : ChainTrainingOptions)
    (nd xd : Option CuMatrix) (hv : env.verboseLevel = 0)
    (hnd : BufShape nd squareOutput) (hxd : BufShape xd squareOutput) :
    WellFormedCall env opts squareSupervision squareOutput squareXent nd xd :=
  { rows := by simp [squareSupervision, squareOutput, CuMatrix.ofRows]
    num_sequences_pos := by simp [squareSupervision]
    frames_nonneg := by simp [squareSupervision]
    xent_shape := fun _ => ⟨rfl, rfl⟩
    nnet_deriv_shape := hnd
    xent_deriv_shape := hxd
    verbose_needs_deriv := fun h => by rw [hv] at h; exact absurd h (by decide)
    l2_square := fun _ _ => rfl }

/-- C10: with `l2_regularize == 0`, whether or not `xent_output` is present, the returned
`l2_term` is exactly 0 and both gradient buffers are returned as they were immediately after
the failure containment: the L2 step adds nothing. -/
theorem l2_disabled_adds_nothing (env : Collaborators) (opts : ChainTrainingOptions)
    (den_graph : DenominatorGraph) (supervision : Supervision)
    (nnet_output xent_output : CuMatrix) (nd xd : Option CuMatrix)
    (hl2 : opts.l2_regularize.beq (BaseFloat.fin 0) = true) :
    (WellFormedCall env opts supervision nnet_output xent_output nd xd →
      ∃ r, ComputeChainObjfAndDeriv env opts den_graph supervision nnet_output xent_output
        nd xd = some r)
    ∧ ∀ a r, assembleObjfAndDeriv env opts den_graph supervision nnet_output nd xd = some a →
        ComputeChainObjfAndDeriv env opts den_graph supervision nnet_output xent_output
          nd xd = some r →
        r.l2_term = BaseFloat.fin 0 ∧ r.nnet_output_deriv = a.nnet_output_deriv
          ∧ r.xent_output_deriv = a.xent_output_deriv := by
  refine ⟨computeChainObjfAndDeriv_returns env opts den_graph supervision nnet_output
    xent_output nd xd, ?_⟩
  intro a r ha hr
  obtain ⟨a2, _, l2, ha2, _, hl2r, _, _, _, hterm, hnd, hxd⟩ :=
    computeChainObjfAndDeriv_eq_some env opts den_graph supervision nnet_output xent_output
      nd xd r hr
  rw [ha] at ha2
  cases ha2
  rw [l2Regularization_zero opts supervision nnet_output xent_output _ _ hl2] at hl2r
  cases hl2r
  exact ⟨hterm, hnd, hxd⟩

/-- C10 on the two-by-two example with an auxiliary output present: the call returns
`l2_term = 0` and the buffers of the state before the diagnostic block. -/
theorem l2_disabled_adds_nothing_witness :
    ∃ a r, assembleObjfAndDeriv (scenarioCollaborators true)
        { l2_regularize := BaseFloat.fin 0 } {} squareSupervision squareOutput
        (some squareBuffer) (some squareBuffer) = some a
      ∧ ComputeChainObjfAndDeriv (scenarioCollaborators true)
        { l2_regularize := BaseFloat.fin 0 } {} squareSupervision squareOutput squareXent
        (some squareBuffer) (some squareBuffer) = some r
      ∧ r.l2_term = BaseFloat.fin 0 ∧ r.nnet_output_deriv = a.nnet_output_deriv
      ∧ r.xent_output_deriv = a.xent_output_deriv := by
  have h := l2_disabled_adds_nothing (scenarioCollaborators true)
    { l2_regularize := BaseFloat.fin 0 } {} squareSupervision squareOutput squareXent
    (some squareBuffer) (some squareBuffer) (by simp [BaseFloat.beq])
  obtain ⟨r, hr⟩ := h.1 (wellFormed_of_square _ _ _ _ rfl (bufShape_some _ _ ⟨rfl, rfl⟩)
    (bufShape_some _ _ ⟨rfl, rfl⟩))
  obtain ⟨a, _, _, ha, _⟩ := computeChainObjfAndDeriv_eq_some _ _ _ _ _ _ _ _ r hr
  exact ⟨a, r, ha, hr, h.2 a r ha hr⟩

/-- C9: with a non-empty `xent_output` and `l2_regularize != 0`, on every call that returns,
with `scale_coeff = supervision.weight * l2_regularize`, the fitted `scale` and the matrix
`output_diff` whose squared entries are summed in `l2_term`: the chain gradient buffer, if
requested, is its state after the failure containment plus exactly
`scale_coeff * output_diff`, and the auxiliary gradient buffer, if requested, is its state
after the failure containment plus exactly `-1.0 * scale_coeff * output_diff` with column
`j` multiplied by `scale(j)`. -/
theorem l2_present_gradient_contributions (env : Collaborators) (opts : ChainTrainingOptions)
    (den_graph : DenominatorGraph) (supervision : Supervision)
    (nnet_output xent_output : CuMatrix) (nd xd : Option CuMatrix)
    (hx : xent_output.numRows ≠ 0)
    (hl2 : opts.l2_regularize.beq (BaseFloat.fin 0) = false) :
    (WellFormedCall env opts supervision nnet_output xent_output nd xd →
      ∃ r, ComputeChainObjfAndDeriv env opts den_graph supervision nnet_output xent_output
        nd xd = some r)
    ∧ ∀ a r, assembleObjfAndDeriv env opts den_graph supervision nnet_output nd xd = some a →
        ComputeChainObjfAndDeriv env opts den_graph supervision nnet_output xent_output
          nd xd = some r →
        ∃ scale offset output_diff,
          scaleAndOffset nnet_output xent_output = some (scale, offset)
          ∧ outputDiff nnet_output xent_output scale offset = some output_diff
          ∧ r.l2_term = BaseFloat.fin (-1/2) * (supervision.weight * opts.l2_regularize) *
              sumSquares output_diff
          ∧ r.nnet_output_deriv = a.nnet_output_deriv.map (fun m =>
              { m with data := fun i j => m.data i j +
                  supervision.weight * opts.l2_regularize * output_diff.data i j })
          ∧ r.xent_output_deriv = a.xent_output_deriv.map (fun m =>
              { m with data := fun i j => m.data i j +
                  BaseFloat.fin (-1) * (supervision.weight * opts.l2_regularize) *
                    (output_diff.data i j * scale.data j) }) := by
  refine ⟨computeChainObjfAndDeriv_returns env opts den_graph supervision nnet_output
    xent_output nd xd, ?_⟩
  intro a r ha hr
  obtain ⟨a2, _, l2, ha2, _, hl2r, _, _, _, hterm, hnd, hxd⟩ :=
    computeChainObjfAndDeriv_eq_some env opts den_graph supervision nnet_output xent_output
      nd xd r hr
  rw [ha] at ha2
  cases ha2
  obtain ⟨scale, offset, od, hso, hod, h1, h2, h3⟩ := l2Regularization_present opts
    supervision nnet_output xent_output _ _ l2 hl2 hx hl2r
  exact ⟨scale, offset, od, hso, hod, by rw [hterm, h1], by rw [hnd, h2], by rw [hxd, h3]⟩

/-- The fit of lines 120-138 on the two-by-two example: the offset is zero. -/
theorem square_fit :
    ∃ scale offset od, scaleAndOffset squareOutput squareXent = some (scale, offset)
      ∧ outputDiff squareOutput squareXent scale offset = some od
      ∧ scale.data 0 = BaseFloat.fin (3/5) ∧ scale.data 1 = BaseFloat.fin 1
      ∧ offset.data 0 = BaseFloat.fin 0 ∧ offset.data 1 = BaseFloat.fin 0
      ∧ od.data 0 0 = BaseFloat.fin (-2/5) ∧ od.data 1 0 = BaseFloat.fin (1/5)
      ∧ od.data 0 1 = BaseFloat.fin 0 ∧ od.data 1 1 = BaseFloat.fin 0
      ∧ sumSquares od = BaseFloat.fin (1/5) := by
  refine ⟨_, _, _, scaleAndOffset_eq squareOutput squareXent ⟨rfl, rfl⟩ rfl,
    outputDiff_eq squareOutput squareXent _ _ ⟨rfl, rfl⟩ rfl rfl, ?_, ?_, ?_, ?_, ?_, ?_, ?_,
    ?_, ?_⟩ <;>
  norm_num [squareOutput, squareXent, CuMatrix.ofRows, BaseFloat.sumRange, List.range_succ,
    BaseFloat.div_def, BaseFloat.div, BaseFloat.ofInt, sumSquares]

/-- C9 on the two-by-two example with `l2_regularize = 1` and both buffers requested: the
state after the failure containment is `-1/4` in the chain buffer and `0` in the
auxiliary buffer, `output_diff(0,0) = -2/5` and `scale(0) = 3/5`, so the call returns
`-1/4 + 1 * (-2/5)` and `0 - 1 * ((-2/5) * (3/5))` in the first entries. -/
theorem l2_present_gradient_contributions_witness :
    ∃ r m x, ComputeChainObjfAndDeriv (scenarioCollaborators true)
        { l2_regularize := BaseFloat.fin 1 } {} squareSupervision squareOutput squareXent
        (some squareBuffer) (some squareBuffer) = some r
      ∧ r.l2_term = BaseFloat.fin (-1/10)
      ∧ r.nnet_output_deriv = some m ∧ m.data 0 0 = BaseFloat.fin (-13/20)
      ∧ r.xent_output_deriv = some x ∧ x.data 0 0 = BaseFloat.fin (6/25) := by
  have h := l2_present_gradient_contributions (scenarioCollaborators true)
    { l2_regularize := BaseFloat.fin 1 } {} squareSupervision squareOutput squareXent
    (some squareBuffer) (some squareBuffer) (by decide) (by simp [BaseFloat.beq])
  obtain ⟨r, hr⟩ := h.1 (wellFormed_of_square _ _ _ _ rfl (bufShape_some _ _ ⟨rfl, rfl⟩)
    (bufShape_some _ _ ⟨rfl, rfl⟩))
  obtain ⟨a, _, _, ha, _⟩ := computeChainObjfAndDeriv_eq_some _ _ _ _ _ _ _ _ r hr
  obtain ⟨scale, offset, od, hso, hod, hterm, hnd, hxd⟩ := h.2 a r ha hr
  have hn := assembleObjfAndDeriv_normal _ _ _ _ _ _ _ a ha rfl (fun _ => rfl)
  subst hn
  obtain ⟨S, O, D, hS, hD, hs0, _, _, _, hd00, _, _, _, hsum⟩ := square_fit
  rw [hS] at hso
  cases hso
  rw [hD] at hod
  cases hod
  simp only [Option.map_some'] at hnd hxd
  refine ⟨r, _, _, hr, ?_, hnd, ?_, hxd, ?_⟩
  · rw [hterm, hsum]
    norm_num [squareSupervision]
  · simp only [hd00]
    norm_num [squareSupervision, scenarioCollaborators, constCollaborators]
  · simp only [hd00, hs0]
    norm_num [squareSupervision, scenarioCollaborators, constCollaborators]

/-- C8 fails on the code: on the two-by-two example the call returns `l2_term = -1/10`,
the value of the formula with a zero offset, while the closed-form fit of the claim
(offset `1/10` in the first column) gives `-9/100`.  The vector `ones` of line 121 is
zero-filled and never set, so the offset that line 119 documents is not computed. -/
theorem l2_term_differs_from_closed_form_fit :
    ∃ r, ComputeChainObjfAndDeriv (scenarioCollaborators true)
        { l2_regularize := BaseFloat.fin 1 } {} squareSupervision squareOutput squareXent
        (some squareBuffer) (some squareBuffer) = some r
      ∧ r.l2_term = BaseFloat.fin (-1/10)
      ∧ specL2Term squareSupervision.weight (BaseFloat.fin 1) squareOutput squareXent =
          BaseFloat.fin (-9/100) := by
  obtain ⟨r, hr⟩ := computeChainObjfAndDeriv_returns (scenarioCollaborators true)
    { l2_regularize := BaseFloat.fin 1 } {} squareSupervision squareOutput squareXent
    (some squareBuffer) (some squareBuffer)
    (wellFormed_of_square _ _ _ _ rfl (bufShape_some _ _ ⟨rfl, rfl⟩)
      (bufShape_some _ _ ⟨rfl, rfl⟩))
  obtain ⟨a, _, l2, _, _, hl2, _, _, _, hterm, _⟩ :=
    computeChainObjfAndDeriv_eq_some _ _ _ _ _ _ _ _ r hr
  obtain ⟨scale, offset, od, hso, hod, h1, _⟩ := l2Regularization_present _ _ _ _ _ _ l2
    (by simp [BaseFloat.beq]) (by decide) hl2
  obtain ⟨S, O, D, hS, hD, _, _, _, _, _, _, _, _, hsum⟩ := square_fit
  rw [hS] at hso
  cases hso
  rw [hD] at hod
  cases hod
  refine ⟨r, hr, ?_, ?_⟩
  · rw [hterm, h1, hsum]
    norm_num [squareSupervision]
  · norm_num [specL2Term, specScale, specOffset, specMean, squareSupervision, squareOutput,
      squareXent, CuMatrix.ofRows, BaseFloat.sumRange, List.range_succ, BaseFloat.div_def,
      BaseFloat.div, BaseFloat.ofInt]

/-! ## The weight (lines 69-70) -/

theorem failureContainment_weight (supervision : Supervision) (n d : BaseFloat) (ok : Bool)
    (nd xd : Option CuMatrix) :
    (failureContainment supervision n d ok nd xd).weight =
      supervision.weight * BaseFloat.ofInt supervision.num_sequences *
        BaseFloat.ofInt supervision.frames_per_sequence := by
  by_cases h : (!(BaseFloat.beq ((n - supervision.weight * d) - (n - supervision.weight * d))
      (BaseFloat.fin 0)) || !ok) = true
  · simp only [failureContainment, h, if_true]
  · simp [failureContainment, h]

/-- C12: every call that returns, on the normal path and on the fallback path alike,
returns `weight = supervision.weight * num_sequences * frames_per_sequence`, a value in
which neither the engines nor `l2_regularize` occur; and a well-formed call returns. -/
theorem weight_is_product (env : Collaborators) (opts : ChainTrainingOptions)
    (den_graph : DenominatorGraph) (supervision : Supervision)
    (nnet_output xent_output : CuMatrix) (nd xd : Option CuMatrix) :
    (WellFormedCall env opts supervision nnet_output xent_output nd xd →
      ∃ r, ComputeChainObjfAndDeriv env opts den_graph supervision nnet_output xent_output
        nd xd = some r)
    ∧ ∀ r, ComputeChainObjfAndDeriv env opts den_graph supervision nnet_output xent_output
        nd xd = some r →
          r.weight = supervision.weight * BaseFloat.ofInt supervision.num_sequences *
            BaseFloat.ofInt supervision.frames_per_sequence := by
  refine ⟨computeChainObjfAndDeriv_returns env opts den_graph supervision nnet_output
    xent_output nd xd, ?_⟩
  intro r hr
  obtain ⟨a, _, _, ha, _, _, _, hweight, _⟩ := computeChainObjfAndDeriv_eq_some env opts
    den_graph supervision nnet_output xent_output nd xd r hr
  obtain ⟨bufs, _, _, hfc⟩ := assembleObjfAndDeriv_eq_some env opts den_graph supervision
    nnet_output nd xd a ha
  rw [hweight, hfc, failureContainment_weight]

/-- C12 on the scenario of the spec, on the normal path and on the fallback path: weight
`1.0`, one sequence and five frames give `5.0`. -/
theorem weight_is_product_witness :
    (∃ r, ComputeChainObjfAndDeriv (scenarioCollaborators true)
        { l2_regularize := BaseFloat.fin 0 } {} (scenarioSupervision (BaseFloat.fin 1))
        scenarioOutput emptyMatrix (some scenarioBuffer) none = some r
      ∧ r.weight = BaseFloat.fin 5)
    ∧ (∃ r, ComputeChainObjfAndDeriv (scenarioCollaborators false)
        { l2_regularize := BaseFloat.fin 1 } {} (scenarioSupervision (BaseFloat.fin 1))
        scenarioOutput emptyMatrix (some scenarioBuffer) none = some r
      ∧ r.weight = BaseFloat.fin 5) := by
  have h1 := weight_is_product (scenarioCollaborators true)
    { l2_regularize := BaseFloat.fin 0 } {} (scenarioSupervision (BaseFloat.fin 1))
    scenarioOutput emptyMatrix (some scenarioBuffer) none
  have h2 := weight_is_product (scenarioCollaborators false)
    { l2_regularize := BaseFloat.fin 1 } {} (scenarioSupervision (BaseFloat.fin 1))
    scenarioOutput emptyMatrix (some scenarioBuffer) none
  obtain ⟨r1, hr1⟩ := h1.1 (scenario_wellFormed true _ _ none (bufShape_none _))
  obtain ⟨r2, hr2⟩ := h2.1 (scenario_wellFormed false _ _ none (bufShape_none _))
  have hval : (scenarioSupervision (BaseFloat.fin 1)).weight *
      BaseFloat.ofInt (scenarioSupervision (BaseFloat.fin 1)).num_sequences *
      BaseFloat.ofInt (scenarioSupervision (BaseFloat.fin 1)).frames_per_sequence =
        BaseFloat.fin 5 := by
    norm_num [scenarioSupervision, BaseFloat.ofInt]
  exact ⟨⟨r1, hr1, (h1.2 r1 hr1).trans hval⟩, ⟨r2, hr2, (h2.2 r2 hr2).trans hval⟩⟩

/-! ## ComputeScaleOffset (lines 154-162) -/

/-- C13 fails on the code: for `input2 = 2.0 * input1 + 3.0` the call of `ComputeScaleOffset`
leaves `scale` and `offset` as they were (here zero), not `2.0` and `3.0`: the body of the
function is empty. -/
theorem computeScaleOffset_sets_nothing :
    (∀ i j, i < 2 → j < 1 → affineInput2.data i j =
        BaseFloat.fin 2 * affineInput1.data i j + BaseFloat.fin 3)
    ∧ ComputeScaleOffset affineInput1 affineInput2 (CuVector.zeros 1) (CuVector.zeros 1) =
        (CuVector.zeros 1, CuVector.zeros 1)
    ∧ (ComputeScaleOffset affineInput1 affineInput2 (CuVector.zeros 1)
        (CuVector.zeros 1)).1.data 0 ≠ BaseFloat.fin 2
    ∧ (ComputeScaleOffset affineInput1 affineInput2 (CuVector.zeros 1)
        (CuVector.zeros 1)).2.data 0 ≠ BaseFloat.fin 3 := by
  refine ⟨?_, rfl, ?_, ?_⟩
  · intro i j hi hj
    interval_cases i <;> interval_cases j <;>
      norm_num [affineInput1, affineInput2, CuMatrix.ofRows]
  · simp [ComputeScaleOffset, CuVector.zeros]
  · simp [ComputeScaleOffset, CuVector.zeros]

/-! ## The calls that abort -/

/-- With a non-empty `xent_output` and `l2_regularize != 0` the call returns only when
`xent_output` is square: line 129 asserts `xent_output.NumCols() == xent_output.NumRows()`. -/
theorem computeChainObjfAndDeriv_none_of_not_square (env : Collaborators)
    (opts : ChainTrainingOptions) (den_graph : DenominatorGraph) (supervision : Supervision)
    (nnet_output xent_output : CuMatrix) (nd xd : Option CuMatrix)
    (hl2 : opts.l2_regularize.beq (BaseFloat.fin 0) = false)
    (hx : xent_output.numRows ≠ 0)
    (hne : xent_output.numRows ≠ xent_output.numCols) :
    ComputeChainObjfAndDeriv env opts den_graph supervision nnet_output xent_output nd xd
      = none := by
  rw [Option.eq_none_iff_forall_not_mem]
  intro r hr
  obtain ⟨a, _, l2, _, _, hl2r, _⟩ := computeChainObjfAndDeriv_eq_some env opts den_graph
    supervision nnet_output xent_output nd xd r hr
  obtain ⟨scale, offset, _, hso, _⟩ := l2Regularization_present opts supervision nnet_output
    xent_output _ _ l2 hl2 hx hl2r
  have hs : (scaleAndOffset nnet_output xent_output).isSome = true := by rw [hso]; rfl
  exact hne ((scaleAndOffset_isSome_iff nnet_output xent_output).mp hs).2

/-- C18 fails on the code: for a `1 x 2` auxiliary output of the shape of `nnet_output` and
`l2_regularize = 1` the fit of lines 120-131 fails and the call does not return.  The
vector `scaled_xent_col_sum` is constructed with `xent_output.NumRows() = 1` entries, not
the `2` that `AddMatVec` with the transposed `xent_output` asserts. -/
theorem l2_branch_aborts_on_wide_xent :
    wideXent.SameDim wideOutput
    ∧ (CuVector.zeros wideXent.numRows).dim = 1 ∧ wideXent.numCols = 2
    ∧ scaleAndOffset wideOutput wideXent = none
    ∧ ComputeChainObjfAndDeriv (scenarioCollaborators true)
        { l2_regularize := BaseFloat.fin 1 } {} wideSupervision wideOutput wideXent
        none none = none := by
  refine ⟨⟨rfl, rfl⟩, rfl, rfl, ?_, ?_⟩
  · cases h : scaleAndOffset wideOutput wideXent with
    | none => rfl
    | some so =>
      have hs : (scaleAndOffset wideOutput wideXent).isSome = true := by rw [h]; rfl
      have := ((scaleAndOffset_isSome_iff wideOutput wideXent).mp hs).2
      exact absurd this (by decide)
  · exact computeChainObjfAndDeriv_none_of_not_square _ _ _ _ _ _ _ _
      (by simp [BaseFloat.beq]) (by decide) (by decide)

/-- With verbose level 1 or more and no chain gradient buffer the call does not return:
line 91 dereferences `nnet_output_deriv` without a null test. -/
theorem computeChainObjfAndDeriv_none_of_verbose (env : Collaborators)
    (opts : ChainTrainingOptions) (den_graph : DenominatorGraph) (supervision : Supervision)
    (nnet_output xent_output : CuMatrix) (xd : Option CuMatrix)
    (hv : 1 ≤ env.verboseLevel) :
    ComputeChainObjfAndDeriv env opts den_graph supervision nnet_output xent_output none xd
      = none := by
  rw [Option.eq_none_iff_forall_not_mem]
  intro r hr
  obtain ⟨a, logged, _, ha, hl, _⟩ := computeChainObjfAndDeriv_eq_some env opts den_graph
    supervision nnet_output xent_output none xd r hr
  have hnone : a.nnet_output_deriv = none := by
    cases hfin : ((env.numerator supervision nnet_output).Forward - supervision.weight *
      (env.denominator opts den_graph supervision.num_sequences nnet_output).Forward).isFinite
      with
    | false =>
      rw [assembleObjfAndDeriv_fallback env opts den_graph supervision nnet_output none xd a
        ha (Or.inl hfin)]
      rfl
    | true =>
      rw [assembleObjfAndDeriv_normal env opts den_graph supervision nnet_output none xd a
        ha hfin (fun h => by cases h)]
      rfl
  rw [hnone] at hl
  have hge : env.verboseLevel ≥ 1 := hv
  simp [derivsPerFrame, hge] at hl

/-- The index of line 99 is inside `row_products_per_frame`: for a row index
`i < num_sequences * frames_per_sequence` the quotient `i / num_sequences` is below
`frames_per_sequence`. -/
theorem derivsPerFrame_index_lt (num_sequences frames_per_sequence : Int) (i : Nat)
    (hs : 0 < num_sequences) (hi : (i : Int) < num_sequences * frames_per_sequence) :
    0 ≤ Int.tdiv (i : Int) num_sequences
      ∧ Int.tdiv (i : Int) num_sequences < frames_per_sequence := by
  rw [Int.tdiv_eq_ediv (Int.ofNat_nonneg i) (le_of_lt hs)]
  refine ⟨Int.ediv_nonneg (Int.ofNat_nonneg i) (le_of_lt hs), ?_⟩
  apply Int.ediv_lt_of_lt_mul hs
  rw [mul_comm]
  exact hi

/-- C20 fails on the code: the call of the scenario with verbose level 1 and no chain
gradient buffer satisfies the shape preconditions and does not return, while the same
call with a chain gradient buffer does.  The diagnostic block reads
`nnet_output_deriv->NumRows()` without the null test that lines 39, 46, 64, 73, 141
and 149 make. -/
theorem diagnostic_block_reads_missing_buffer :
    1 ≤ verboseCollaborators.verboseLevel
    ∧ (scenarioOutput.numRows : Int) = (scenarioSupervision (BaseFloat.fin 1)).num_sequences *
        (scenarioSupervision (BaseFloat.fin 1)).frames_per_sequence
    ∧ derivsPerFrame verboseCollaborators.verboseLevel (scenarioSupervision (BaseFloat.fin 1))
        none = none
    ∧ ComputeChainObjfAndDeriv verboseCollaborators { l2_regularize := BaseFloat.fin 0 } {}
        (scenarioSupervision (BaseFloat.fin 1)) scenarioOutput emptyMatrix none none = none
    ∧ (ComputeChainObjfAndDeriv verboseCollaborators { l2_regularize := BaseFloat.fin 0 } {}
        (scenarioSupervision (BaseFloat.fin 1)) scenarioOutput emptyMatrix
        (some scenarioBuffer) none).isSome = true := by
  refine ⟨by decide, by simp [scenarioSupervision, scenarioOutput, CuMatrix.ofRows], ?_, ?_, ?_⟩
  · simp [derivsPerFrame, verboseCollaborators, constCollaborators]
  · exact computeChainObjfAndDeriv_none_of_verbose _ _ _ _ _ _ _ (by decide)
  · obtain ⟨r, hr⟩ := computeChainObjfAndDeriv_returns verboseCollaborators
      { l2_regularize := BaseFloat.fin 0 } {} (scenarioSupervision (BaseFloat.fin 1))
      scenarioOutput emptyMatrix (some scenarioBuffer) none
      { rows := by simp [scenarioSupervision, scenarioOutput, CuMatrix.ofRows]
        num_sequences_pos := by simp [scenarioSupervision]
        frames_nonneg := by simp [scenarioSupervision]
        xent_shape := fun h => absurd rfl h
        nnet_deriv_shape := bufShape_some _ _ ⟨rfl, rfl⟩
        xent_deriv_shape := bufShape_none _
        verbose_needs_deriv := fun _ => rfl
        l2_square := fun _ h => absurd rfl h }
    rw [hr]
    rfl

/-! ## The L2 step after the fallback -/

/-- The auxiliary-absent branch of the L2 step, whenever it completes. -/
theorem l2Regularization_absent_eq_some (opts : ChainTrainingOptions)
    (supervision : Supervision) (nnet_output xent_output : CuMatrix)
    (nd xd : Option CuMatrix) (res : L2Result)
    (h : opts.l2_regularize.beq (BaseFloat.fin 0) = false) (hx : xent_output.numRows = 0)
    (hres : l2Regularization opts supervision nnet_output xent_output nd xd = some res) :
    res = { l2_term := BaseFloat.fin (-1/2) * (supervision.weight * opts.l2_regularize) *
              sumSquares nnet_output
            nnet_output_deriv := nd.map fun m =>
              { m with data := fun i j => m.data i j +
                  BaseFloat.fin (-1) * (supervision.weight * opts.l2_regularize) *
                    nnet_output.data i j }
            xent_output_deriv := xd } := by
  by_cases hshape : BufShape nd nnet_output
  · rw [l2Regularization_absent opts supervision nnet_output xent_output nd xd h hx hshape]
      at hres
    cases hres
    rfl
  · exfalso
    apply hshape
    intro m hm
    simp only [l2Regularization, h, hx, hm, ne_eq, not_true_eq_false, if_false,
      Bool.false_eq_true, traceMatMat_self, Option.bind_eq_bind, Option.some_bind] at hres
    by_contra hcon
    simp [CuMatrix.AddMat, hcon] at hres

theorem map_setZero_map_add (nd : Option CuMatrix) (f : Nat → Nat → BaseFloat) :
    (nd.map CuMatrix.SetZero).map (fun m => { m with data := fun i j => m.data i j + f i j }) =
      nd.map (fun m => { m with data := f }) := by
  cases nd <;> simp [CuMatrix.SetZero]

/-- C15: on every call on which the fallback fires (a non-finite objective, or a failed
denominator backward pass) with `l2_regularize != 0`, the L2 step still runs on the
zeroed buffers: `objf` is `-10 * weight` without any L2 term, `l2_term` is given by the
formula of the normal path, and the chain gradient buffer, if requested, holds exactly the
L2 contribution: `-1.0 * scale_coeff * nnet_output` when `xent_output` is empty,
`scale_coeff * output_diff` otherwise, with
`scale_coeff = supervision.weight * l2_regularize`. -/
theorem l2_runs_after_fallback (env : Collaborators) (opts : ChainTrainingOptions)
    (den_graph : DenominatorGraph) (supervision : Supervision)
    (nnet_output xent_output : CuMatrix) (nd xd : Option CuMatrix)
    (hbad : ((env.numerator supervision nnet_output).Forward - supervision.weight *
        (env.denominator opts den_graph supervision.num_sequences nnet_output).Forward).isFinite
          = false
      ∨ (nd.isSome = true ∧
        (env.denominator opts den_graph supervision.num_sequences nnet_output).ok = false))
    (hl2 : opts.l2_regularize.beq (BaseFloat.fin 0) = false) :
    (WellFormedCall env opts supervision nnet_output xent_output nd xd →
      ∃ r, ComputeChainObjfAndDeriv env opts den_graph supervision nnet_output xent_output
        nd xd = some r)
    ∧ ∀ r, ComputeChainObjfAndDeriv env opts den_graph supervision nnet_output xent_output
        nd xd = some r →
          r.warned = true
          ∧ r.objf = BaseFloat.fin (-10) * r.weight
          ∧ (xent_output.numRows = 0 →
              r.l2_term = BaseFloat.fin (-1/2) * (supervision.weight * opts.l2_regularize) *
                sumSquares nnet_output
              ∧ r.nnet_output_deriv = nd.map (fun m =>
                  { m with data := fun i j =>
                      BaseFloat.fin (-1) * (supervision.weight * opts.l2_regularize) *
                        nnet_output.data i j }))
          ∧ (xent_output.numRows ≠ 0 →
              ∃ scale offset output_diff,
                scaleAndOffset nnet_output xent_output = some (scale, offset)
                ∧ outputDiff nnet_output xent_output scale offset = some output_diff
                ∧ r.l2_term = BaseFloat.fin (-1/2) *
                    (supervision.weight * opts.l2_regularize) * sumSquares output_diff
                ∧ r.nnet_output_deriv = nd.map (fun m =>
                    { m with data := fun i j =>
                        supervision.weight * opts.l2_regularize * output_diff.data i j })) := by
  refine ⟨computeChainObjfAndDeriv_returns env opts den_graph supervision nnet_output
    xent_output nd xd, ?_⟩
  intro r hr
  obtain ⟨a, _, l2, ha, _, hl2r, hobjf, hweight, hwarned, hterm, hnd, _⟩ :=
    computeChainObjfAndDeriv_eq_some env opts den_graph supervision nnet_output xent_output
      nd xd r hr
  have hfb := assembleObjfAndDeriv_fallback env opts den_graph supervision nnet_output nd xd
    a ha hbad
  subst hfb
  refine ⟨hwarned, by rw [hobjf, hweight], ?_, ?_⟩
  · intro hx
    have hres := l2Regularization_absent_eq_some opts supervision nnet_output xent_output
      _ _ l2 hl2 hx hl2r
    subst hres
    refine ⟨hterm, ?_⟩
    rw [hnd]
    exact map_setZero_map_add nd _
  · intro hx
    obtain ⟨scale, offset, od, hso, hod, h1, h2, _⟩ := l2Regularization_present opts
      supervision nnet_output xent_output _ _ l2 hl2 hx hl2r
    refine ⟨scale, offset, od, hso, hod, by rw [hterm, h1], ?_⟩
    rw [hnd, h2]
    exact map_setZero_map_add nd _

/-- C15 on the scenario with a failing denominator backward pass and `l2_regularize = 1`,
without auxiliary output, and on the two-by-two example with a NaN numerator and an
auxiliary output: `objf` is `-10 * weight` and the chain buffer holds the L2 contribution
alone. -/
theorem l2_runs_after_fallback_witness :
    (∃ r m, ComputeChainObjfAndDeriv (scenarioCollaborators false)
        { l2_regularize := BaseFloat.fin 1 } {} (scenarioSupervision (BaseFloat.fin 1))
        scenarioOutput emptyMatrix (some scenarioBuffer) none = some r
      ∧ r.objf = BaseFloat.fin (-10) * r.weight
      ∧ r.l2_term = BaseFloat.fin (-385/2)
      ∧ r.nnet_output_deriv = some m ∧ m.data 4 1 = BaseFloat.fin (-10))
    ∧ (∃ r m, ComputeChainObjfAndDeriv nanCollaborators
        { l2_regularize := BaseFloat.fin 1 } {} squareSupervision squareOutput squareXent
        (some squareBuffer) none = some r
      ∧ r.objf = BaseFloat.fin (-10) * r.weight
      ∧ r.l2_term = BaseFloat.fin (-1/10)
      ∧ r.nnet_output_deriv = some m ∧ m.data 0 0 = BaseFloat.fin (-2/5)) := by
  have h1 := l2_runs_after_fallback (scenarioCollaborators false)
    { l2_regularize := BaseFloat.fin 1 } {} (scenarioSupervision (BaseFloat.fin 1))
    scenarioOutput emptyMatrix (some scenarioBuffer) none (Or.inr ⟨rfl, rfl⟩)
    (by simp [BaseFloat.beq])
  have h2 := l2_runs_after_fallback nanCollaborators
    { l2_regularize := BaseFloat.fin 1 } {} squareSupervision squareOutput squareXent
    (some squareBuffer) none (Or.inl rfl) (by simp [BaseFloat.beq])
  obtain ⟨r1, hr1⟩ := h1.1 (scenario_wellFormed false _ _ none (bufShape_none _))
  obtain ⟨r2, hr2⟩ := h2.1 (wellFormed_of_square _ _ _ _ rfl (bufShape_some _ _ ⟨rfl, rfl⟩)
    (bufShape_none _))
  obtain ⟨_, ho1, ha1, _⟩ := h1.2 r1 hr1
  obtain ⟨hterm1, hnd1⟩ := ha1 rfl
  obtain ⟨_, ho2, _, hp2⟩ := h2.2 r2 hr2
  obtain ⟨scale, offset, od, hso, hod, hterm2, hnd2⟩ := hp2 (by decide)
  obtain ⟨S, O, D, hS, hD, _, _, _, _, hd00, _, _, _, hsum⟩ := square_fit
  rw [hS] at hso
  cases hso
  rw [hD] at hod
  cases hod
  simp only [Option.map_some'] at hnd1 hnd2
  refine ⟨⟨r1, _, hr1, ho1, ?_, hnd1, ?_⟩, ⟨r2, _, hr2, ho2, ?_, hnd2, ?_⟩⟩
  · rw [hterm1]
    norm_num [sumSquares, BaseFloat.sumRange, List.range_succ, scenarioSupervision,
      scenarioOutput, CuMatrix.ofRows]
  · norm_num [scenarioSupervision, scenarioOutput, CuMatrix.ofRows]
  · rw [hterm2, hsum]
    norm_num [squareSupervision]
  · simp only [hd00]
    norm_num [squareSupervision]

/-! ## Sums -/

namespace BaseFloat

@[simp] theorem nan_add (x : BaseFloat) : nan + x = nan := by
  cases x <;> rfl

@[simp] theorem add_nan (x : BaseFloat) : x + nan = nan := by
  cases x <;> rfl

@[simp] theorem nan_mul (x : BaseFloat) : nan * x = nan := by
  cases x <;> rfl

@[simp] theorem mul_nan (x : BaseFloat) : x * nan = nan := by
  cases x <;> rfl

theorem sumRange_succ (n : Nat) (f : Nat → BaseFloat) :
    sumRange (n + 1) f = sumRange n f + f n := by
  simp [sumRange, List.range_succ, List.foldl_append]

@[simp] theorem sumRange_zero (f : Nat → BaseFloat) : sumRange 0 f = fin 0 := rfl

/-- A sum with a NaN term is NaN. -/
theorem sumRange_eq_nan (n : Nat) (f : Nat → BaseFloat) (i : Nat) (hi : i < n)
    (h : f i = nan) : sumRange n f = nan := by
  induction n with
  | zero => omega
  | succ n ih =>
    rw [sumRange_succ]
    by_cases hin : i < n
    · rw [ih hin, nan_add]
    · have : i = n := by omega
      subst this
      rw [h, add_nan]

/-- A sum of finite terms is the finite sum of their values. -/
theorem sumRange_fin (n : Nat) (f : Nat → BaseFloat) (g : Nat → ℚ)
    (h : ∀ i, i < n → f i = fin (g i)) :
    sumRange n f = fin (∑ i in Finset.range n, g i) := by
  induction n with
  | zero => simp
  | succ n ih =>
    rw [sumRange_succ, ih (fun i hi => h i (Nat.lt_succ_of_lt hi)), h n (Nat.lt_succ_self n),
      Finset.sum_range_succ]
    rfl

/-- A sum of terms that are each zero or NaN is zero or NaN. -/
theorem sumRange_zero_or_nan (n : Nat) (f : Nat → BaseFloat)
    (h : ∀ i, i < n → f i = fin 0 ∨ f i = nan) :
    sumRange n f = fin 0 ∨ sumRange n f = nan := by
  induction n with
  | zero => exact Or.inl rfl
  | succ n ih =>
    rw [sumRange_succ]
    rcases ih (fun i hi => h i (Nat.lt_succ_of_lt hi)) with h1 | h1 <;>
      rcases h n (Nat.lt_succ_self n) with h2 | h2 <;> simp [h1, h2]

theorem zero_mul_zero_or_nan (y : BaseFloat) : fin 0 * y = fin 0 ∨ fin 0 * y = nan := by
  cases y <;> simp [mul_def, mul, ofSign]

theorem zero_or_nan_div_zero (x : BaseFloat) (h : x = fin 0 ∨ x = nan) :
    x / fin 0 = nan := by
  rcases h with h | h <;> subst h <;> simp [div_def, div, ofSign]

end BaseFloat

/-! ## The division of line 126 -/

/-- With a column of `xent_output` identically zero, the scale of that column is `0 / 0`,
NaN, and so is the returned `l2_term`, on every call that returns. -/
theorem l2_term_nan_of_zero_column (env : Collaborators) (opts : ChainTrainingOptions)
    (den_graph : DenominatorGraph) (supervision : Supervision)
    (nnet_output xent_output : CuMatrix) (nd xd : Option CuMatrix) (i : Nat)
    (hx : xent_output.numRows ≠ 0)
    (hl2 : opts.l2_regularize.beq (BaseFloat.fin 0) = false)
    (hi : i < xent_output.numCols)
    (hcol : ∀ k, k < xent_output.numRows → xent_output.data k i = BaseFloat.fin 0)
    (r : Outcome)
    (hr : ComputeChainObjfAndDeriv env opts den_graph supervision nnet_output xent_output
      nd xd = some r) :
    (∃ scale offset, scaleAndOffset nnet_output xent_output = some (scale, offset)
      ∧ scale.data i = BaseFloat.nan)
    ∧ r.l2_term = BaseFloat.nan := by
  obtain ⟨a, _, l2, _, _, hl2r, _, _, _, hterm, _⟩ := computeChainObjfAndDeriv_eq_some env
    opts den_graph supervision nnet_output xent_output nd xd r hr
  obtain ⟨scale, offset, od, hso, hod, h1, _⟩ := l2Regularization_present opts supervision
    nnet_output xent_output _ _ l2 hl2 hx hl2r
  have hs : (scaleAndOffset nnet_output xent_output).isSome = true := by rw [hso]; rfl
  obtain ⟨hsame, hsq⟩ := (scaleAndOffset_isSome_iff nnet_output xent_output).mp hs
  have hso2 := hso
  rw [scaleAndOffset_eq nnet_output xent_output hsame hsq] at hso2
  have hden : (BaseFloat.sumRange xent_output.numRows fun k =>
      xent_output.data k i * xent_output.data k i) = BaseFloat.fin 0 := by
    rw [BaseFloat.sumRange_fin _ _ (fun _ => 0) (fun k hk => by rw [hcol k hk]; simp)]
    simp
  have hnum := BaseFloat.sumRange_zero_or_nan xent_output.numRows
    (fun k => xent_output.data k i * nnet_output.data k i)
    (fun k hk => by
      show xent_output.data k i * nnet_output.data k i = BaseFloat.fin 0 ∨
        xent_output.data k i * nnet_output.data k i = BaseFloat.nan
      rw [hcol k hk]
      exact BaseFloat.zero_mul_zero_or_nan _)
  have hscale : scale.data i = BaseFloat.nan := by
    cases hso2
    show _ / _ = BaseFloat.nan
    rw [hden]
    exact BaseFloat.zero_or_nan_div_zero _ hnum
  have hsdim : scale.dim = xent_output.numCols := by cases hso2; rfl
  have hodim : offset.dim = xent_output.numCols := by cases hso2; rfl
  refine ⟨⟨scale, offset, hso, hscale⟩, ?_⟩
  rw [outputDiff_eq nnet_output xent_output scale offset hsame hsdim hodim] at hod
  cases hod
  have hpos : 0 < xent_output.numRows := Nat.pos_of_ne_zero hx
  rw [hterm, h1]
  have hsum : sumSquares
      { numRows := xent_output.numRows
        numCols := xent_output.numCols
        data := fun r c => xent_output.data r c * scale.data c + offset.data c +
          BaseFloat.fin (-1) * nnet_output.data r c } = BaseFloat.nan := by
    apply BaseFloat.sumRange_eq_nan _ _ 0 hpos
    apply BaseFloat.sumRange_eq_nan _ _ i hi
    simp [hscale]
  rw [hsum, BaseFloat.mul_nan]

/-- C17 as stated fails: on the two-by-two example with a second column of `xent_output`
identically zero the call returns, the scale of that column is `0 / 0 = NaN`, and the
returned `l2_term` is NaN.  Line 126 divides by the column sums of squares without any
guard. -/
theorem l2_term_nan_on_zero_column :
    ∃ r scale offset, ComputeChainObjfAndDeriv (scenarioCollaborators true)
        { l2_regularize := BaseFloat.fin 1 } {} squareSupervision squareOutput zeroColumnXent
        (some squareBuffer) (some squareBuffer) = some r
      ∧ scaleAndOffset squareOutput zeroColumnXent = some (scale, offset)
      ∧ scale.data 1 = BaseFloat.nan
      ∧ r.l2_term = BaseFloat.nan := by
  obtain ⟨r, hr⟩ := computeChainObjfAndDeriv_returns (scenarioCollaborators true)
    { l2_regularize := BaseFloat.fin 1 } {} squareSupervision squareOutput zeroColumnXent
    (some squareBuffer) (some squareBuffer)
    { rows := by simp [squareSupervision, squareOutput, CuMatrix.ofRows]
      num_sequences_pos := by simp [squareSupervision]
      frames_nonneg := by simp [squareSupervision]
      xent_shape := fun _ => ⟨rfl, rfl⟩
      nnet_deriv_shape := bufShape_some _ _ ⟨rfl, rfl⟩
      xent_deriv_shape := bufShape_some _ _ ⟨rfl, rfl⟩
      verbose_needs_deriv := fun _ => rfl
      l2_square := fun _ _ => rfl }
  obtain ⟨⟨scale, offset, hso, hs⟩, hterm⟩ := l2_term_nan_of_zero_column _ _ _ _ _ _ _ _ 1
    (by decide) (by simp [BaseFloat.beq]) (by decide)
    (fun k hk => by
      have hk2 : k < 2 := hk
      interval_cases k <;> simp [zeroColumnXent, CuMatrix.ofRows])
    r hr
  exact ⟨r, scale, offset, hr, hso, hs, hterm⟩

/-- C17 (amended): on every call with a non-empty `xent_output`, `l2_regularize != 0` and a
column `i` of `xent_output` identically zero, the L2 branch has no degenerate-case policy:
the division of line 126 by `sum_j xent_output_ji^2 = 0` is carried out, the scale of that
column is NaN, and the `l2_term` that the call returns is NaN. -/
theorem zero_column_makes_l2_term_nan (env : Collaborators) (opts : ChainTrainingOptions)
    (den_graph : DenominatorGraph) (supervision : Supervision)
    (nnet_output xent_output : CuMatrix) (nd xd : Option CuMatrix) (i : Nat)
    (hx : xent_output.numRows ≠ 0)
    (hl2 : opts.l2_regularize.beq (BaseFloat.fin 0) = false)
    (hi : i < xent_output.numCols)
    (hcol : ∀ k, k < xent_output.numRows → xent_output.data k i = BaseFloat.fin 0) :
    (WellFormedCall env opts supervision nnet_output xent_output nd xd →
      ∃ r, ComputeChainObjfAndDeriv env opts den_graph supervision nnet_output xent_output
        nd xd = some r)
    ∧ ∀ r, ComputeChainObjfAndDeriv env opts den_graph supervision nnet_output xent_output
        nd xd = some r →
          (∃ scale offset, scaleAndOffset nnet_output xent_output = some (scale, offset)
            ∧ scale.data i = BaseFloat.nan)
          ∧ r.l2_term = BaseFloat.nan :=
  ⟨computeChainObjfAndDeriv_returns env opts den_graph supervision nnet_output xent_output
      nd xd,
    fun r hr => l2_term_nan_of_zero_column env opts den_graph supervision nnet_output
      xent_output nd xd i hx hl2 hi hcol r hr⟩

/-- C17 (amended) on the two-by-two example with a zero second column and only the chain
gradient buffer requested: the call returns `l2_term = NaN`. -/
theorem zero_column_makes_l2_term_nan_witness :
    ∃ r, ComputeChainObjfAndDeriv (scenarioCollaborators true)
        { l2_regularize := BaseFloat.fin 1 } {} squareSupervision squareOutput zeroColumnXent
        (some squareBuffer) none = some r
      ∧ r.l2_term = BaseFloat.nan
      ∧ BaseFloat.isFinite r.l2_term = false := by
  have h := zero_column_makes_l2_term_nan (scenarioCollaborators true)
    { l2_regularize := BaseFloat.fin 1 } {} squareSupervision squareOutput zeroColumnXent
    (some squareBuffer) none 1 (by decide) (by simp [BaseFloat.beq]) (by decide)
    (fun k hk => by
      have hk2 : k < 2 := hk
      interval_cases k <;> simp [zeroColumnXent, CuMatrix.ofRows])
  obtain ⟨r, hr⟩ := h.1
    { rows := by simp [squareSupervision, squareOutput, CuMatrix.ofRows]
      num_sequences_pos := by simp [squareSupervision]
      frames_nonneg := by simp [squareSupervision]
      xent_shape := fun _ => ⟨rfl, rfl⟩
      nnet_deriv_shape := bufShape_some _ _ ⟨rfl, rfl⟩
      xent_deriv_shape := bufShape_none _
      verbose_needs_deriv := fun _ => rfl
      l2_square := fun _ _ => rfl }
  have hnan := (h.2 r hr).2
  exact ⟨r, hr, hnan, by rw [hnan]; rfl⟩

/-! ## The fit of lines 120-131 is not the least-squares fit -/

/-- C14 fails on the code: on the two-by-two example the pair used for the first column,
scale `3/5` and offset `0`, has squared error `1/5`, while scale `0` and offset `1` have
squared error `0`.  The offset is computed from the zero-filled vector `ones`. -/
theorem fitted_pair_is_not_a_minimiser :
    ∃ scale offset, scaleAndOffset squareOutput squareXent = some (scale, offset)
      ∧ scale.data 0 = BaseFloat.fin (3/5) ∧ offset.data 0 = BaseFloat.fin 0
      ∧ specSquaredError squareXent squareOutput 0 (scale.data 0) (offset.data 0) =
          BaseFloat.fin (1/5)
      ∧ specSquaredError squareXent squareOutput 0 (BaseFloat.fin 0) (BaseFloat.fin 1) =
          BaseFloat.fin 0
      ∧ BaseFloat.ble
          (specSquaredError squareXent squareOutput 0 (scale.data 0) (offset.data 0))
          (specSquaredError squareXent squareOutput 0 (BaseFloat.fin 0) (BaseFloat.fin 1)) =
            false := by
  obtain ⟨S, O, D, hS, _, hs0, _, ho0, _⟩ := square_fit
  have h1 : specSquaredError squareXent squareOutput 0 (S.data 0) (O.data 0) =
      BaseFloat.fin (1/5) := by
    rw [hs0, ho0]
    norm_num [specSquaredError, squareOutput, squareXent, CuMatrix.ofRows, BaseFloat.sumRange,
      List.range_succ]
  have h2 : specSquaredError squareXent squareOutput 0 (BaseFloat.fin 0) (BaseFloat.fin 1) =
      BaseFloat.fin 0 := by
    norm_num [specSquaredError, squareOutput, squareXent, CuMatrix.ofRows, BaseFloat.sumRange,
      List.range_succ]
  refine ⟨S, O, hS, hs0, ho0, h1, h2, ?_⟩
  rw [h1, h2]
  norm_num [BaseFloat.ble]

/-! ## Finite data -/

namespace BaseFloat

theorem eq_fin_toRat (x : BaseFloat) (h : x.isFinite = true) : x = fin x.toRat := by
  cases x with
  | fin q => rfl
  | pinf => simp [isFinite] at h
  | ninf => simp [isFinite] at h
  | nan => simp [isFinite] at h

theorem sumRange_congr (n : Nat) (f g : Nat → BaseFloat) (h : ∀ i, i < n → f i = g i) :
    sumRange n f = sumRange n g := by
  induction n with
  | zero => rfl
  | succ n ih =>
    rw [sumRange_succ, sumRange_succ, ih (fun i hi => h i (Nat.lt_succ_of_lt hi)),
      h n (Nat.lt_succ_self n)]

end BaseFloat

/-- The sum of the squared entries of a matrix with finite entries. -/
theorem sumSquares_fin (M : CuMatrix) (D : Nat → Nat → ℚ)
    (h : ∀ r c, r < M.numRows → c < M.numCols → M.data r c = BaseFloat.fin (D r c)) :
    sumSquares M = BaseFloat.fin
      (∑ r in Finset.range M.numRows, ∑ c in Finset.range M.numCols, D r c * D r c) := by
  unfold sumSquares
  apply BaseFloat.sumRange_fin
  intro r hr
  apply BaseFloat.sumRange_fin
  intro c hc
  rw [h r c hr hc]
  rfl

namespace BaseFloat

/-- For finite values `x * s + 0 + (-1) * y` is `s * x - y`. -/
theorem affine_zero_offset (x s y : BaseFloat) (hx : x.isFinite = true)
    (hs : s.isFinite = true) (hy : y.isFinite = true) :
    x * s + fin 0 + fin (-1) * y = s * x - y := by
  rw [eq_fin_toRat x hx, eq_fin_toRat s hs, eq_fin_toRat y hy]
  simp only [fin_mul_fin, fin_add_fin, fin_sub_fin]
  congr 1
  ring

end BaseFloat

/-! ## The sign of the L2 term -/

/-- C11 as stated fails: with `l2_regularize = 1`, weight `1.0` and a network output whose
first entry is NaN the call returns `l2_term = NaN`, which is not `<= 0`. -/
theorem l2_term_nan_for_nan_output :
    BaseFloat.ble (BaseFloat.fin 0) (BaseFloat.fin 1) = true
    ∧ ∃ r, ComputeChainObjfAndDeriv nanCollaborators { l2_regularize := BaseFloat.fin 1 } {}
        (scenarioSupervision (BaseFloat.fin 1)) divergedOutput emptyMatrix
        (some scenarioBuffer) none = some r
      ∧ r.l2_term = BaseFloat.nan
      ∧ BaseFloat.ble r.l2_term (BaseFloat.fin 0) = false := by
  refine ⟨by simp [BaseFloat.ble], ?_⟩
  obtain ⟨r, hr⟩ := computeChainObjfAndDeriv_returns nanCollaborators
    { l2_regularize := BaseFloat.fin 1 } {} (scenarioSupervision (BaseFloat.fin 1))
    divergedOutput emptyMatrix (some scenarioBuffer) none
    { rows := by simp [scenarioSupervision, divergedOutput, CuMatrix.setEntry, scenarioOutput,
        CuMatrix.ofRows]
      num_sequences_pos := by simp [scenarioSupervision]
      frames_nonneg := by simp [scenarioSupervision]
      xent_shape := fun h => absurd rfl h
      nnet_deriv_shape := bufShape_some _ _ ⟨rfl, rfl⟩
      xent_deriv_shape := bufShape_none _
      verbose_needs_deriv := fun _ => rfl
      l2_square := fun _ h => absurd rfl h }
  obtain ⟨a, _, l2, _, _, hl2r, _, _, _, hterm, _⟩ :=
    computeChainObjfAndDeriv_eq_some _ _ _ _ _ _ _ _ r hr
  have hres := l2Regularization_absent_eq_some _ _ _ _ _ _ l2 (by simp [BaseFloat.beq]) rfl
    hl2r
  have hsum : sumSquares divergedOutput = BaseFloat.nan := by
    apply BaseFloat.sumRange_eq_nan _ _ 0 (by decide)
    apply BaseFloat.sumRange_eq_nan _ _ 0 (by decide)
    simp [divergedOutput, CuMatrix.setEntry]
  have hnan : r.l2_term = BaseFloat.nan := by
    rw [hterm, hres, hsum, BaseFloat.mul_nan]
  exact ⟨r, hr, hnan, by rw [hnan]; rfl⟩

namespace BaseFloat

theorem ofSign_of_pos (s : ℚ) (h : 0 < s) : ofSign s = pinf := by
  simp [ofSign, h]

theorem ofSign_of_neg (s : ℚ) (h : s < 0) : ofSign s = ninf := by
  simp [ofSign, h, not_lt.mpr h.le]

/-- The infinity with the sign of a value `>= 0` is `+inf` or NaN. -/
theorem ofSign_of_nonneg (s : ℚ) (h : 0 ≤ s) : ofSign s = pinf ∨ ofSign s = nan := by
  rcases h.lt_or_eq with h1 | h1
  · exact Or.inl (ofSign_of_pos s h1)
  · subst h1
    exact Or.inr (by simp [ofSign])

/-- The infinity with the sign of a value `<= 0` is `-inf` or NaN. -/
theorem ofSign_of_nonpos (s : ℚ) (h : s ≤ 0) : ofSign s = ninf ∨ ofSign s = nan := by
  rcases h.lt_or_eq with h1 | h1
  · exact Or.inl (ofSign_of_neg s h1)
  · subst h1
    exact Or.inr (by simp [ofSign])

/-- A square is `>= 0` or NaN. -/
theorem mul_self_nonneg_or_nan (x : BaseFloat) :
    ble (fin 0) (x * x) = true ∨ x * x = nan := by
  cases x with
  | fin a => exact Or.inl (by simp [mul_def, mul, ble, mul_self_nonneg])
  | pinf => exact Or.inl rfl
  | ninf => exact Or.inl rfl
  | nan => exact Or.inr rfl

/-- A sum of two values that are each `>= 0` or NaN is `>= 0` or NaN. -/
theorem add_nonneg_or_nan (a b : BaseFloat) (ha : ble (fin 0) a = true ∨ a = nan)
    (hb : ble (fin 0) b = true ∨ b = nan) :
    ble (fin 0) (a + b) = true ∨ a + b = nan := by
  cases a <;> cases b <;> simp_all [add_def, add, ble]
  exact add_nonneg ha hb

/-- A sum of terms that are each `>= 0` or NaN is `>= 0` or NaN. -/
theorem sumRange_nonneg_or_nan (n : Nat) (f : Nat → BaseFloat)
    (h : ∀ i, i < n → ble (fin 0) (f i) = true ∨ f i = nan) :
    ble (fin 0) (sumRange n f) = true ∨ sumRange n f = nan := by
  induction n with
  | zero => exact Or.inl (by simp [ble])
  | succ n ih =>
    rw [sumRange_succ]
    exact add_nonneg_or_nan _ _ (ih fun i hi => h i (Nat.lt_succ_of_lt hi))
      (h n (Nat.lt_succ_self n))

/-- A product of two values that are each `>= 0` or NaN is `>= 0` or NaN. -/
theorem mul_nonneg_or_nan (a b : BaseFloat) (ha : ble (fin 0) a = true ∨ a = nan)
    (hb : ble (fin 0) b = true ∨ b = nan) :
    ble (fin 0) (a * b) = true ∨ a * b = nan := by
  cases a with
  | nan => exact Or.inr rfl
  | ninf => simp [ble] at ha
  | pinf =>
    cases b with
    | nan => exact Or.inr rfl
    | ninf => simp [ble] at hb
    | pinf => exact Or.inl rfl
    | fin q =>
      have hq : 0 ≤ q := by simpa [ble] using hb
      show ble (fin 0) (ofSign q) = true ∨ ofSign q = nan
      rcases ofSign_of_nonneg q hq with h | h <;> rw [h]
      · exact Or.inl rfl
      · exact Or.inr rfl
  | fin p =>
    have hp : 0 ≤ p := by simpa [ble] using ha
    cases b with
    | nan => exact Or.inr rfl
    | ninf => simp [ble] at hb
    | pinf =>
      show ble (fin 0) (ofSign p) = true ∨ ofSign p = nan
      rcases ofSign_of_nonneg p hp with h | h <;> rw [h]
      · exact Or.inl rfl
      · exact Or.inr rfl
    | fin q =>
      have hq : 0 ≤ q := by simpa [ble] using hb
      exact Or.inl (by simpa [mul_def, mul, ble] using mul_nonneg hp hq)

/-- The value `-0.5 * c` is `<= 0` or NaN when `c` is `>= 0` or NaN. -/
theorem neg_half_mul_nonpos_or_nan (c : BaseFloat) (hc : ble (fin 0) c = true ∨ c = nan) :
    ble (fin (-1/2) * c) (fin 0) = true ∨ fin (-1/2) * c = nan := by
  cases c with
  | nan => exact Or.inr rfl
  | ninf => simp [ble] at hc
  | pinf =>
    show ble (ofSign (-1/2)) (fin 0) = true ∨ ofSign (-1/2) = nan
    rw [ofSign_of_neg _ (by norm_num)]
    exact Or.inl rfl
  | fin q =>
    have hq : 0 ≤ q := by simpa [ble] using hc
    refine Or.inl ?_
    simp only [fin_mul_fin, ble, decide_eq_true_eq]
    linarith

/-- A product of a value that is `<= 0` or NaN and a value that is `>= 0` or NaN is `<= 0`
or NaN. -/
theorem mul_nonpos_or_nan (a b : BaseFloat) (ha : ble a (fin 0) = true ∨ a = nan)
    (hb : ble (fin 0) b = true ∨ b = nan) :
    ble (a * b) (fin 0) = true ∨ a * b = nan := by
  cases a with
  | nan => exact Or.inr rfl
  | pinf => simp [ble] at ha
  | ninf =>
    cases b with
    | nan => exact Or.inr rfl
    | ninf => simp [ble] at hb
    | pinf => exact Or.inl rfl
    | fin q =>
      have hq : 0 ≤ q := by simpa [ble] using hb
      show ble (ofSign (-q)) (fin 0) = true ∨ ofSign (-q) = nan
      rcases ofSign_of_nonpos (-q) (by linarith) with h | h <;> rw [h]
      · exact Or.inl rfl
      · exact Or.inr rfl
  | fin p =>
    have hp : p ≤ 0 := by simpa [ble] using ha
    cases b with
    | nan => exact Or.inr rfl
    | ninf => simp [ble] at hb
    | pinf =>
      show ble (ofSign p) (fin 0) = true ∨ ofSign p = nan
      rcases ofSign_of_nonpos p hp with h | h <;> rw [h]
      · exact Or.inl rfl
      · exact Or.inr rfl
    | fin q =>
      have hq : 0 ≤ q := by simpa [ble] using hb
      exact Or.inl (by simpa [mul_def, mul, ble] using mul_nonpos_of_nonpos_of_nonneg hp hq)

end BaseFloat

/-- The sum of the squared entries of a matrix is `>= 0` or NaN. -/
theorem sumSquares_nonneg_or_nan (M : CuMatrix) :
    BaseFloat.ble (BaseFloat.fin 0) (sumSquares M) = true ∨ sumSquares M = BaseFloat.nan :=
  BaseFloat.sumRange_nonneg_or_nan _ _ fun _ _ =>
    BaseFloat.sumRange_nonneg_or_nan _ _ fun _ _ => BaseFloat.mul_self_nonneg_or_nan _

/-- The value `-0.5 * (weight * l2_regularize) * sum` of lines 138 and 148 is `<= 0` or NaN
when the weight and the constant are `>= 0` and the sum is a sum of squares. -/
theorem l2_value_nonpos_or_nan (w l : BaseFloat) (M : CuMatrix)
    (hw : BaseFloat.ble (BaseFloat.fin 0) w = true)
    (hl : BaseFloat.ble (BaseFloat.fin 0) l = true) :
    BaseFloat.ble (BaseFloat.fin (-1/2) * (w * l) * sumSquares M) (BaseFloat.fin 0) = true
      ∨ BaseFloat.fin (-1/2) * (w * l) * sumSquares M = BaseFloat.nan :=
  BaseFloat.mul_nonpos_or_nan _ _
    (BaseFloat.neg_half_mul_nonpos_or_nan _
      (BaseFloat.mul_nonneg_or_nan _ _ (Or.inl hw) (Or.inl hl)))
    (sumSquares_nonneg_or_nan M)

/-- C11 (amended): on every call with `l2_regularize >= 0` and `supervision.weight >= 0`
the returned `l2_term` is never `> 0`: it is `<= 0` or NaN, in the auxiliary-absent and in
the auxiliary-present branch. -/
theorem l2_term_nonpositive_or_nan (env : Collaborators) (opts : ChainTrainingOptions)
    (den_graph : DenominatorGraph) (supervision : Supervision)
    (nnet_output xent_output : CuMatrix) (nd xd : Option CuMatrix)
    (hw : BaseFloat.ble (BaseFloat.fin 0) supervision.weight = true)
    (hl : BaseFloat.ble (BaseFloat.fin 0) opts.l2_regularize = true) :
    (WellFormedCall env opts supervision nnet_output xent_output nd xd →
      ∃ r, ComputeChainObjfAndDeriv env opts den_graph supervision nnet_output xent_output
        nd xd = some r)
    ∧ ∀ r, ComputeChainObjfAndDeriv env opts den_graph supervision nnet_output xent_output
        nd xd = some r →
        BaseFloat.ble r.l2_term (BaseFloat.fin 0) = true ∨ r.l2_term = BaseFloat.nan := by
  refine ⟨computeChainObjfAndDeriv_returns env opts den_graph supervision nnet_output
    xent_output nd xd, ?_⟩
  intro r hr
  obtain ⟨a, _, l2, _, _, hl2r, _, _, _, hterm, _⟩ := computeChainObjfAndDeriv_eq_some env
    opts den_graph supervision nnet_output xent_output nd xd r hr
  cases hz : opts.l2_regularize.beq (BaseFloat.fin 0) with
  | true =>
    rw [l2Regularization_zero opts supervision nnet_output xent_output _ _ hz] at hl2r
    cases hl2r
    rw [hterm]
    exact Or.inl (by simp [BaseFloat.ble])
  | false =>
    by_cases hx : xent_output.numRows = 0
    · have hres := l2Regularization_absent_eq_some opts supervision nnet_output xent_output
        _ _ l2 hz hx hl2r
      rw [hterm, hres]
      exact l2_value_nonpos_or_nan _ _ nnet_output hw hl
    · obtain ⟨scale, offset, od, _, _, h1, _⟩ := l2Regularization_present opts supervision
        nnet_output xent_output _ _ l2 hz hx hl2r
      rw [hterm, h1]
      exact l2_value_nonpos_or_nan _ _ od hw hl

/-- C11 (amended) on the two-by-two example with `l2_regularize = 1` (auxiliary output
present) and on the scenario with `l2_regularize = 1/2` (auxiliary output absent): the
call returns and the returned `l2_term` is `<= 0` or NaN. -/
theorem l2_term_nonpositive_or_nan_witness :
    (∃ r, ComputeChainObjfAndDeriv (scenarioCollaborators true)
        { l2_regularize := BaseFloat.fin 1 } {} squareSupervision squareOutput squareXent
        (some squareBuffer) (some squareBuffer) = some r
      ∧ (BaseFloat.ble r.l2_term (BaseFloat.fin 0) = true ∨ r.l2_term = BaseFloat.nan))
    ∧ (∃ r, ComputeChainObjfAndDeriv (scenarioCollaborators true)
        { l2_regularize := BaseFloat.fin (1/2) } {} (scenarioSupervision (BaseFloat.fin 1))
        scenarioOutput emptyMatrix (some scenarioBuffer) none = some r
      ∧ (BaseFloat.ble r.l2_term (BaseFloat.fin 0) = true ∨ r.l2_term = BaseFloat.nan)) := by
  have h1 := l2_term_nonpositive_or_nan (scenarioCollaborators true)
    { l2_regularize := BaseFloat.fin 1 } {} squareSupervision squareOutput squareXent
    (some squareBuffer) (some squareBuffer) (by simp [squareSupervision, BaseFloat.ble])
    (by simp [BaseFloat.ble])
  have h2 := l2_term_nonpositive_or_nan (scenarioCollaborators true)
    { l2_regularize := BaseFloat.fin (1/2) } {} (scenarioSupervision (BaseFloat.fin 1))
    scenarioOutput emptyMatrix (some scenarioBuffer) none
    (by simp [scenarioSupervision, BaseFloat.ble]) (by simp [BaseFloat.ble])
  obtain ⟨r1, hr1⟩ := h1.1 (wellFormed_of_square _ _ _ _ rfl (bufShape_some _ _ ⟨rfl, rfl⟩)
    (bufShape_some _ _ ⟨rfl, rfl⟩))
  obtain ⟨r2, hr2⟩ := h2.1 (scenario_wellFormed true _ _ none (bufShape_none _))
  exact ⟨⟨r1, hr1, h1.2 r1 hr1⟩, ⟨r2, hr2, h2.2 r2 hr2⟩⟩

/-! ## The offset of lines 128-131 -/

/-- C19 as stated fails, on two inputs on which the branch completes.  On the two-by-two
example with a NaN first entry of `nnet_output` the offset of the first column is NaN, not
zero: line 128 multiplies the NaN entry by the zero entry of `ones`.  On the two-by-two
example with finite entries and a second column of `xent_output` identically zero the
offset of that column is NaN as well: lines 130-131 multiply the scale `0 / 0` by zero. -/
theorem offset_is_not_the_zero_vector :
    (∃ r scale offset, ComputeChainObjfAndDeriv nanCollaborators
        { l2_regularize := BaseFloat.fin 1 } {} squareSupervision divergedSquareOutput
        squareXent (some squareBuffer) none = some r
      ∧ scaleAndOffset divergedSquareOutput squareXent = some (scale, offset)
      ∧ offset.data 0 = BaseFloat.nan ∧ offset.data 0 ≠ BaseFloat.fin 0)
    ∧ (∃ r scale offset, ComputeChainObjfAndDeriv (scenarioCollaborators true)
        { l2_regularize := BaseFloat.fin 1 } {} squareSupervision squareOutput
        zeroColumnXent (some squareBuffer) none = some r
      ∧ scaleAndOffset squareOutput zeroColumnXent = some (scale, offset)
      ∧ offset.data 1 = BaseFloat.nan ∧ offset.data 1 ≠ BaseFloat.fin 0) := by
  obtain ⟨r, hr⟩ := computeChainObjfAndDeriv_returns nanCollaborators
    { l2_regularize := BaseFloat.fin 1 } {} squareSupervision divergedSquareOutput
    squareXent (some squareBuffer) none
    { rows := by simp [squareSupervision, divergedSquareOutput, CuMatrix.setEntry,
        squareOutput, CuMatrix.ofRows]
      num_sequences_pos := by simp [squareSupervision]
      frames_nonneg := by simp [squareSupervision]
      xent_shape := fun _ => ⟨rfl, rfl⟩
      nnet_deriv_shape := bufShape_some _ _ ⟨rfl, rfl⟩
      xent_deriv_shape := bufShape_none _
      verbose_needs_deriv := fun _ => rfl
      l2_square := fun _ _ => rfl }
  obtain ⟨r2, hr2⟩ := computeChainObjfAndDeriv_returns (scenarioCollaborators true)
    { l2_regularize := BaseFloat.fin 1 } {} squareSupervision squareOutput
    zeroColumnXent (some squareBuffer) none
    { rows := by simp [squareSupervision, squareOutput, CuMatrix.ofRows]
      num_sequences_pos := by simp [squareSupervision]
      frames_nonneg := by simp [squareSupervision]
      xent_shape := fun _ => ⟨rfl, rfl⟩
      nnet_deriv_shape := bufShape_some _ _ ⟨rfl, rfl⟩
      xent_deriv_shape := bufShape_none _
      verbose_needs_deriv := fun _ => rfl
      l2_square := fun _ _ => rfl }
  have hsum : (BaseFloat.sumRange squareXent.numRows fun k =>
      divergedSquareOutput.data k 0 * BaseFloat.fin 0) = BaseFloat.nan := by
    apply BaseFloat.sumRange_eq_nan _ _ 0 (by decide)
    simp [divergedSquareOutput, CuMatrix.setEntry]
  have hoff : ∀ x y : BaseFloat, x * (BaseFloat.sumRange squareXent.numRows fun k =>
      divergedSquareOutput.data k 0 * BaseFloat.fin 0) + y = BaseFloat.nan := by
    intro x y
    rw [hsum, BaseFloat.mul_nan, BaseFloat.nan_add]
  have hzero : ∃ scale offset, scaleAndOffset squareOutput zeroColumnXent =
      some (scale, offset) ∧ offset.data 1 = BaseFloat.nan := by
    refine ⟨_, _, scaleAndOffset_eq squareOutput zeroColumnXent ⟨rfl, rfl⟩ rfl, ?_⟩
    norm_num [squareOutput, zeroColumnXent, CuMatrix.ofRows, BaseFloat.sumRange,
      List.range_succ, BaseFloat.div_def, BaseFloat.div, BaseFloat.ofInt, BaseFloat.ofSign]
  obtain ⟨scale2, offset2, hso2, hnan2⟩ := hzero
  refine ⟨⟨r, _, _, hr, scaleAndOffset_eq divergedSquareOutput squareXent ⟨rfl, rfl⟩ rfl,
    hoff _ _, ?_⟩, ⟨r2, scale2, offset2, hr2, hso2, hnan2, ?_⟩⟩
  · intro hzero
    have hnan := (hoff _ _).symm.trans hzero
    cases hnan
  · rw [hnan2]
    intro h
    cases h

/-- The offset of lines 128-131 for a column of finite entries whose computed scale is
finite: the sums over the zero entries of `ones` are zero and so is the offset. -/
theorem column_offset_zero (nnet_output xent_output : CuMatrix) (i : Nat)
    (hR : xent_output.numRows ≠ 0)
    (hX : ∀ k, k < xent_output.numRows → (xent_output.data k i).isFinite = true)
    (hY : ∀ k, k < xent_output.numRows → (nnet_output.data k i).isFinite = true)
    (s : BaseFloat) (hs : s.isFinite = true) :
    (BaseFloat.fin 1 / BaseFloat.ofInt xent_output.numRows *
        BaseFloat.sumRange xent_output.numRows fun k =>
          nnet_output.data k i * BaseFloat.fin 0) +
      BaseFloat.fin (-1) / BaseFloat.ofInt xent_output.numRows *
        ((BaseFloat.sumRange xent_output.numRows fun k =>
          xent_output.data k i * BaseFloat.fin 0) * s) = BaseFloat.fin 0 := by
  have hy0 : (BaseFloat.sumRange xent_output.numRows fun k =>
      nnet_output.data k i * BaseFloat.fin 0) = BaseFloat.fin 0 := by
    rw [BaseFloat.sumRange_fin _ _ (fun _ => 0)
      (fun k hk => by rw [BaseFloat.eq_fin_toRat _ (hY k hk)]; simp)]
    simp
  have hx0 : (BaseFloat.sumRange xent_output.numRows fun k =>
      xent_output.data k i * BaseFloat.fin 0) = BaseFloat.fin 0 := by
    rw [BaseFloat.sumRange_fin _ _ (fun _ => 0)
      (fun k hk => by rw [BaseFloat.eq_fin_toRat _ (hX k hk)]; simp)]
    simp
  have hRq : (xent_output.numRows : ℚ) ≠ 0 := by
    exact_mod_cast hR
  rw [hy0, hx0, BaseFloat.eq_fin_toRat s hs]
  simp [BaseFloat.ofInt, BaseFloat.div_def, BaseFloat.div, hRq]

/-- The fit of lines 120-131 on finite data, whenever it completes: the shapes agree, and
for every column whose computed scale is finite the offset is zero. -/
theorem present_fit_offset (nnet_output xent_output : CuMatrix) (scale offset : CuVector)
    (hso : scaleAndOffset nnet_output xent_output = some (scale, offset))
    (hx : xent_output.numRows ≠ 0)
    (hfn : nnet_output.IsFinite) (hfx : xent_output.IsFinite) :
    xent_output.SameDim nnet_output ∧ scale.dim = xent_output.numCols
      ∧ offset.dim = xent_output.numCols
      ∧ ∀ i, i < xent_output.numCols → (scale.data i).isFinite = true →
          offset.data i = BaseFloat.fin 0 := by
  obtain ⟨hsame, hsq⟩ := (scaleAndOffset_isSome_iff nnet_output xent_output).mp
    (by rw [hso]; rfl)
  rw [scaleAndOffset_eq nnet_output xent_output hsame hsq] at hso
  cases hso
  refine ⟨hsame, rfl, rfl, ?_⟩
  intro i hi hs
  exact column_offset_zero nnet_output xent_output i hx
    (fun k hk => hfx k i hk hi)
    (fun k hk => hfn k i (hsame.1 ▸ hk) (hsame.2 ▸ hi)) _ hs

/-- C19 (amended): the vector `ones` is zero-filled and never assigned, so on every call
with finite entries of `nnet_output` and `xent_output` on which the auxiliary-present
branch completes, for every column `i` whose computed `scale_i` is finite the computed
`offset_i` is zero and `output_diff_ji = scale_i * xent_output_ji - nnet_output_ji`; when
every computed `scale_i` is finite,
`l2_term = -0.5 * scale_coeff * sum_ji (scale_i * xent_output_ji - nnet_output_ji)^2`. -/
theorem offset_is_zero_for_finite_scale (env : Collaborators) (opts : ChainTrainingOptions)
    (den_graph : DenominatorGraph) (supervision : Supervision)
    (nnet_output xent_output : CuMatrix) (nd xd : Option CuMatrix)
    (hx : xent_output.numRows ≠ 0)
    (hl2 : opts.l2_regularize.beq (BaseFloat.fin 0) = false)
    (hfn : nnet_output.IsFinite) (hfx : xent_output.IsFinite) :
    (WellFormedCall env opts supervision nnet_output xent_output nd xd →
      ∃ r, ComputeChainObjfAndDeriv env opts den_graph supervision nnet_output xent_output
        nd xd = some r)
    ∧ ∀ r, ComputeChainObjfAndDeriv env opts den_graph supervision nnet_output xent_output
        nd xd = some r →
          ∃ scale offset output_diff,
            scaleAndOffset nnet_output xent_output = some (scale, offset)
            ∧ outputDiff nnet_output xent_output scale offset = some output_diff
            ∧ (∀ i, i < xent_output.numCols → (scale.data i).isFinite = true →
                offset.data i = BaseFloat.fin 0
                ∧ ∀ j, j < xent_output.numRows →
                    output_diff.data j i =
                      scale.data i * xent_output.data j i - nnet_output.data j i)
            ∧ ((∀ i, i < xent_output.numCols → (scale.data i).isFinite = true) →
                r.l2_term =
                  BaseFloat.fin (-1/2) * (supervision.weight * opts.l2_regularize) *
                    BaseFloat.sumRange xent_output.numRows fun j =>
                      BaseFloat.sumRange xent_output.numCols fun i =>
                        (scale.data i * xent_output.data j i - nnet_output.data j i) *
                          (scale.data i * xent_output.data j i - nnet_output.data j i)) := by
  refine ⟨computeChainObjfAndDeriv_returns env opts den_graph supervision nnet_output
    xent_output nd xd, ?_⟩
  intro r hr
  obtain ⟨a, _, l2, _, _, hl2r, _, _, _, hterm, _⟩ := computeChainObjfAndDeriv_eq_some env
    opts den_graph supervision nnet_output xent_output nd xd r hr
  obtain ⟨scale, offset, od, hso, hod, h1, _⟩ := l2Regularization_present opts supervision
    nnet_output xent_output _ _ l2 hl2 hx hl2r
  obtain ⟨hsame, hsd, hod2, hfit⟩ := present_fit_offset nnet_output xent_output scale
    offset hso hx hfn hfx
  have hod3 := hod
  rw [outputDiff_eq nnet_output xent_output scale offset hsame hsd hod2] at hod3
  cases hod3
  have hentry : ∀ j i, j < xent_output.numRows → i < xent_output.numCols →
      (scale.data i).isFinite = true →
      xent_output.data j i * scale.data i + offset.data i +
        BaseFloat.fin (-1) * nnet_output.data j i =
      scale.data i * xent_output.data j i - nnet_output.data j i := by
    intro j i hj hi hs
    rw [hfit i hi hs]
    exact BaseFloat.affine_zero_offset _ _ _ (hfx j i hj hi) hs
      (hfn j i (hsame.1 ▸ hj) (hsame.2 ▸ hi))
  refine ⟨scale, offset, _, hso, hod,
    fun i hi hs => ⟨hfit i hi hs, fun j hj => hentry j i hj hi hs⟩, ?_⟩
  intro hall
  rw [hterm, h1]
  congr 1
  unfold sumSquares
  apply BaseFloat.sumRange_congr
  intro j hj
  apply BaseFloat.sumRange_congr
  intro i hi
  show (_ + _ + _) * (_ + _ + _) = _
  rw [hentry j i hj hi (hall i hi)]

/-- C19 (amended) on the two-by-two example: the call returns, the computed scale of both
columns is finite (`3/5` and `1`), both offsets are zero, `output_diff(0,0) = 3/5 * 1 - 1`
and `l2_term = -1/2 * ((3/5 - 1)^2 + (6/5 - 1)^2)`. -/
theorem offset_is_zero_for_finite_scale_witness :
    ∃ r scale offset output_diff, ComputeChainObjfAndDeriv (scenarioCollaborators true)
        { l2_regularize := BaseFloat.fin 1 } {} squareSupervision squareOutput squareXent
        (some squareBuffer) (some squareBuffer) = some r
      ∧ scaleAndOffset squareOutput squareXent = some (scale, offset)
      ∧ outputDiff squareOutput squareXent scale offset = some output_diff
      ∧ scale.data 0 = BaseFloat.fin (3/5) ∧ scale.data 1 = BaseFloat.fin 1
      ∧ offset.data 0 = BaseFloat.fin 0 ∧ offset.data 1 = BaseFloat.fin 0
      ∧ output_diff.data 0 0 = BaseFloat.fin (3/5) * BaseFloat.fin 1 - BaseFloat.fin 1
      ∧ r.l2_term = BaseFloat.fin (-1/10) := by
  have h := offset_is_zero_for_finite_scale (scenarioCollaborators true)
    { l2_regularize := BaseFloat.fin 1 } {} squareSupervision squareOutput squareXent
    (some squareBuffer) (some squareBuffer) (by decide) (by simp [BaseFloat.beq])
    (fun _ _ _ _ => rfl) (fun _ _ _ _ => rfl)
  obtain ⟨r, hr⟩ := h.1 (wellFormed_of_square _ _ _ _ rfl (bufShape_some _ _ ⟨rfl, rfl⟩)
    (bufShape_some _ _ ⟨rfl, rfl⟩))
  obtain ⟨scale, offset, od, hso, hod, hcol, hterm⟩ := h.2 r hr
  obtain ⟨S, O, D, hS, hD, hs0, hs1, _⟩ := square_fit
  rw [hS] at hso
  cases hso
  have hfs0 : (scale.data 0).isFinite = true := by rw [hs0]; rfl
  have hfs1 : (scale.data 1).isFinite = true := by rw [hs1]; rfl
  have hall : ∀ i, i < squareXent.numCols → (scale.data i).isFinite = true := by
    intro i hi
    have hi2 : i < 2 := hi
    interval_cases i
    · exact hfs0
    · exact hfs1
  have hd00 := (hcol 0 (by decide) hfs0).2 0 (by decide)
  rw [hs0] at hd00
  refine ⟨r, _, _, _, hr, hS, hod, hs0, hs1, (hcol 0 (by decide) hfs0).1,
    (hcol 1 (by decide) hfs1).1, hd00, ?_⟩
  rw [hterm hall]
  norm_num [squareSupervision, squareXent, squareOutput, CuMatrix.ofRows, BaseFloat.sumRange,
    List.range_succ, hs0, hs1]

/-! ## The L2 gradient as a derivative -/

theorem sum_sum_ite_eq (R C j i : Nat) (hj : j < R) (hi : i < C) (f : Nat → Nat → ℚ) :
    ∑ r in Finset.range R, ∑ c in Finset.range C, (if r = j ∧ c = i then f r c else 0) =
      f j i := by
  rw [Finset.sum_eq_single j]
  · rw [Finset.sum_eq_single i]
    · simp
    · intro c _ hc
      simp [hc]
    · intro h
      exact absurd (Finset.mem_range.mpr hi) h
  · intro r _ hr
    simp [hr]
  · intro h
    exact absurd (Finset.mem_range.mpr hj) h

/-- The sum of squares after one entry is moved by `u`. -/
theorem sum_sum_sq_perturbed (R C j i : Nat) (hj : j < R) (hi : i < C) (D : Nat → Nat → ℚ)
    (u : ℚ) :
    ∑ r in Finset.range R, ∑ c in Finset.range C,
        (D r c + (if r = j ∧ c = i then u else 0)) * (D r c + (if r = j ∧ c = i then u else 0))
      = (∑ r in Finset.range R, ∑ c in Finset.range C, D r c * D r c) + 2 * D j i * u
          + u * u := by
  have hsplit : ∀ r c, (D r c + (if r = j ∧ c = i then u else 0)) *
      (D r c + (if r = j ∧ c = i then u else 0)) =
      D r c * D r c + (if r = j ∧ c = i then 2 * D r c * u + u * u else 0) := by
    intro r c
    split_ifs <;> ring
  simp only [hsplit, Finset.sum_add_distrib]
  rw [sum_sum_ite_eq R C j i hj hi (fun r c => 2 * D r c * u + u * u)]
  ring

/-- A term `-1/2 * c * (sum of squares)` in which one entry moves by `u * t` has at
`t = 0` the derivative `-(c * D j i * u)`. -/
theorem hasDerivAt_perturbed_sum (R C j i : Nat) (hj : j < R) (hi : i < C)
    (D : Nat → Nat → ℚ) (c u : ℚ) (F : ℚ → ℚ)
    (hF : ∀ t, F t = -1/2 * c * ∑ r in Finset.range R, ∑ k in Finset.range C,
      (D r k + (if r = j ∧ k = i then u * t else 0)) *
        (D r k + (if r = j ∧ k = i then u * t else 0))) :
    HasDerivAt F (-(c * D j i * u)) 0 := by
  have hpoly : F = fun t : ℚ =>
      (-1/2 * c * ∑ r in Finset.range R, ∑ k in Finset.range C, D r k * D r k)
        + (-(c * D j i * u)) * t - (c / 2 * (u * u)) * t ^ 2 := by
    funext t
    rw [hF t, sum_sum_sq_perturbed R C j i hj hi D (u * t)]
    ring
  rw [hpoly]
  have h1 : HasDerivAt (fun t : ℚ =>
      (-1/2 * c * ∑ r in Finset.range R, ∑ k in Finset.range C, D r k * D r k)
        + (-(c * D j i * u)) * t - (c / 2 * (u * u)) * t ^ 2)
      (0 + (-(c * D j i * u)) * 1 - (c / 2 * (u * u)) * (2 * (0 : ℚ) ^ (2 - 1) * 1)) 0 := by
    apply HasDerivAt.sub
    · apply HasDerivAt.add
      · exact hasDerivAt_const _ _
      · exact (hasDerivAt_id (0 : ℚ)).const_mul _
    · exact ((hasDerivAt_id (0 : ℚ)).pow 2).const_mul _
  simpa using h1

theorem l2TermAbsent_eq (scale_coeff : BaseFloat) (nnet_output : CuMatrix) :
    l2TermAbsent scale_coeff nnet_output =
      some (BaseFloat.fin (-1/2) * scale_coeff * sumSquares nnet_output) := by
  simp [l2TermAbsent, traceMatMat_self]

theorem l2TermPresent_eq (scale_coeff : BaseFloat) (nnet_output xent_output : CuMatrix)
    (scale offset : CuVector) (od : CuMatrix)
    (h : outputDiff nnet_output xent_output scale offset = some od) :
    l2TermPresent scale_coeff nnet_output xent_output scale offset =
      some (BaseFloat.fin (-1/2) * scale_coeff * sumSquares od) := by
  simp [l2TermPresent, h, traceMatMat_self]

/-- The entries of a matrix with one entry moved by `t`. -/
theorem addToEntry_data (M : CuMatrix) (j i : Nat) (t : ℚ) (r c : Nat)
    (h : (M.data j i).isFinite = true) (hrc : (M.data r c).isFinite = true) :
    (M.addToEntry j i t).data r c =
      BaseFloat.fin ((M.data r c).toRat + (if r = j ∧ c = i then t else 0)) := by
  unfold CuMatrix.addToEntry CuMatrix.setEntry
  by_cases hcond : r = j ∧ c = i
  · simp only [hcond, and_self, if_true]
    rw [BaseFloat.eq_fin_toRat _ h]
    rfl
  · simp only [hcond, if_false, add_zero]
    exact BaseFloat.eq_fin_toRat _ hrc

/-- The auxiliary-absent term with one entry of `nnet_output` moved by `t`. -/
theorem l2TermAbsent_perturbed (c : ℚ) (nnet_output : CuMatrix) (hfn : nnet_output.IsFinite)
    (j i : Nat) (hj : j < nnet_output.numRows) (hi : i < nnet_output.numCols) (t : ℚ) :
    termValue (l2TermAbsent (BaseFloat.fin c) (nnet_output.addToEntry j i t)) =
      -1/2 * c * ∑ r in Finset.range nnet_output.numRows,
        ∑ k in Finset.range nnet_output.numCols,
          ((nnet_output.data r k).toRat + (if r = j ∧ k = i then 1 * t else 0)) *
            ((nnet_output.data r k).toRat + (if r = j ∧ k = i then 1 * t else 0)) := by
  rw [l2TermAbsent_eq, sumSquares_fin (nnet_output.addToEntry j i t)
    (fun r k => (nnet_output.data r k).toRat + (if r = j ∧ k = i then 1 * t else 0))
    (fun r k hr hk => by
      rw [addToEntry_data nnet_output j i t r k (hfn j i hj hi) (hfn r k hr hk), one_mul])]
  simp [termValue, BaseFloat.toRat, CuMatrix.addToEntry, CuMatrix.setEntry]

/-- The auxiliary-present term, for finite data, scale and offset, with one entry of
`nnet_output` moved by `t`. -/
theorem l2TermPresent_nnet_perturbed (c : ℚ) (nnet_output xent_output : CuMatrix)
    (scale offset : CuVector) (hsame : xent_output.SameDim nnet_output)
    (hsd : scale.dim = xent_output.numCols) (hod : offset.dim = xent_output.numCols)
    (hfn : nnet_output.IsFinite) (hfx : xent_output.IsFinite)
    (hfs : ∀ k, k < xent_output.numCols → (scale.data k).isFinite = true)
    (hfo : ∀ k, k < xent_output.numCols → (offset.data k).isFinite = true)
    (j i : Nat) (hj : j < xent_output.numRows) (hi : i < xent_output.numCols) (t : ℚ) :
    termValue (l2TermPresent (BaseFloat.fin c) (nnet_output.addToEntry j i t) xent_output
        scale offset) =
      -1/2 * c * ∑ r in Finset.range xent_output.numRows,
        ∑ k in Finset.range xent_output.numCols,
          (((xent_output.data r k).toRat * (scale.data k).toRat + (offset.data k).toRat +
              -1 * (nnet_output.data r k).toRat) + (if r = j ∧ k = i then -1 * t else 0)) *
            (((xent_output.data r k).toRat * (scale.data k).toRat + (offset.data k).toRat +
              -1 * (nnet_output.data r k).toRat) + (if r = j ∧ k = i then -1 * t else 0)) := by
  have hsame2 : xent_output.SameDim (nnet_output.addToEntry j i t) := hsame
  rw [l2TermPresent_eq _ _ _ _ _ _
    (outputDiff_eq (nnet_output.addToEntry j i t) xent_output scale offset hsame2 hsd hod)]
  rw [sumSquares_fin _
    (fun r k => ((xent_output.data r k).toRat * (scale.data k).toRat + (offset.data k).toRat +
      -1 * (nnet_output.data r k).toRat) + (if r = j ∧ k = i then -1 * t else 0))
    (fun r k hr hk => by
      have hr2 : r < xent_output.numRows := hr
      have hk2 : k < xent_output.numCols := hk
      show xent_output.data r k * scale.data k + offset.data k +
        BaseFloat.fin (-1) * (nnet_output.addToEntry j i t).data r k = _
      rw [addToEntry_data nnet_output j i t r k
          (hfn j i (hsame.1 ▸ hj) (hsame.2 ▸ hi)) (hfn r k (hsame.1 ▸ hr2) (hsame.2 ▸ hk2)),
        BaseFloat.eq_fin_toRat _ (hfx r k hr2 hk2), BaseFloat.eq_fin_toRat _ (hfs k hk2),
        BaseFloat.eq_fin_toRat _ (hfo k hk2)]
      simp only [BaseFloat.fin_mul_fin, BaseFloat.fin_add_fin, BaseFloat.toRat]
      congr 1
      split_ifs <;> ring)]
  simp [termValue, BaseFloat.toRat]

/-- The auxiliary-present term, for finite data, scale and offset, with one entry of
`xent_output` moved by `t`. -/
theorem l2TermPresent_xent_perturbed (c : ℚ) (nnet_output xent_output : CuMatrix)
    (scale offset : CuVector) (hsame : xent_output.SameDim nnet_output)
    (hsd : scale.dim = xent_output.numCols) (hod : offset.dim = xent_output.numCols)
    (hfn : nnet_output.IsFinite) (hfx : xent_output.IsFinite)
    (hfs : ∀ k, k < xent_output.numCols → (scale.data k).isFinite = true)
    (hfo : ∀ k, k < xent_output.numCols → (offset.data k).isFinite = true)
    (j i : Nat) (hj : j < xent_output.numRows) (hi : i < xent_output.numCols) (t : ℚ) :
    termValue (l2TermPresent (BaseFloat.fin c) nnet_output (xent_output.addToEntry j i t)
        scale offset) =
      -1/2 * c * ∑ r in Finset.range xent_output.numRows,
        ∑ k in Finset.range xent_output.numCols,
          (((xent_output.data r k).toRat * (scale.data k).toRat + (offset.data k).toRat +
              -1 * (nnet_output.data r k).toRat) +
              (if r = j ∧ k = i then (scale.data i).toRat * t else 0)) *
            (((xent_output.data r k).toRat * (scale.data k).toRat + (offset.data k).toRat +
              -1 * (nnet_output.data r k).toRat) +
              (if r = j ∧ k = i then (scale.data i).toRat * t else 0)) := by
  have hsame2 : (xent_output.addToEntry j i t).SameDim nnet_output := hsame
  have hsd2 : scale.dim = (xent_output.addToEntry j i t).numCols := hsd
  have hod2 : offset.dim = (xent_output.addToEntry j i t).numCols := hod
  rw [l2TermPresent_eq _ _ _ _ _ _
    (outputDiff_eq nnet_output (xent_output.addToEntry j i t) scale offset hsame2 hsd2 hod2)]
  rw [sumSquares_fin _
    (fun r k => ((xent_output.data r k).toRat * (scale.data k).toRat + (offset.data k).toRat +
      -1 * (nnet_output.data r k).toRat) +
      (if r = j ∧ k = i then (scale.data i).toRat * t else 0))
    (fun r k hr hk => by
      have hr2 : r < xent_output.numRows := hr
      have hk2 : k < xent_output.numCols := hk
      show (xent_output.addToEntry j i t).data r k * scale.data k + offset.data k +
        BaseFloat.fin (-1) * nnet_output.data r k = _
      rw [addToEntry_data xent_output j i t r k (hfx j i hj hi) (hfx r k hr2 hk2),
        BaseFloat.eq_fin_toRat _ (hfn r k (hsame.1 ▸ hr2) (hsame.2 ▸ hk2)),
        BaseFloat.eq_fin_toRat _ (hfs k hk2), BaseFloat.eq_fin_toRat _ (hfo k hk2)]
      simp only [BaseFloat.fin_mul_fin, BaseFloat.fin_add_fin, BaseFloat.toRat]
      congr 1
      split_ifs with hcond
      · obtain ⟨_, hki⟩ := hcond
        subst hki
        ring
      · ring)]
  simp [termValue, BaseFloat.toRat, CuMatrix.addToEntry, CuMatrix.setEntry]

/-- C16: the L2 gradient contributions are the partial derivatives of the returned
`l2_term`.  On every call that returns, with finite data and a finite
`scale_coeff = supervision.weight * l2_regularize`, for every row `j` and column `i`, with
the buffers after the failure containment as the state the L2 step starts from:
in the auxiliary-absent branch the returned chain gradient buffer is that state plus
`-1.0 * scale_coeff * nnet_output` entry by entry, the returned `l2_term` is the value of
line 148, and the derivative of line 148 in `nnet_output(j,i)` is the amount added at
`(j,i)`; in the auxiliary-present branch the returned chain gradient buffer is that state
plus `scale_coeff * output_diff`, the returned auxiliary gradient buffer is that state plus
`-1.0 * scale_coeff * output_diff(p,q) * scale(q)`, the returned `l2_term` is the value of
lines 134-138, and, when every computed `scale` entry is finite, with the fitted scale and
offset held fixed the derivative of lines 134-138 in `nnet_output(j,i)` and in
`xent_output(j,i)` is the amount added at `(j,i)` to the chain and to the auxiliary
gradient buffer. -/
theorem l2_gradient_is_derivative (env : Collaborators) (opts : ChainTrainingOptions)
    (den_graph : DenominatorGraph) (supervision : Supervision)
    (nnet_output xent_output : CuMatrix) (nd xd : Option CuMatrix) (c : ℚ)
    (hc : supervision.weight * opts.l2_regularize = BaseFloat.fin c)
    (hl2 : opts.l2_regularize.beq (BaseFloat.fin 0) = false)
    (hfn : nnet_output.IsFinite)
    (hfx : xent_output.numRows ≠ 0 → xent_output.IsFinite)
    (j i : Nat) (hj : j < nnet_output.numRows) (hi : i < nnet_output.numCols) :
    (WellFormedCall env opts supervision nnet_output xent_output nd xd →
      ∃ r, ComputeChainObjfAndDeriv env opts den_graph supervision nnet_output xent_output
        nd xd = some r)
    ∧ ∀ a r, assembleObjfAndDeriv env opts den_graph supervision nnet_output nd xd = some a →
        ComputeChainObjfAndDeriv env opts den_graph supervision nnet_output xent_output
          nd xd = some r →
          (xent_output.numRows = 0 →
            r.nnet_output_deriv = a.nnet_output_deriv.map (fun m =>
              { m with data := fun p q => m.data p q +
                  BaseFloat.fin (-1) * (supervision.weight * opts.l2_regularize) *
                    nnet_output.data p q })
            ∧ l2TermAbsent (supervision.weight * opts.l2_regularize) nnet_output =
                some r.l2_term
            ∧ HasDerivAt
                (fun t : ℚ => termValue (l2TermAbsent
                  (supervision.weight * opts.l2_regularize) (nnet_output.addToEntry j i t)))
                (BaseFloat.fin (-1) * (supervision.weight * opts.l2_regularize) *
                  nnet_output.data j i).toRat 0)
          ∧ (xent_output.numRows ≠ 0 →
              ∃ scale offset output_diff,
                scaleAndOffset nnet_output xent_output = some (scale, offset)
                ∧ outputDiff nnet_output xent_output scale offset = some output_diff
                ∧ r.nnet_output_deriv = a.nnet_output_deriv.map (fun m =>
                    { m with data := fun p q => m.data p q +
                        supervision.weight * opts.l2_regularize * output_diff.data p q })
                ∧ r.xent_output_deriv = a.xent_output_deriv.map (fun m =>
                    { m with data := fun p q => m.data p q +
                        BaseFloat.fin (-1) * (supervision.weight * opts.l2_regularize) *
                          (output_diff.data p q * scale.data q) })
                ∧ l2TermPresent (supervision.weight * opts.l2_regularize) nnet_output
                    xent_output scale offset = some r.l2_term
                ∧ ((∀ k, k < xent_output.numCols → (scale.data k).isFinite = true) →
                    HasDerivAt
                        (fun t : ℚ => termValue (l2TermPresent
                          (supervision.weight * opts.l2_regularize)
                          (nnet_output.addToEntry j i t) xent_output scale offset))
                        (supervision.weight * opts.l2_regularize *
                          output_diff.data j i).toRat 0
                    ∧ HasDerivAt
                        (fun t : ℚ => termValue (l2TermPresent
                          (supervision.weight * opts.l2_regularize)
                          nnet_output (xent_output.addToEntry j i t) scale offset))
                        (BaseFloat.fin (-1) * (supervision.weight * opts.l2_regularize) *
                          (output_diff.data j i * scale.data i)).toRat 0)) := by
  refine ⟨computeChainObjfAndDeriv_returns env opts den_graph supervision nnet_output
    xent_output nd xd, ?_⟩
  intro a r ha hr
  obtain ⟨a2, _, l2, ha2, _, hl2r, _, _, _, hterm, hnd, hxd⟩ :=
    computeChainObjfAndDeriv_eq_some env opts den_graph supervision nnet_output xent_output
      nd xd r hr
  rw [ha] at ha2
  cases ha2
  constructor
  · intro hx
    have hres := l2Regularization_absent_eq_some opts supervision nnet_output xent_output
      _ _ l2 hl2 hx hl2r
    refine ⟨by rw [hnd, hres], by rw [l2TermAbsent_eq, hterm, hres], ?_⟩
    rw [hc]
    have hd := hasDerivAt_perturbed_sum nnet_output.numRows nnet_output.numCols j i hj hi
      (fun r k => (nnet_output.data r k).toRat) c 1
      (fun t => termValue (l2TermAbsent (BaseFloat.fin c) (nnet_output.addToEntry j i t)))
      (fun t => l2TermAbsent_perturbed c nnet_output hfn j i hj hi t)
    have hval : (BaseFloat.fin (-1) * BaseFloat.fin c * nnet_output.data j i).toRat =
        -(c * (nnet_output.data j i).toRat * 1) := by
      rw [BaseFloat.eq_fin_toRat _ (hfn j i hj hi)]
      simp [BaseFloat.toRat]
    rw [hval]
    exact hd
  · intro hx
    obtain ⟨scale, offset, od, hso, hod, h1, h2, h3⟩ := l2Regularization_present opts
      supervision nnet_output xent_output _ _ l2 hl2 hx hl2r
    obtain ⟨hsame, hsd, hod2, hfit⟩ := present_fit_offset nnet_output xent_output scale
      offset hso hx hfn (hfx hx)
    have hj2 : j < xent_output.numRows := hsame.1 ▸ hj
    have hi2 : i < xent_output.numCols := hsame.2 ▸ hi
    refine ⟨scale, offset, od, hso, hod, by rw [hnd, h2], by rw [hxd, h3],
      by rw [l2TermPresent_eq _ _ _ _ _ _ hod, hterm, h1], ?_⟩
    intro hfs
    have hfo : ∀ k, k < xent_output.numCols → (offset.data k).isFinite = true :=
      fun k hk => by rw [hfit k hk (hfs k hk)]; rfl
    have hod3 := hod
    rw [outputDiff_eq nnet_output xent_output scale offset hsame hsd hod2] at hod3
    cases hod3
    have hentry : xent_output.data j i * scale.data i + offset.data i +
        BaseFloat.fin (-1) * nnet_output.data j i =
        BaseFloat.fin ((xent_output.data j i).toRat * (scale.data i).toRat +
          (offset.data i).toRat + -1 * (nnet_output.data j i).toRat) := by
      rw [BaseFloat.eq_fin_toRat _ (hfx hx j i hj2 hi2),
        BaseFloat.eq_fin_toRat _ (hfs i hi2), BaseFloat.eq_fin_toRat _ (hfo i hi2),
        BaseFloat.eq_fin_toRat _ (hfn j i hj hi)]
      rfl
    refine ⟨?_, ?_⟩
    · rw [hc]
      have hd := hasDerivAt_perturbed_sum xent_output.numRows xent_output.numCols j i hj2 hi2
        (fun r k => (xent_output.data r k).toRat * (scale.data k).toRat +
          (offset.data k).toRat + -1 * (nnet_output.data r k).toRat) c (-1)
        (fun t => termValue (l2TermPresent (BaseFloat.fin c) (nnet_output.addToEntry j i t)
          xent_output scale offset))
        (fun t => l2TermPresent_nnet_perturbed c nnet_output xent_output scale offset hsame
          hsd hod2 hfn (hfx hx) hfs hfo j i hj2 hi2 t)
      have hval : (BaseFloat.fin c * (xent_output.data j i * scale.data i + offset.data i +
          BaseFloat.fin (-1) * nnet_output.data j i)).toRat =
          -(c * ((xent_output.data j i).toRat * (scale.data i).toRat +
            (offset.data i).toRat + -1 * (nnet_output.data j i).toRat) * -1) := by
        rw [hentry]
        simp only [BaseFloat.fin_mul_fin, BaseFloat.toRat]
        ring
      show HasDerivAt _ (BaseFloat.fin c * (xent_output.data j i * scale.data i +
        offset.data i + BaseFloat.fin (-1) * nnet_output.data j i)).toRat 0
      rw [hval]
      exact hd
    · rw [hc]
      have hd := hasDerivAt_perturbed_sum xent_output.numRows xent_output.numCols j i hj2 hi2
        (fun r k => (xent_output.data r k).toRat * (scale.data k).toRat +
          (offset.data k).toRat + -1 * (nnet_output.data r k).toRat) c (scale.data i).toRat
        (fun t => termValue (l2TermPresent (BaseFloat.fin c) nnet_output
          (xent_output.addToEntry j i t) scale offset))
        (fun t => l2TermPresent_xent_perturbed c nnet_output xent_output scale offset hsame
          hsd hod2 hfn (hfx hx) hfs hfo j i hj2 hi2 t)
      have hval : (BaseFloat.fin (-1) * BaseFloat.fin c *
          ((xent_output.data j i * scale.data i + offset.data i +
            BaseFloat.fin (-1) * nnet_output.data j i) * scale.data i)).toRat =
          -(c * ((xent_output.data j i).toRat * (scale.data i).toRat +
            (offset.data i).toRat + -1 * (nnet_output.data j i).toRat) *
              (scale.data i).toRat) := by
        rw [hentry]
        obtain ⟨sq, hsq⟩ := (BaseFloat.isFinite_iff _).mp (hfs i hi2)
        rw [hsq]
        simp only [BaseFloat.fin_mul_fin, BaseFloat.toRat]
        ring
      show HasDerivAt _ (BaseFloat.fin (-1) * BaseFloat.fin c *
        ((xent_output.data j i * scale.data i + offset.data i +
          BaseFloat.fin (-1) * nnet_output.data j i) * scale.data i)).toRat 0
      rw [hval]
      exact hd

/-- C16 on the two-by-two example with `l2_regularize = 1` (auxiliary output present,
entry `(0,0)`: `output_diff = -2/5`, `scale = 3/5`) and on the scenario with
`l2_regularize = 1/2` (auxiliary output absent, entry `(4,1)` of value `10`): the call
returns, the returned buffers are the buffers after the failure containment plus `-2/5`,
`6/25` and `-5` at that entry, and these amounts are the derivatives of the L2 term. -/
theorem l2_gradient_is_derivative_witness :
    (∃ a r scale offset output_diff ma m xa x,
        assembleObjfAndDeriv (scenarioCollaborators true) { l2_regularize := BaseFloat.fin 1 }
          {} squareSupervision squareOutput (some squareBuffer) (some squareBuffer) = some a
      ∧ ComputeChainObjfAndDeriv (scenarioCollaborators true)
        { l2_regularize := BaseFloat.fin 1 } {} squareSupervision squareOutput squareXent
        (some squareBuffer) (some squareBuffer) = some r
      ∧ scaleAndOffset squareOutput squareXent = some (scale, offset)
      ∧ outputDiff squareOutput squareXent scale offset = some output_diff
      ∧ a.nnet_output_deriv = some ma ∧ r.nnet_output_deriv = some m
      ∧ m.data 0 0 = ma.data 0 0 + BaseFloat.fin (-2/5)
      ∧ HasDerivAt
          (fun t : ℚ => termValue (l2TermPresent (squareSupervision.weight * BaseFloat.fin 1)
            (squareOutput.addToEntry 0 0 t) squareXent scale offset)) (-2/5) 0
      ∧ a.xent_output_deriv = some xa ∧ r.xent_output_deriv = some x
      ∧ x.data 0 0 = xa.data 0 0 + BaseFloat.fin (6/25)
      ∧ HasDerivAt
          (fun t : ℚ => termValue (l2TermPresent (squareSupervision.weight * BaseFloat.fin 1)
            squareOutput (squareXent.addToEntry 0 0 t) scale offset)) (6/25) 0)
    ∧ (∃ a r ma m,
        assembleObjfAndDeriv (scenarioCollaborators true)
          { l2_regularize := BaseFloat.fin (1/2) } {} (scenarioSupervision (BaseFloat.fin 1))
          scenarioOutput (some scenarioBuffer) none = some a
      ∧ ComputeChainObjfAndDeriv (scenarioCollaborators true)
        { l2_regularize := BaseFloat.fin (1/2) } {} (scenarioSupervision (BaseFloat.fin 1))
        scenarioOutput emptyMatrix (some scenarioBuffer) none = some r
      ∧ a.nnet_output_deriv = some ma ∧ r.nnet_output_deriv = some m
      ∧ m.data 4 1 = ma.data 4 1 + BaseFloat.fin (-5)
      ∧ HasDerivAt
          (fun t : ℚ => termValue (l2TermAbsent
            ((scenarioSupervision (BaseFloat.fin 1)).weight * BaseFloat.fin (1/2))
            (scenarioOutput.addToEntry 4 1 t))) (-5) 0) := by
  have h1 := l2_gradient_is_derivative (scenarioCollaborators true)
    { l2_regularize := BaseFloat.fin 1 } {} squareSupervision squareOutput squareXent
    (some squareBuffer) (some squareBuffer) 1 (by norm_num [squareSupervision])
    (by simp [BaseFloat.beq]) (fun _ _ _ _ => rfl) (fun _ _ _ _ _ => rfl)
    0 0 (by decide) (by decide)
  have h2 := l2_gradient_is_derivative (scenarioCollaborators true)
    { l2_regularize := BaseFloat.fin (1/2) } {} (scenarioSupervision (BaseFloat.fin 1))
    scenarioOutput emptyMatrix (some scenarioBuffer) none (1/2)
    (by norm_num [scenarioSupervision]) (by simp [BaseFloat.beq]) (fun _ _ _ _ => rfl)
    (fun h => absurd rfl h) 4 1 (by decide) (by decide)
  obtain ⟨r1, hr1⟩ := h1.1 (wellFormed_of_square _ _ _ _ rfl (bufShape_some _ _ ⟨rfl, rfl⟩)
    (bufShape_some _ _ ⟨rfl, rfl⟩))
  obtain ⟨r2, hr2⟩ := h2.1 (scenario_wellFormed true _ _ none (bufShape_none _))
  obtain ⟨a1, _, _, ha1, _⟩ := computeChainObjfAndDeriv_eq_some _ _ _ _ _ _ _ _ r1 hr1
  obtain ⟨a2, _, _, ha2, _⟩ := computeChainObjfAndDeriv_eq_some _ _ _ _ _ _ _ _ r2 hr2
  obtain ⟨scale, offset, od, hso, hod, hnd, hxd, _, hder⟩ := (h1.2 a1 r1 ha1 hr1).2 (by decide)
  obtain ⟨hnd2, _, hda⟩ := (h2.2 a2 r2 ha2 hr2).1 rfl
  have hn1 := assembleObjfAndDeriv_normal _ _ _ _ _ _ _ a1 ha1 rfl (fun _ => rfl)
  have hn2 := assembleObjfAndDeriv_normal _ _ _ _ _ _ _ a2 ha2 rfl (fun _ => rfl)
  obtain ⟨S, O, D, hS, hD, hs0, hs1, _, _, hd00, _⟩ := square_fit
  have hso2 := hso
  rw [hS] at hso2
  cases hso2
  have hod2 := hod
  rw [hD] at hod2
  cases hod2
  have hall : ∀ k, k < squareXent.numCols → (scale.data k).isFinite = true := by
    intro k hk
    have hk2 : k < 2 := hk
    interval_cases k
    · rw [hs0]; rfl
    · rw [hs1]; rfl
  obtain ⟨hdn, hdx⟩ := hder hall
  have hv1 : squareSupervision.weight * BaseFloat.fin 1 * od.data 0 0 =
      BaseFloat.fin (-2/5) := by
    rw [hd00]
    norm_num [squareSupervision]
  have hv2 : BaseFloat.fin (-1) * (squareSupervision.weight * BaseFloat.fin 1) *
      (od.data 0 0 * scale.data 0) = BaseFloat.fin (6/25) := by
    rw [hd00, hs0]
    norm_num [squareSupervision]
  have hv3 : BaseFloat.fin (-1) *
      ((scenarioSupervision (BaseFloat.fin 1)).weight * BaseFloat.fin (1/2)) *
      scenarioOutput.data 4 1 = BaseFloat.fin (-5) := by
    norm_num [scenarioSupervision, scenarioOutput, CuMatrix.ofRows]
  have hq1 : (-2/5 : ℚ) = (squareSupervision.weight * BaseFloat.fin 1 * od.data 0 0).toRat := by
    rw [hv1]; rfl
  have hq2 : (6/25 : ℚ) = (BaseFloat.fin (-1) * (squareSupervision.weight * BaseFloat.fin 1) *
      (od.data 0 0 * scale.data 0)).toRat := by
    rw [hv2]; rfl
  have hq3 : (-5 : ℚ) = (BaseFloat.fin (-1) *
      ((scenarioSupervision (BaseFloat.fin 1)).weight * BaseFloat.fin (1/2)) *
      scenarioOutput.data 4 1).toRat := by
    rw [hv3]; rfl
  subst hn1
  subst hn2
  simp only [Option.map_some'] at hnd hxd hnd2
  refine ⟨⟨_, r1, scale, offset, od, _, _, _, _, ha1, hr1, hso, hod, rfl, hnd, ?_, ?_, rfl,
    hxd, ?_, ?_⟩, ⟨_, r2, _, _, ha2, hr2, rfl, hnd2, ?_, ?_⟩⟩
  · show _ + squareSupervision.weight * BaseFloat.fin 1 * od.data 0 0 = _
    rw [hv1]
  · rw [hq1]
    exact hdn
  · show _ + BaseFloat.fin (-1) * (squareSupervision.weight * BaseFloat.fin 1) *
      (od.data 0 0 * scale.data 0) = _
    rw [hv2]
  · rw [hq2]
    exact hdx
  · show _ + BaseFloat.fin (-1) *
      ((scenarioSupervision (BaseFloat.fin 1)).weight * BaseFloat.fin (1/2)) *
      scenarioOutput.data 4 1 = _
    rw [hv3]
  · rw [hq3]
    exact hda

end kaldi
